import Mathlib

/-!
# MediQ admin panel: slot and queue pages

A shallow embedding of the doctor-facing pages of the admin panel
(`SlotQueueManagement.jsx`, `AvailabilityManagement.jsx`) and of the helpers of
`AppContext.jsx`.  A handler of a page is a function from the component state it
closes over and the answers of the outside world (backend replies, the confirm
dialog, the clock) to the state once every promise it started has settled,
together with the toasts and the requests it issued, in order.  `console.log`
and `console.error` calls are not recorded.  The scheduling engine behind the
pages is not among the sources; where a property is about it, it is modelled
from the specification and marked so.
-/

namespace MediQ

/-! ## JavaScript primitives used by the pages -/

/-- Truthiness of a JavaScript string: every string but the empty one. -/
def truthy (s : String) : Bool := s != ""

/-- The value of `a || d` for an optional string `a` (absent = `undefined`) and a
string `d`. -/
def orElse (a : Option String) (d : String) : String :=
  match a with
  | some s => if truthy s then s else d
  | none => d

/-- The UTF-16 code units of one character. -/
def utf16 (c : Char) : List Nat :=
  if c.toNat < 65536 then [c.toNat]
  else [55296 + (c.toNat - 65536) / 1024, 56320 + (c.toNat - 65536) % 1024]

/-- The UTF-16 code units of a string, the sequence JavaScript compares. -/
def codeUnits (s : String) : List Nat := (s.toList.map utf16).flatten

/-- Lexicographic comparison of code-unit sequences: a proper initial segment is
smaller, otherwise the first differing unit decides. -/
def ltUnits : List Nat → List Nat → Bool
  | _, [] => false
  | [], _ :: _ => true
  | a :: as, b :: bs => if a < b then true else if b < a then false else ltUnits as bs

/-- The JavaScript comparison `a < b` of two strings. -/
def strLt (a b : String) : Bool := ltUnits (codeUnits a) (codeUnits b)

/-- The pieces of `cs` between occurrences of the separator, as `split(sep)`
gives them for a one-character separator: always at least one piece. -/
def splitOnChar (sep : Char) : List Char → List (List Char)
  | [] => [[]]
  | c :: cs =>
    if c = sep then [] :: splitOnChar sep cs
    else
      match splitOnChar sep cs with
      | [] => [[c]]
      | p :: ps => (c :: p) :: ps

/-- The JavaScript `s.split(sep)` for a one-character separator. -/
def split (sep : Char) (s : String) : List String :=
  (splitOnChar sep s.toList).map String.mk

/-- White space skipped by `parseInt` at the start of its argument (ECMAScript
WhiteSpace and LineTerminator code points). -/
def isWhiteSpace (c : Char) : Bool :=
  let n := c.toNat
  n == 9 || n == 10 || n == 11 || n == 12 || n == 13 || n == 32 || n == 160 ||
  n == 5760 || (8192 ≤ n && n ≤ 8202) || n == 8232 || n == 8233 || n == 8239 ||
  n == 8287 || n == 12288 || n == 65279

/-- The value of a character read as a digit: `0`-`9`, then letters of either
case for ten to thirty-five. -/
def digitValue (c : Char) : Option Nat :=
  let n := c.toNat
  if 48 ≤ n ∧ n ≤ 57 then some (n - 48)
  else if 97 ≤ n ∧ n ≤ 122 then some (n - 87)
  else if 65 ≤ n ∧ n ≤ 90 then some (n - 55)
  else none

/-- The values of the longest initial run of digits below the radix. -/
def takeDigits (radix : Nat) : List Char → List Nat
  | [] => []
  | c :: cs =>
    match digitValue c with
    | some d => if d < radix then d :: takeDigits radix cs else []
    | none => []

/-- The number written by a list of digit values, most significant first. -/
def digitsValue (radix : Nat) (ds : List Nat) : Nat :=
  ds.foldl (fun acc d => acc * radix + d) 0

/-- The result of `parseInt`: `NaN` or an integer. -/
inductive ParsedInt
  | nan
  | val (n : Int)
  deriving DecidableEq, Repr

/-- The sign read by `parseInt` and the characters after it. -/
def readSign : List Char → Bool × List Char
  | '-' :: cs => (true, cs)
  | '+' :: cs => (false, cs)
  | cs => (false, cs)

/-- The radix `parseInt` settles on and the characters after a stripped `0x`
or `0X`; the two characters are stripped when no radix was given. -/
def readRadix (radix : Option Nat) : List Char → Nat × List Char
  | '0' :: 'x' :: cs => if radix.isNone then (16, cs) else (radix.getD 10, '0' :: 'x' :: cs)
  | '0' :: 'X' :: cs => if radix.isNone then (16, cs) else (radix.getD 10, '0' :: 'X' :: cs)
  | cs => (radix.getD 10, cs)

/-- The ECMAScript builtin `parseInt(s, radix)` for an omitted radix (`none`) or
radix ten: leading white space is skipped, a sign is read, `0x` selects base
sixteen when no radix was given, and the longest run of digits is read; with no
digit the result is `NaN`.  The number is exact: JavaScript agrees with it for
magnitudes below `2^53`. -/
def parseInt (s : String) (radix : Option Nat) : ParsedInt :=
  let cs := s.toList.dropWhile isWhiteSpace
  let (neg, cs) := readSign cs
  let (r, cs) := readRadix radix cs
  let ds := takeDigits r cs
  if ds.isEmpty then ParsedInt.nan
  else ParsedInt.val (if neg then - (digitsValue r ds : Int) else (digitsValue r ds : Int))

/-- The builtin `Math.max` on two integers. -/
def mathMax (a b : Int) : Int := if a < b then b else a

/-! ## What a handler shows and sends -/

/-- A react-toastify notification; the message is absent when the handler passes
`undefined`. -/
inductive Toast
  | error (msg : Option String)
  | warning (msg : Option String)
  | success (msg : Option String)
  deriving DecidableEq, Repr

/-- The weekly pattern of the slot form. -/
structure RecurringPattern where
  daysOfWeek : List Nat
  repeatUntil : String
  repeatCount : String
  deriving DecidableEq, Repr

/-- The value `JSON.stringify` writes for a number in a request body: `NaN` is
written as `null`. -/
def jsonNumber (v : ParsedInt) : Option Int :=
  match v with
  | ParsedInt.nan => none
  | ParsedInt.val n => some n

/-- The body of a create or update request of the availability page, as axios
writes it: `capacity` is a number or `null`. -/
structure SlotPayload where
  doctorId : String
  date : String
  startTime : String
  endTime : String
  slotPeriod : String
  capacity : Option Int
  isRecurring : Bool
  recurringPattern : Option RecurringPattern
  deriving DecidableEq, Repr

/-- An axios request of the two pages, with its body as it is written in JSON.
Every request carries the header `dToken`; `doctorId` is absent when the handler
interpolates `undefined`; `actualDuration` is a number or `null`. -/
inductive Request
  | getSlots (doctorId : Option String) (date : String)
  | getQueue (slotId : String)
  | startSession (slotId : String)
  | markCompleted (appointmentId : String) (actualDuration : Option Int)
  | markWrong (appointmentId : String)
  | listAvailability (doctorId : String) (date : String)
  | updateAvailability (slotId : String) (body : SlotPayload)
  | createAvailability (body : SlotPayload)
  deriving DecidableEq, Repr

/-- One observable step of a handler. -/
inductive Effect
  | toast (t : Toast)
  | request (r : Request)
  | uncaught
  deriving DecidableEq, Repr

/-- The requests among the effects. -/
def requests : List Effect → List Request
  | [] => []
  | Effect.request r :: es => r :: requests es
  | _ :: es => requests es

/-- The toasts among the effects. -/
def toasts : List Effect → List Toast
  | [] => []
  | Effect.toast t :: es => t :: toasts es
  | _ :: es => toasts es

/-- A rejected axios promise: `error.response?.status`,
`error.response?.data?.message` and `error.message`. -/
structure Failure where
  status : Option Nat
  responseMessage : Option String
  message : Option String
  deriving DecidableEq, Repr

/-- The outcome of an axios call: a body `data` with its `success` flag and
`message`, or a rejection. -/
inductive Reply (α : Type)
  | data (success : Bool) (message : Option String) (body : α)
  | thrown (e : Failure)

/-! ## The slot queue page (`SlotQueueManagement.jsx`) -/

/-- An appointment of a queue snapshot, with the fields the page reads.
`servingStartedAt` is a timestamp in milliseconds, absent when not set. -/
structure Appointment where
  _id : String
  slotTokenIndex : Int
  status : String
  servingStartedAt : Option Int
  deriving DecidableEq, Repr

/-- The `queueSnapshot` of a slot as the backend returns it; `appointments` is
absent when the field is missing. -/
structure QueueSnapshot where
  totalTokens : Int
  currentToken : Int
  servingSessionStarted : Bool
  servingAppointmentId : Option String
  appointments : Option (List Appointment)
  deriving DecidableEq, Repr

/-- A slot of the doctor's slot list. -/
structure Slot where
  _id : String
  slotPeriod : String
  startTime : String
  endTime : String
  totalTokens : Int
  currentToken : Int
  deriving DecidableEq, Repr

/-- The state of the slot queue page: the `useState` cells of the component and
the two values it takes from `DoctorContext`. -/
structure QueueState where
  dToken : String
  backendUrl : String
  selectedDate : String
  slots : List Slot
  selectedSlot : Option Slot
  queueData : Option QueueSnapshot
  appointments : List Appointment
  isLoading : Bool
  isCompleting : Bool
  isMarkingWrong : Bool
  isLoadingQueue : Bool
  actualDuration : String
  servingTimers : List (String × String)
  deriving DecidableEq, Repr

/-- What the outside world answers while a handler of the slot queue page runs:
the confirm dialog, `JSON.parse(atob(part)).id` for a token part (`none` when
`atob`, `JSON.parse` or the property read throws, `some none` when the payload
has no `id`), and the reply to each request. -/
structure QueueEnv where
  confirm : Bool
  payloadId : String → Option (Option String)
  slotsReply : Reply (List Slot)
  queueReply : Reply (Option QueueSnapshot)
  startSessionReply : Reply Unit
  markCompletedReply : Reply Unit
  markWrongReply : Reply Unit

/-- The comparator `(a, b) => a.slotTokenIndex - b.slotTokenIndex`. -/
def compareTokenIndex (a b : Appointment) : Int := a.slotTokenIndex - b.slotTokenIndex

/-- Insertion of one element into a list ordered by a comparator: the element
moves past those it compares greater than (a positive comparison) and stops at
the first one it does not. -/
def insertBy {α : Type} (cmp : α → α → Int) (x : α) : List α → List α
  | [] => [x]
  | y :: ys => if 0 < cmp x y then y :: insertBy cmp x ys else x :: y :: ys

/-- The builtin `Array.prototype.sort(cmp)` on a copy of the array: a stable
sort, elements whose comparison is not positive keeping their order. -/
def sortBy {α : Type} (cmp : α → α → Int) : List α → List α
  | [] => []
  | x :: xs => insertBy cmp x (sortBy cmp xs)

/-- The token part a handler decodes: `dToken.split(dot)[1]`, which `atob` turns
into the text `undefined` when the token has a single part. -/
def tokenPart (dToken : String) : String :=
  ((split '.' dToken).get? 1).getD "undefined"

/-- The callback `fetchSlots`: loads the slot list of the selected date. -/
def fetchSlots (st : QueueState) (env : QueueEnv) : QueueState × List Effect :=
  if !truthy st.dToken then (st, [])
  else
    match env.payloadId (tokenPart st.dToken) with
    | none =>
      ({ st with isLoading := false }, [Effect.toast (Toast.error (some "Failed to load slots"))])
    | some doctorId =>
      let req := Effect.request (Request.getSlots doctorId st.selectedDate)
      match env.slotsReply with
      | Reply.data success message slots =>
        if success then ({ st with slots := slots, isLoading := false }, [req])
        else ({ st with isLoading := false }, [req, Effect.toast (Toast.error message)])
      | Reply.thrown _ =>
        ({ st with isLoading := false },
          [req, Effect.toast (Toast.error (some "Failed to load slots"))])

/-- The truth value of `!selectedSlot?._id`. -/
def noSlotSelected (st : QueueState) : Bool :=
  match st.selectedSlot with
  | none => true
  | some slot => !truthy slot._id

/-- The `_id` of the selected slot, read after `noSlotSelected` failed. -/
def selectedSlotId (st : QueueState) : String :=
  match st.selectedSlot with
  | none => ""
  | some slot => slot._id

/-- The callback `fetchQueueData`: loads the queue snapshot of the selected slot and stores
its appointments sorted by token index. -/
def fetchQueueData (st : QueueState) (env : QueueEnv) : QueueState × List Effect :=
  if noSlotSelected st || !truthy st.dToken then (st, [])
  else
    let req := Effect.request (Request.getQueue (selectedSlotId st))
    match env.queueReply with
    | Reply.data success _ snapshot =>
      if success then
        match snapshot with
        | none =>
          ({ st with queueData := none, isLoadingQueue := false },
            [req, Effect.toast (Toast.error (some "Failed to load queue data"))])
        | some q =>
          match q.appointments with
          | some apts =>
            ({ st with queueData := some q, appointments := sortBy compareTokenIndex apts,
                       isLoadingQueue := false }, [req])
          | none =>
            ({ st with queueData := some q, appointments := [], isLoadingQueue := false }, [req])
      else ({ st with isLoadingQueue := false }, [req])
    | Reply.thrown _ =>
      ({ st with isLoadingQueue := false },
        [req, Effect.toast (Toast.error (some "Failed to load queue data"))])

/-- The two refreshes a handler starts after a successful mutation:
`fetchQueueData()` then `fetchSlots()`. -/
def refresh (st : QueueState) (env : QueueEnv) : QueueState × List Effect :=
  let r1 := fetchQueueData st env
  let r2 := fetchSlots r1.1 env
  (r2.1, r1.2 ++ r2.2)

/-- The handler `handleStartSession`: starts the serving session of the selected slot. -/
def handleStartSession (st : QueueState) (env : QueueEnv) : QueueState × List Effect :=
  if noSlotSelected st then (st, [Effect.toast (Toast.error (some "No slot selected"))])
  else if env.confirm then
    let req := Effect.request (Request.startSession (selectedSlotId st))
    match env.startSessionReply with
    | Reply.data success message _ =>
      if success then
        let r := refresh st env
        (r.1, [req, Effect.toast (Toast.success (some "Serving session started successfully"))]
                ++ r.2)
      else (st, [req, Effect.toast (Toast.error message)])
    | Reply.thrown e =>
      if e.status = some 409 then
        (st, [req, Effect.toast (Toast.error
          (some "The serving session has already been started for this queue."))])
      else
        (st, [req, Effect.toast (Toast.error
          (some (orElse e.responseMessage "Failed to start session")))])
  else (st, [])

/-- The condition under which the page renders the start-session button:
`!queueData.servingSessionStarted` inside the branch where `queueData` is set. -/
def startButtonShown (st : QueueState) : Bool :=
  match st.queueData with
  | none => false
  | some q => !q.servingSessionStarted

/-- The constant `duration` of `handleMarkCompleted`:
`actualDuration ? parseInt(actualDuration) : null`. -/
def enteredDuration (actualDuration : String) : Option ParsedInt :=
  if truthy actualDuration then some (parseInt actualDuration none) else none

/-- The field `actualDuration` of the mark-completed request as it is written
in the body: the constant `duration`, a `NaN` written as `null`. -/
def sentDuration (actualDuration : String) : Option Int :=
  (enteredDuration actualDuration).bind jsonNumber

/-- The body of `handleMarkCompleted` past its two guards: the request and the
handling of its reply. -/
def sendMarkCompleted (st : QueueState) (env : QueueEnv) (apt : Appointment) :
    QueueState × List Effect :=
  let req := Effect.request (Request.markCompleted apt._id (sentDuration st.actualDuration))
  match env.markCompletedReply with
  | Reply.data success message _ =>
    if success then
      let r := refresh { st with isCompleting := true, actualDuration := "" } env
      ({ r.1 with isCompleting := false },
        [req, Effect.toast (Toast.success (some "Token marked as completed"))] ++ r.2)
    else ({ st with isCompleting := false }, [req, Effect.toast (Toast.error message)])
  | Reply.thrown e =>
    ({ st with isCompleting := false },
      [req, Effect.toast (Toast.error
        (some (orElse e.responseMessage "Failed to mark as completed")))])

/-- The handler `handleMarkCompleted`: completes the appointment being served.  The argument
is absent for a `null` or `undefined` appointment. -/
def handleMarkCompleted (st : QueueState) (env : QueueEnv) (appointment : Option Appointment) :
    QueueState × List Effect :=
  match appointment with
  | none => (st, [Effect.toast (Toast.warning (some "Invalid appointment"))])
  | some apt =>
    if !truthy apt._id then (st, [Effect.toast (Toast.warning (some "Invalid appointment"))])
    else if apt.status != "SERVING" then
      (st, [Effect.toast (Toast.warning (some
        ("This appointment is not currently being served. Current status: " ++ apt.status)))])
    else sendMarkCompleted st env apt

/-- The guard of `handleMarkWrong`:
`appointment.status === SERVING && queueData.servingAppointmentId !== appointment._id`;
`none` when reading `queueData.servingAppointmentId` throws because no queue
data is loaded. -/
def notCurrentServing (st : QueueState) (apt : Appointment) : Option Bool :=
  if apt.status == "SERVING" then
    match st.queueData with
    | none => none
    | some q => some (q.servingAppointmentId != some apt._id)
  else some false

/-- The body of `handleMarkWrong` once the user has confirmed: the request and
the handling of its reply. -/
def sendMarkWrong (st : QueueState) (env : QueueEnv) (apt : Appointment) :
    QueueState × List Effect :=
  let req := Effect.request (Request.markWrong apt._id)
  match env.markWrongReply with
  | Reply.data success message _ =>
    if success then
      let r := refresh { st with isMarkingWrong := true } env
      ({ r.1 with isMarkingWrong := false },
        [req, Effect.toast (Toast.success (some "Token marked as wrong and skipped"))] ++ r.2)
    else ({ st with isMarkingWrong := false }, [req, Effect.toast (Toast.error message)])
  | Reply.thrown e =>
    ({ st with isMarkingWrong := false },
      [req, Effect.toast (Toast.error
        (some (orElse e.responseMessage "Failed to mark as wrong")))])

/-- The handler `handleMarkWrong`: marks an appointment as wrong and skips to the next token.
The argument is absent for a `null` or `undefined` appointment; the guard throws
outside any `try` when no queue data is loaded. -/
def handleMarkWrong (st : QueueState) (env : QueueEnv) (appointment : Option Appointment) :
    QueueState × List Effect :=
  match appointment with
  | none => (st, [Effect.toast (Toast.warning (some "Invalid appointment"))])
  | some apt =>
    if !truthy apt._id then (st, [Effect.toast (Toast.warning (some "Invalid appointment"))])
    else
      match notCurrentServing st apt with
      | none => (st, [Effect.uncaught])
      | some true =>
        (st, [Effect.toast (Toast.warning (some "This is not the current serving appointment."))])
      | some false => if env.confirm then sendMarkWrong st env apt else (st, [])

/-- The condition under which the page renders the Completed and Wrong buttons
of an appointment: `isServing`, that is `item.status === SERVING`. -/
def actionButtonsShown (item : Appointment) : Bool := item.status == "SERVING"

/-- The figure the page shows under `Remaining`:
`Math.max(0, queueData.totalTokens - queueData.currentToken)`. -/
def remainingShown (q : QueueSnapshot) : Int := mathMax 0 (q.totalTokens - q.currentToken)

/-! ## The availability page (`AvailabilityManagement.jsx`) -/

/-- The contents of the slot form; `recurringPattern` is absent when the field
holds a falsy value. -/
structure FormData where
  date : String
  startTime : String
  endTime : String
  slotPeriod : String
  capacity : String
  isRecurring : Bool
  recurringPattern : Option RecurringPattern
  deriving DecidableEq, Repr

/-- An availability slot of the list the backend returns. -/
structure AvailabilitySlot where
  _id : String
  date : String
  startTime : String
  endTime : String
  slotPeriod : String
  deriving DecidableEq, Repr

/-- The state of the availability page: the `useState` cells of the component
and the two values it takes from `DoctorContext`. -/
structure AvailabilityState where
  dToken : String
  backendUrl : String
  slots : List AvailabilitySlot
  isLoading : Bool
  showForm : Bool
  editingSlot : Option AvailabilitySlot
  selectedDate : String
  formData : FormData
  deriving DecidableEq, Repr

/-- What the outside world answers while a handler of the availability page
runs: the clock as `new Date().toISOString().split(T)[0]`, the token payload
reader (as in `QueueEnv`) and the reply to each request; `slots` is absent from
a reply when the field is missing. -/
structure AvailabilityEnv where
  today : String
  payloadId : String → Option (Option String)
  listReply : Reply (Option (List AvailabilitySlot))
  updateReply : Reply Unit
  createReply : Reply (Option (List AvailabilitySlot))

/-- The block commented `Safely decode JWT token`: the doctor id of the token
payload, or `none` when the block throws (not three parts, undecodable payload,
falsy id). -/
def decodeDoctorId (payloadId : String → Option (Option String)) (dToken : String) :
    Option String :=
  let tokenParts := split '.' dToken
  if tokenParts.length != 3 then none
  else
    match payloadId ((tokenParts.get? 1).getD "") with
    | none => none
    | some none => none
    | some (some doctorId) => if truthy doctorId then some doctorId else none

/-- The form as `resetForm` fills it. -/
def blankForm (today : String) : FormData :=
  { date := today, startTime := "10:00", endTime := "13:00", slotPeriod := "MORNING",
    capacity := "", isRecurring := false,
    recurringPattern := some { daysOfWeek := [], repeatUntil := "", repeatCount := "" } }

/-- The function `resetForm`: the blank form, nothing being edited. -/
def resetForm (st : AvailabilityState) (today : String) : AvailabilityState :=
  { st with formData := blankForm today, editingSlot := none }

/-- The callback `fetchAvailability` as created in a render whose `selectedDate` is `date`:
loads the doctor's slots of that date. -/
def fetchAvailabilityFor (date : String) (st : AvailabilityState) (env : AvailabilityEnv) :
    AvailabilityState × List Effect :=
  if !truthy st.dToken then
    ({ st with isLoading := false }, [Effect.toast (Toast.error (some "Please login again"))])
  else
    match decodeDoctorId env.payloadId st.dToken with
    | none =>
      ({ st with isLoading := false },
        [Effect.toast (Toast.error (some "Invalid token. Please login again"))])
    | some doctorId =>
      let req := Effect.request (Request.listAvailability doctorId date)
      match env.listReply with
      | Reply.data success message slots =>
        if success then ({ st with slots := slots.getD [], isLoading := false }, [req])
        else
          ({ st with isLoading := false },
            [req, Effect.toast (Toast.error (some (orElse message "Failed to load availability")))])
      | Reply.thrown e =>
        ({ st with isLoading := false },
          [req, Effect.toast (Toast.error (some
            (orElse e.responseMessage (orElse e.message "Failed to load availability"))))])

/-- The callback `fetchAvailability` of the current render. -/
def fetchAvailability (st : AvailabilityState) (env : AvailabilityEnv) :
    AvailabilityState × List Effect :=
  fetchAvailabilityFor st.selectedDate st env

/-- The message of the check on the form date. -/
def pastDateMessage : String :=
  "Cannot create slots for past dates. Please select today or a future date."

/-- The message of the check on the repeat-until date. -/
def pastRepeatUntilMessage : String :=
  "Repeat until date cannot be in the past. Please select today or a future date."

/-- The condition of the repeat-until check:
`formData.isRecurring && formData.recurringPattern` around
`repeatUntil && repeatUntil < today`. -/
def repeatUntilInPast (form : FormData) (today : String) : Bool :=
  form.isRecurring &&
    (match form.recurringPattern with
     | none => false
     | some pattern => truthy pattern.repeatUntil && strLt pattern.repeatUntil today)

/-- The object `payload` that `handleSubmit` builds, as it is written in the
request body: a `NaN` capacity is written as `null`. -/
def buildPayload (doctorId : String) (form : FormData) : SlotPayload :=
  { doctorId := doctorId,
    date := form.date,
    startTime := form.startTime,
    endTime := form.endTime,
    slotPeriod := form.slotPeriod,
    capacity := if truthy form.capacity then jsonNumber (parseInt form.capacity none) else none,
    isRecurring := form.isRecurring,
    recurringPattern := form.recurringPattern }

/-- The `selectedDate` after a successful create: the date of the first created
slot when there is one and it is truthy. -/
def dateAfterCreate (selectedDate : String) (created : List AvailabilitySlot) : String :=
  match created with
  | [] => selectedDate
  | slot :: _ => if truthy slot.date then slot.date else selectedDate

/-- The part of `handleSubmit` after the token is decoded: the payload, the
update of the slot being edited or the create request, and the handling of the
reply.  The refresh started after a create is the `fetchAvailability` of the
render the handler belongs to, so it asks for the old `selectedDate`. -/
def sendSubmit (st : AvailabilityState) (env : AvailabilityEnv) (doctorId : String) :
    AvailabilityState × List Effect :=
  let payload := buildPayload doctorId st.formData
  match st.editingSlot with
  | some slot =>
    let req := Effect.request (Request.updateAvailability slot._id payload)
    match env.updateReply with
    | Reply.data success message _ =>
      if success then
        let r := fetchAvailability (resetForm { st with showForm := false } env.today) env
        (r.1, [req, Effect.toast (Toast.success (some "Availability updated"))] ++ r.2)
      else
        (st, [req, Effect.toast (Toast.error
          (some (orElse message "Failed to update availability")))])
    | Reply.thrown e =>
      (st, [req, Effect.toast (Toast.error (some
        (orElse e.responseMessage (orElse e.message "Failed to save availability"))))])
  | none =>
    let req := Effect.request (Request.createAvailability payload)
    match env.createReply with
    | Reply.data success message slots =>
      if success then
        let createdSlots := slots.getD []
        let st1 := resetForm
          { st with selectedDate := dateAfterCreate st.selectedDate createdSlots,
                    showForm := false } env.today
        let r := fetchAvailabilityFor st.selectedDate st1 env
        (r.1, [req, Effect.toast (Toast.success
          (some ("Created " ++ toString createdSlots.length ++ " slot(s)")))] ++ r.2)
      else
        (st, [req, Effect.toast (Toast.error
          (some (orElse message "Failed to create availability")))])
    | Reply.thrown e =>
      (st, [req, Effect.toast (Toast.error (some
        (orElse e.responseMessage (orElse e.message "Failed to save availability"))))])

/-- The handler `handleSubmit`: checks the login, the form date and the repeat-until date,
decodes the token, then sends the update or create request. -/
def handleSubmit (st : AvailabilityState) (env : AvailabilityEnv) :
    AvailabilityState × List Effect :=
  if !truthy st.dToken then (st, [Effect.toast (Toast.error (some "Please login again"))])
  else if strLt st.formData.date env.today then
    (st, [Effect.toast (Toast.error (some pastDateMessage))])
  else if repeatUntilInPast st.formData env.today then
    (st, [Effect.toast (Toast.error (some pastRepeatUntilMessage))])
  else
    match decodeDoctorId env.payloadId st.dToken with
    | none => (st, [Effect.toast (Toast.error (some "Invalid token. Please login again"))])
    | some doctorId => sendSubmit st env doctorId

/-- The request `handleSubmit` sends for a decoded doctor id: an update of the
slot being edited, or a create. -/
def submitRequest (st : AvailabilityState) (doctorId : String) : Request :=
  match st.editingSlot with
  | some slot => Request.updateAvailability slot._id (buildPayload doctorId st.formData)
  | none => Request.createAvailability (buildPayload doctorId st.formData)

/-- Whether an axios call came back with a truthy `data.success`. -/
def Reply.succeeded {α : Type} : Reply α → Bool
  | Reply.data success _ _ => success
  | Reply.thrown _ => false

/-- Whether the backend accepted the request `handleSubmit` sends: the update
when a slot is being edited, the create otherwise. -/
def submitReplySucceeded (st : AvailabilityState) (env : AvailabilityEnv) : Bool :=
  match st.editingSlot with
  | some _ => env.updateReply.succeeded
  | none => env.createReply.succeeded

/-! ## Date formatting (`AppContext.jsx`) -/

/-- A JavaScript number: `NaN`, an infinity, or the finite number
`mantissa * 10 ^ exponent`. -/
inductive JsNumber
  | nan
  | inf (negative : Bool)
  | fin (mantissa : Int) (exponent : Int)
  deriving DecidableEq, Repr

/-- The comparison `v >= k` for an integer `k`. -/
def JsNumber.geInt (v : JsNumber) (k : Int) : Bool :=
  match v with
  | JsNumber.nan => false
  | JsNumber.inf negative => !negative
  | JsNumber.fin m e =>
    if 0 ≤ e then decide (k ≤ m * 10 ^ e.toNat) else decide (k * 10 ^ (-e).toNat ≤ m)

/-- The comparison `v <= k` for an integer `k`. -/
def JsNumber.leInt (v : JsNumber) (k : Int) : Bool :=
  match v with
  | JsNumber.nan => false
  | JsNumber.inf negative => negative
  | JsNumber.fin m e =>
    if 0 ≤ e then decide (m * 10 ^ e.toNat ≤ k) else decide (m ≤ k * 10 ^ (-e).toNat)

/-- The integer a number is, when it is one: the array index it selects. -/
def JsNumber.asInt (v : JsNumber) : Option Int :=
  match v with
  | JsNumber.nan => none
  | JsNumber.inf _ => none
  | JsNumber.fin m e =>
    if 0 ≤ e then some (m * 10 ^ e.toNat)
    else if m % 10 ^ (-e).toNat = 0 then some (m / 10 ^ (-e).toNat) else none

/-- The number of binary digits of `n`, found in at most `fuel` halvings. -/
def bitLengthAux : Nat → Nat → Nat
  | 0, _ => 0
  | fuel + 1, n => if n = 0 then 0 else bitLengthAux fuel (n / 2) + 1

/-- The number of binary digits of a natural number: none for 0, one for 1, two
for 2 and 3. -/
def bitLength (n : Nat) : Nat := bitLengthAux n n

/-- The fraction `q / 2 ^ j` in lowest terms: the numerator and the exponent of
the denominator. -/
def reduceDyadic : Nat → Nat → Nat × Nat
  | q, 0 => (q, 0)
  | q, j + 1 => if q % 2 = 0 then reduceDyadic (q / 2) j else (q, j + 1)

/-- The IEEE 754 binary64 value nearest to the positive fraction `a / b`, ties
going to the even significand: a significand of at most 53 binary digits at a
binary exponent of at least -1074, an infinity when the rounded value has more
than 1024 binary digits.  The value is returned as the decimal number it is
exactly. -/
def nearestDouble (negative : Bool) (a b : Nat) : JsNumber :=
  let l0 : Int := (bitLength a : Int) - (bitLength b : Int)
  let l : Int := if b * 2 ^ l0.toNat ≤ a * 2 ^ (-l0).toNat then l0 else l0 - 1
  let k : Int := max (l - 52) (-1074)
  let num := a * 2 ^ (-k).toNat
  let den := b * 2 ^ k.toNat
  let q0 := num / den
  let r := num % den
  let q := if den < 2 * r ∨ (den = 2 * r ∧ q0 % 2 = 1) then q0 + 1 else q0
  if 1024 < (bitLength q : Int) + k then JsNumber.inf negative
  else
    let pj := reduceDyadic (q * 2 ^ k.toNat) (-k).toNat
    let value : Int := ((pj.1 * 5 ^ pj.2 : Nat) : Int)
    JsNumber.fin (if negative then - value else value) (- (pj.2 : Int))

/-- The Number value of the decimal number `m * 10 ^ e` with the given sign:
zero, or the nearest binary64 value. -/
def toDouble (negative : Bool) (m : Nat) (e : Int) : JsNumber :=
  if m = 0 then JsNumber.fin 0 0
  else nearestDouble negative (m * 10 ^ e.toNat) (10 ^ (-e).toNat)

/-- The string without white space at either end, as `Number` trims it. -/
def trimWhiteSpace (cs : List Char) : List Char :=
  ((cs.dropWhile isWhiteSpace).reverse.dropWhile isWhiteSpace).reverse

/-- A whole number written in the given radix with nothing after it, `NaN`
otherwise: the digits after `0x`, `0o` or `0b`. -/
def readWhole (radix : Nat) (cs : List Char) : JsNumber :=
  let ds := takeDigits radix cs
  if !ds.isEmpty && ds.length == cs.length then toDouble false (digitsValue radix ds) 0
  else JsNumber.nan

/-- A hexadecimal, octal or binary literal, when the text starts as one. -/
def readNonDecimal : List Char → Option JsNumber
  | '0' :: 'x' :: cs => some (readWhole 16 cs)
  | '0' :: 'X' :: cs => some (readWhole 16 cs)
  | '0' :: 'o' :: cs => some (readWhole 8 cs)
  | '0' :: 'O' :: cs => some (readWhole 8 cs)
  | '0' :: 'b' :: cs => some (readWhole 2 cs)
  | '0' :: 'B' :: cs => some (readWhole 2 cs)
  | _ => none

/-- The exponent part of a decimal literal: nothing, or `e` with an optionally
signed run of digits that ends the text. -/
def readExponent : List Char → Option Int
  | [] => some 0
  | c :: cs =>
    if c = 'e' ∨ c = 'E' then
      let (neg, rest) := readSign cs
      let ds := takeDigits 10 rest
      if !ds.isEmpty && ds.length == rest.length then
        some (if neg then - (digitsValue 10 ds : Int) else (digitsValue 10 ds : Int))
      else none
    else none

/-- An unsigned decimal literal as mantissa and exponent: digits, an optional
point with optional digits (at least one digit in all), an optional exponent. -/
def readDecimal (cs : List Char) : Option (Nat × Int) :=
  let intDs := takeDigits 10 cs
  let r1 := cs.drop intDs.length
  let fracDs := match r1 with
    | '.' :: t => takeDigits 10 t
    | _ => []
  let r2 := match r1 with
    | '.' :: t => t.drop fracDs.length
    | _ => r1
  if intDs.isEmpty && fracDs.isEmpty then none
  else
    match readExponent r2 with
    | none => none
    | some e => some (digitsValue 10 (intDs ++ fracDs), e - fracDs.length)

/-- The ECMAScript builtin `Number(s)` on a string: the trimmed text is empty
(zero), a hexadecimal, octal or binary literal, a signed `Infinity`, or a signed
decimal literal, read as the nearest binary64 value; anything else is `NaN`. -/
def toNumber (s : String) : JsNumber :=
  let cs := trimWhiteSpace s.toList
  if cs.isEmpty then JsNumber.fin 0 0
  else
    match readNonDecimal cs with
    | some v => v
    | none =>
      let (neg, rest) := readSign cs
      if rest = "Infinity".toList then JsNumber.inf neg
      else
        match readDecimal rest with
        | none => JsNumber.nan
        | some (m, e) => toDouble neg m e

/-- The JavaScript `s.includes(c)` for a one-character string `c`. -/
def includes (s : String) (c : Char) : Bool := s.toList.contains c

/-- The array `months`. -/
def months : List String :=
  [" ", "Jan", "Feb", "Mar", "Apr", "May", "Jun", "Jul", "Aug", "Sep", "Oct", "Nov", "Dec"]

/-- The element `months[k]` for an integer `k`, absent (`undefined`) outside the
array. -/
def monthsAt (k : Int) : Option String :=
  if 0 ≤ k then months.get? k.toNat else none

/-- The text a template literal writes for a value that may be `undefined`. -/
def interpolate (v : Option String) : String := v.getD "undefined"

/-- The branch of `slotDateFormat` for the ISO form: the returned text, or
`none` when the branch falls through.  The text of an integer is its decimal
numeral, as JavaScript writes integers below `10^21`. -/
def formatIso (slotDate : String) : Option String :=
  if includes slotDate '-' && !includes slotDate '_' then
    match split '-' slotDate with
    | [p0, p1, p2] =>
      match parseInt p0 (some 10), parseInt p1 (some 10), parseInt p2 (some 10) with
      | ParsedInt.val year, ParsedInt.val month, ParsedInt.val day =>
        if 1 ≤ month ∧ month ≤ 12 ∧ 1 ≤ day ∧ day ≤ 31 then
          some (toString day ++ " " ++ interpolate (monthsAt month) ++ " " ++ toString year)
        else none
      | _, _, _ => none
    | _ => none
  else none

/-- The branch of `slotDateFormat` for the day_month_year form: the returned
text, or `none` when the branch falls through. -/
def formatUnderscore (slotDate : String) : Option String :=
  if includes slotDate '_' then
    match split '_' slotDate with
    | [day, p1, year] =>
      let monthIndex := toNumber p1
      if monthIndex.geInt 1 && monthIndex.leInt 12 then
        some (day ++ " " ++ interpolate (monthIndex.asInt.bind monthsAt) ++ " " ++ year)
      else none
    | _ => none
  else none

/-- The function `slotDateFormat` on a string (the empty string standing for
every falsy argument). -/
def slotDateFormat (slotDate : String) : String :=
  if !truthy slotDate then "Date not available"
  else
    match formatIso slotDate with
    | some text => text
    | none =>
      match formatUnderscore slotDate with
      | some text => text
      | none => slotDate

/-- A three-part text separated by `-` whose second part reads as a month from
1 to 12 and whose third part reads as a day from 1 to 31. -/
def isDashDate (s : String) : Bool :=
  match split '-' s with
  | [_, p1, p2] =>
    match parseInt p1 (some 10), parseInt p2 (some 10) with
    | ParsedInt.val month, ParsedInt.val day =>
      decide (1 ≤ month ∧ month ≤ 12 ∧ 1 ≤ day ∧ day ≤ 31)
    | _, _ => false
  | _ => false

/-- A three-part text separated by `_` whose second part is a number from 1 to
12. -/
def isUnderscoreDate (s : String) : Bool :=
  match split '_' s with
  | [_, p1, _] => (toNumber p1).geInt 1 && (toNumber p1).leInt 12
  | _ => false

/-! ## The queue page's date conversion (`QueueManagement.jsx`) -/

/-- The number of decimal digits of a natural number, one for 0. -/
def decimalLength (n : Nat) : Nat := (toString n).length

/-- The decimal exponent `n` of the positive fraction `a / b`:
`10 ^ (n - 1) <= a / b < 10 ^ n`. -/
def decimalExponent (a b : Nat) : Int :=
  let d0 : Int := (decimalLength a : Int) - (decimalLength b : Int)
  if b * 10 ^ d0.toNat ≤ a * 10 ^ (-d0).toNat then d0 + 1 else d0

/-- A numeral of `k` digits for the double `v`, the nearest binary64 value to
`a / b`: an integer `s` of `k` digits and an exponent `n` such that
`s * 10 ^ (n - k)` is read back as `v`; of the two integers around the scaled
value the one nearer to it is taken when both are read back as `v`, the even one
at a tie. -/
def numeralOfLength (v : JsNumber) (a b : Nat) (n : Int) (k : Nat) : Option (Nat × Int) :=
  let num := a * 10 ^ ((k : Int) - n).toNat
  let den := b * 10 ^ (n - (k : Int)).toNat
  let lo := num / den
  let r := num % den
  let fits : Nat → Bool := fun s =>
    decide (toDouble false s (n - (k : Int)) = v)
  let preferLo : Bool := decide (2 * r < den ∨ (2 * r = den ∧ lo % 2 = 0))
  if fits lo && (preferLo || !fits (lo + 1)) then some (lo, n)
  else if fits (lo + 1) then
    (if lo + 1 = 10 ^ k then some (10 ^ (k - 1), n + 1) else some (lo + 1, n))
  else none

/-- The text of the digits `s` (there are `k` of them) at the decimal exponent
`n`, as `Number::toString` lays it out: a whole number up to `10 ^ 21`, a number
with a decimal point, a fraction from `10 ^ -6` on, or an exponent form. -/
def layoutDigits (s : Nat) (n : Int) : String :=
  let ds := (toString s).toList
  let k : Int := ds.length
  if k ≤ n ∧ n ≤ 21 then String.mk (ds ++ List.replicate (n - k).toNat '0')
  else if 0 < n ∧ n ≤ 21 then String.mk (ds.take n.toNat ++ '.' :: ds.drop n.toNat)
  else if -6 < n ∧ n ≤ 0 then String.mk ('0' :: '.' :: List.replicate (-n).toNat '0' ++ ds)
  else
    let e := n - 1
    let exponent := (if e < 0 then "-" else "+") ++ toString e.natAbs
    match ds with
    | [d] => String.mk [d] ++ "e" ++ exponent
    | d :: rest => String.mk (d :: '.' :: rest) ++ "e" ++ exponent
    | [] => "e" ++ exponent

/-- The text of the positive fraction `a / b` read as a Number: the shortest
numeral that is read back as the same binary64 value (seventeen digits always
are enough). -/
def positiveText (a b : Nat) : String :=
  let v := nearestDouble false a b
  match v with
  | JsNumber.fin _ _ =>
    let n := decimalExponent a b
    match (List.range 17).findSome? (fun i => numeralOfLength v a b n (i + 1)) with
    | some (s, n) => layoutDigits s n
    | none => "0"
  | _ => "Infinity"

/-- The text a template literal writes for a number (`Number::toString`): `NaN`,
a signed `Infinity`, `0`, the decimal numeral of a whole number below `2 ^ 53`,
and otherwise the shortest numeral that is read back as the same number. -/
def numberText (v : JsNumber) : String :=
  match v with
  | JsNumber.nan => "NaN"
  | JsNumber.inf negative => if negative then "-Infinity" else "Infinity"
  | JsNumber.fin m e =>
    match (JsNumber.fin m e).asInt with
    | some k => if k.natAbs < 2 ^ 53 then toString k
      else (if m < 0 then "-" else "") ++ positiveText (m.natAbs * 10 ^ e.toNat) (10 ^ (-e).toNat)
    | none =>
      (if m < 0 then "-" else "") ++ positiveText (m.natAbs * 10 ^ e.toNat) (10 ^ (-e).toNat)

/-- The text a template literal writes for an element of a destructured array,
absent (`undefined`) when the array is too short. -/
def elementText (v : Option JsNumber) : String :=
  match v with
  | some n => numberText n
  | none => "undefined"

/-- The helper `convertToSlotDate`: the parts of the text between hyphens are
read with `Number`, and the third, second and first are written joined by
underscores. -/
def convertToSlotDate (isoDate : String) : String :=
  let parts := (split '-' isoDate).map toNumber
  elementText (parts.get? 2) ++ "_" ++ elementText (parts.get? 1) ++ "_"
    ++ elementText (parts.get? 0)

/-! ## Calendar dates as the page receives them -/

/-- A calendar date. -/
structure CalendarDate where
  year : Nat
  month : Nat
  day : Nat
  deriving DecidableEq, Repr

/-- A date with a four-digit year, a month from 1 to 12 and a day from 1 to 31. -/
def CalendarDate.wellFormed (d : CalendarDate) : Prop :=
  d.year ≤ 9999 ∧ 1 ≤ d.month ∧ d.month ≤ 12 ∧ 1 ≤ d.day ∧ d.day ≤ 31

instance (d : CalendarDate) : Decidable d.wellFormed := by
  unfold CalendarDate.wellFormed
  infer_instance

/-- Chronological order of calendar dates: `a` is earlier than `b`. -/
def CalendarDate.before (a b : CalendarDate) : Prop :=
  a.year < b.year ∨ (a.year = b.year ∧ (a.month < b.month ∨ (a.month = b.month ∧ a.day < b.day)))

instance (a b : CalendarDate) : Decidable (a.before b) := by
  unfold CalendarDate.before
  infer_instance

/-- The character of the last decimal digit of `n`. -/
def digitChar (n : Nat) : Char := Char.ofNat (48 + n % 10)

/-- The last two decimal digits of `n`. -/
def pad2 (n : Nat) : List Char := [digitChar (n % 100 / 10), digitChar n]

/-- The last four decimal digits of `n`. -/
def pad4 (n : Nat) : List Char :=
  [digitChar (n % 10000 / 1000), digitChar (n % 1000 / 100), digitChar (n % 100 / 10), digitChar n]

/-- The text `YYYY-MM-DD` of a date, the form in which a date input and
`toISOString().split(T)[0]` give a date with a four-digit year. -/
def isoDate (d : CalendarDate) : String :=
  String.mk (pad4 d.year ++ '-' :: pad2 d.month ++ '-' :: pad2 d.day)

/-- The text written with the given decimal digits, most significant first. -/
def decimalText (ds : List Nat) : String := String.mk (ds.map digitChar)

/-! ## Age and elapsed serving time -/

/-- The function `calculateAge` on the local calendar dates of `new Date()`
and `new Date(dob)`: the difference of the two `getFullYear()` values. -/
def calculateAge (today birthDate : CalendarDate) : Int :=
  (today.year : Int) - (birthDate.year : Int)

/-- The age as the claim words it: the number of full years elapsed from the
date of birth to the current date, one less than the difference of the years
until the birthday of the current year is reached. -/
def fullYearsElapsed (today birthDate : CalendarDate) : Int :=
  (today.year : Int) - (birthDate.year : Int)
    - (if today.month < birthDate.month ∨
          (today.month = birthDate.month ∧ today.day < birthDate.day) then 1 else 0)

/-- The builtin `str.padStart(n, c)` for a one-character pad. -/
def padStart (s : String) (n : Nat) (c : Char) : String :=
  String.mk (List.replicate (n - s.length) c) ++ s

/-- The text the one-second timer stores for an appointment served since
`servingStartedAt`, at clock reading `now` (both in milliseconds):
`Math.floor` is the floor of the quotient and `%` keeps the sign of the
dividend. -/
def timerText (now servingStartedAt : Int) : String :=
  let elapsedMs := now - servingStartedAt
  let elapsedSec := Int.fdiv elapsedMs 1000
  let minutes := Int.fdiv elapsedSec 60
  let seconds := Int.tmod elapsedSec 60
  toString minutes ++ ":" ++ padStart (toString seconds) 2 '0'

/-- The text the render computes when the timer has stored none. -/
def fallbackText (now servingStartedAt : Int) : String :=
  let elapsedMs := now - servingStartedAt
  let elapsedSec := Int.fdiv elapsedMs 1000
  let minutes := Int.fdiv elapsedSec 60
  let seconds := Int.tmod elapsedSec 60
  toString minutes ++ ":" ++ padStart (toString seconds) 2 '0'

/-- Truthiness of `servingStartedAt`: set and not zero. -/
def startedAt (apt : Appointment) : Option Int :=
  match apt.servingStartedAt with
  | some s => if s = 0 then none else some s
  | none => none

/-- The object `updatedTimers` the timer builds at clock reading `now`: one
entry per SERVING appointment with a start time, keyed by `_id`, later entries
replacing earlier ones of the same key. -/
def updatedTimers (appointments : List Appointment) (now : Int) : List (String × String) :=
  appointments.filterMap (fun apt =>
    if apt.status == "SERVING" then
      match startedAt apt with
      | some s => some (apt._id, timerText now s)
      | none => none
    else none)

/-- The entry `servingTimers[id]`, absent when the key is not set. -/
def timerOf (servingTimers : List (String × String)) (id : String) : Option String :=
  (servingTimers.reverse.find? (fun entry => entry.1 == id)).map (fun entry => entry.2)

/-- One tick of the timer effect: the timers are replaced when there are
appointments and at least one entry was built. -/
def timerTick (st : QueueState) (now : Int) : QueueState :=
  if st.appointments.isEmpty then st
  else if (updatedTimers st.appointments now).isEmpty then st
  else { st with servingTimers := updatedTimers st.appointments now }

/-- The constant `elapsedTime` of the render at clock reading `now`: the stored
timer text when there is a truthy one, else the text computed on the spot for a
SERVING appointment with a start time, else `null`. -/
def elapsedTime (servingTimers : List (String × String)) (item : Appointment) (now : Int) :
    Option String :=
  let computed : Option String :=
    if item.status == "SERVING" then
      match startedAt item with
      | some s => some (fallbackText now s)
      | none => none
    else none
  match timerOf servingTimers item._id with
  | some text => if truthy text then some text else computed
  | none => computed

/-! ## The queue snapshot as the specification reads it -/

/-- Modelled from the spec: a token is terminal when its status is COMPLETED or
WRONG. -/
def isTerminal (a : Appointment) : Bool := a.status == "COMPLETED" || a.status == "WRONG"

/-- Modelled from the spec: the number of tokens that are COMPLETED or WRONG. -/
def terminalCount (apts : List Appointment) : Nat := (apts.filter isTerminal).length

/-- Modelled from the spec: the remaining count of a snapshot, the total token
count minus the number of COMPLETED or WRONG tokens. -/
def specRemaining (q : QueueSnapshot) : Int :=
  q.totalTokens - terminalCount (q.appointments.getD [])

/-- Modelled from the spec: the token being served, if any. -/
def servingToken (apts : List Appointment) : Option Appointment :=
  apts.find? (fun a => a.status == "SERVING")

/-- Modelled from the spec: the greatest index of a terminal token, 0 when no
token is terminal. -/
def lastTerminalIndex : List Appointment → Int
  | [] => 0
  | a :: as => if isTerminal a then max a.slotTokenIndex (lastTerminalIndex as)
               else lastTerminalIndex as

/-- Modelled from the spec: the current token of a snapshot, the index of the
SERVING token, or one past the last terminal token when none is serving. -/
def specCurrentToken (apts : List Appointment) : Int :=
  match servingToken apts with
  | some a => a.slotTokenIndex
  | none => lastTerminalIndex apts + 1

/-- Modelled from the spec: the tokens of the list carry the consecutive indices
`s`, `s + 1`, ... in the order listed. -/
def numberedFrom (s : Int) : List Appointment → Prop
  | [] => True
  | a :: as => a.slotTokenIndex = s ∧ numberedFrom (s + 1) as

/-! ## The scheduling engine as the specification describes it

The token queue, the serving session controller, the wait-time estimator and
the recurrence expansion are not among the sources of this repository; they are
modelled from sections 3 and 4 of the specification.  Times are in minutes. -/

/-- Modelled from the spec: the status of a token (section 3). -/
inductive TokenStatus
  | BOOKED
  | SERVING
  | COMPLETED
  | WRONG
  deriving DecidableEq, Repr

/-- Modelled from the spec: a token of a slot (section 3), identified within
its slot by its index. -/
structure Token where
  index : Nat
  participant : String
  status : TokenStatus
  servingStartedAt : Option Int
  actualDuration : Option Int
  deriving DecidableEq, Repr

/-- Modelled from the spec: a slot with its queue state (section 3): scheduled
start, average consultation duration, optional capacity, the session-started
flag and the tokens in booking order. -/
structure SlotQueue where
  startTime : Int
  averageMinutes : Int
  capacity : Option Nat
  sessionStarted : Bool
  tokens : List Token
  deriving DecidableEq, Repr

/-- Modelled from the spec: the error kinds of section 7 that the queue
operations return. -/
inductive EngineError
  | CapacityExceeded
  | AlreadyStarted
  | InvalidStateTransition
  | NotFound
  deriving DecidableEq, Repr

/-- Modelled from the spec: a freshly created slot, with no token and its
session not started. -/
def newSlot (startTime averageMinutes : Int) (capacity : Option Nat) : SlotQueue :=
  { startTime := startTime, averageMinutes := averageMinutes, capacity := capacity,
    sessionStarted := false, tokens := [] }

/-- Modelled from the spec: promotion of the next token (section 4.2): the
first BOOKED token in booking order, which is the one of smallest index,
becomes SERVING and its serving-start timestamp is set; nothing changes when no
token is BOOKED. -/
def promoteNext (now : Int) : List Token → List Token
  | [] => []
  | t :: ts =>
    if t.status = TokenStatus.BOOKED then
      { t with status := TokenStatus.SERVING, servingStartedAt := some now } :: ts
    else t :: promoteNext now ts

/-- Modelled from the spec: a newly booked token: status BOOKED, no serving
start, no actual duration. -/
def bookedToken (index : Nat) (participant : String) : Token :=
  { index := index, participant := participant, status := TokenStatus.BOOKED,
    servingStartedAt := none, actualDuration := none }

/-- Modelled from the spec: the operation `book` (section 4.2): it fails with
`CapacityExceeded` when the capacity is set and already reached, and otherwise
appends a BOOKED token whose index is the current count plus one. -/
def book (q : SlotQueue) (participant : String) : Except EngineError SlotQueue :=
  match q.capacity with
  | some c =>
    if c ≤ q.tokens.length then Except.error EngineError.CapacityExceeded
    else Except.ok { q with tokens := q.tokens ++ [bookedToken (q.tokens.length + 1) participant] }
  | none =>
    Except.ok { q with tokens := q.tokens ++ [bookedToken (q.tokens.length + 1) participant] }

/-- Modelled from the spec: the operation `startSession` (section 4.3): it
fails with `AlreadyStarted` when the session is started, and otherwise starts it
and promotes the lowest-index BOOKED token. -/
def startSession (q : SlotQueue) (now : Int) : Except EngineError SlotQueue :=
  if q.sessionStarted then Except.error EngineError.AlreadyStarted
  else Except.ok { q with sessionStarted := true, tokens := promoteNext now q.tokens }

/-- Modelled from the spec: the terminal transition shared by `markCompleted`
and `markWrong` (section 4.2): it fails unless the token exists and is SERVING,
and otherwise sets the terminal status and the actual duration and promotes the
next BOOKED token. -/
def finish (q : SlotQueue) (index : Nat) (status : TokenStatus) (duration : Token → Option Int)
    (now : Int) : Except EngineError SlotQueue :=
  match q.tokens.find? (fun t => t.index = index) with
  | none => Except.error EngineError.NotFound
  | some t =>
    if t.status = TokenStatus.SERVING then
      Except.ok { q with tokens := promoteNext now (q.tokens.map (fun u =>
        if u.index = index then { u with status := status, actualDuration := duration u }
        else u)) }
    else Except.error EngineError.InvalidStateTransition

/-- Modelled from the spec: the operation `markCompleted` (section 4.2): the
actual duration is the explicit value, or the time elapsed since serving-start
when it is omitted. -/
def markCompleted (q : SlotQueue) (index : Nat) (actualDuration : Option Int) (now : Int) :
    Except EngineError SlotQueue :=
  finish q index TokenStatus.COMPLETED
    (fun t => some (actualDuration.getD (now - t.servingStartedAt.getD now))) now

/-- Modelled from the spec: the operation `markWrong` (section 4.2): the actual
duration stays unset. -/
def markWrong (q : SlotQueue) (index : Nat) (now : Int) : Except EngineError SlotQueue :=
  finish q index TokenStatus.WRONG (fun t => t.actualDuration) now

/-- Modelled from the spec: a call of one of the four mutating operations of a
slot's queue, with the clock reading at the call. -/
inductive Command
  | book (participant : String)
  | startSession (now : Int)
  | markCompleted (index : Nat) (actualDuration : Option Int) (now : Int)
  | markWrong (index : Nat) (now : Int)
  deriving DecidableEq, Repr

/-- Modelled from the spec: a call is a booking. -/
def Command.isBook : Command → Bool
  | Command.book _ => true
  | _ => false

/-- Modelled from the spec: the outcome of one call. -/
def step (q : SlotQueue) : Command → Except EngineError SlotQueue
  | Command.book participant => book q participant
  | Command.startSession now => startSession q now
  | Command.markCompleted index actualDuration now => markCompleted q index actualDuration now
  | Command.markWrong index now => markWrong q index now

/-- Modelled from the spec: the state after one call; a failed call leaves the
state untouched (section 7). -/
def applyCommand (q : SlotQueue) (c : Command) : SlotQueue :=
  match step q c with
  | Except.ok q2 => q2
  | Except.error _ => q

/-- Modelled from the spec: the state after a sequence of calls, serialised per
slot (section 5). -/
def run (q : SlotQueue) (cs : List Command) : SlotQueue := cs.foldl applyCommand q

/-- Modelled from the spec: the number of SERVING tokens of a queue. -/
def servingCount (ts : List Token) : Nat :=
  ts.countP (fun t => t.status = TokenStatus.SERVING)

/-- Modelled from the spec: a token is terminal when COMPLETED or WRONG. -/
def Token.terminal (t : Token) : Bool :=
  t.status = TokenStatus.COMPLETED || t.status = TokenStatus.WRONG

/-- Modelled from the spec: the duration summed for a token (section 4.4): its
actual duration when it is terminal with one recorded, else the slot's average
consultation duration. -/
def durationOf (q : SlotQueue) (t : Token) : Int :=
  if t.terminal then t.actualDuration.getD q.averageMinutes else q.averageMinutes

/-- Modelled from the spec: the reference time (section 4.4): the serving-start
timestamp of the SERVING token when there is one, else the slot's scheduled
start. -/
def referenceTime (q : SlotQueue) : Int :=
  match q.tokens.find? (fun t => t.status = TokenStatus.SERVING) with
  | some t => t.servingStartedAt.getD q.startTime
  | none => q.startTime

/-- Modelled from the spec: the operation `estimate` (section 4.4): for every
BOOKED token, in booking order, its index and the reference time plus the sum of
the durations of all not-yet-terminal tokens with a smaller index. -/
def estimate (q : SlotQueue) : List (Nat × Int) :=
  (q.tokens.filter (fun t => t.status = TokenStatus.BOOKED)).map (fun t =>
    (t.index, referenceTime q +
      ((q.tokens.filter (fun u => decide (u.index < t.index) && !u.terminal)).map
        (durationOf q)).sum))

/-- Modelled from the spec: a recurrence pattern (section 3): a set of weekdays
(0 for Sunday to 6 for Saturday), a repeat-until date and a repeat count.  Dates
are day numbers counted from 1 January 1970. -/
structure RecurrencePattern where
  weekdays : List Nat
  repeatUntil : Option Nat
  repeatCount : Option Nat
  deriving DecidableEq, Repr

/-- Modelled from the spec: the weekday of a day number; day 0 is a Thursday. -/
def weekday (day : Nat) : Nat := (day + 4) % 7

/-- Modelled from the spec: the repeat-until date is exceeded at `day`. -/
def untilExceeded (p : RecurrencePattern) (day : Nat) : Bool :=
  match p.repeatUntil with
  | some u => decide (u < day)
  | none => false

/-- Modelled from the spec: `produced` matching dates reach the repeat count. -/
def countReached (p : RecurrencePattern) (produced : Nat) : Bool :=
  match p.repeatCount with
  | some c => decide (c ≤ produced)
  | none => false

/-- Modelled from the spec: the recurrence algorithm of section 4.1, for at most
`fuel` days: walking forward day by day from `day`, a date is selected when its
weekday is in the pattern's set, and selection stops once the repeat-until date
is exceeded or the repeat count of matching dates has been produced. -/
def walk (p : RecurrencePattern) : Nat → Nat → Nat → List Nat
  | 0, _, _ => []
  | fuel + 1, day, produced =>
    if untilExceeded p day then []
    else if countReached p produced then []
    else if p.weekdays.contains (weekday day) then day :: walk p fuel (day + 1) (produced + 1)
    else walk p fuel (day + 1) produced

/-- Modelled from the spec: a number of days within which the walk from `base`
has stopped: up to the repeat-until date when there is one, else seven days for
each occurrence counted. -/
def horizon (p : RecurrencePattern) (base : Nat) : Nat :=
  match p.repeatUntil with
  | some u => u + 1 - base
  | none => 7 * p.repeatCount.getD 0

/-- Modelled from the spec: the dates selected from the base date. -/
def expandDates (p : RecurrencePattern) (base : Nat) : List Nat :=
  walk p (horizon p base) base 0

/-- Modelled from the spec: the fields every slot of one recurrence batch
shares (section 3). -/
structure SlotTemplate where
  startTime : String
  endTime : String
  period : String
  capacity : Option Nat
  averageMinutes : Int
  deriving DecidableEq, Repr

/-- Modelled from the spec: an availability slot produced by `create`. -/
structure EngineSlot where
  date : Nat
  template : SlotTemplate
  deriving DecidableEq, Repr

/-- Modelled from the spec: recurrence expansion (section 4.1): each selected
date yields a slot with the same start, end, period, capacity and average
duration. -/
def expandSlots (template : SlotTemplate) (p : RecurrencePattern) (base : Nat) :
    List EngineSlot :=
  (expandDates p base).map (fun d => { date := d, template := template })

/-! ## Sample values -/

/-- A token that splits into three parts; the middle part is the base64 text of
the JSON object with the one field `id` holding `d1`, so `atob` and
`JSON.parse` read doctor `d1` from it. -/
def sampleToken : String := "hdr.eyJpZCI6ImQxIn0.sig"

/-- The payload reader of the sample world: the payload of `sampleToken` holds
the id `d1`.  No other payload is decoded in the samples; the reader answers
every other part as one on which `JSON.parse(atob(part))` throws, as it does on
a part such as `body`, whose base64 decoding is no JSON text. -/
def samplePayloadId : String → Option (Option String) :=
  fun part => if part = "eyJpZCI6ImQxIn0" then some (some "d1") else none

/-- A morning slot. -/
def sampleSlot : Slot :=
  { _id := "s1", slotPeriod := "MORNING", startTime := "10:00", endTime := "13:00",
    totalTokens := 3, currentToken := 1 }

/-- Token 1, being served. -/
def servingApt : Appointment :=
  { _id := "a1", slotTokenIndex := 1, status := "SERVING", servingStartedAt := some 1000 }

/-- Token 2, waiting. -/
def bookedApt : Appointment :=
  { _id := "a2", slotTokenIndex := 2, status := "BOOKED", servingStartedAt := none }

/-- Token 3, waiting. -/
def bookedApt3 : Appointment :=
  { _id := "a3", slotTokenIndex := 3, status := "BOOKED", servingStartedAt := none }

/-- A snapshot of three tokens, the first being served, listed out of order. -/
def sampleSnapshot : QueueSnapshot :=
  { totalTokens := 3, currentToken := 1, servingSessionStarted := true,
    servingAppointmentId := some "a1", appointments := some [bookedApt3, servingApt, bookedApt] }

/-- The slot queue page with `sampleSlot` open and its queue loaded. -/
def sampleQueueState : QueueState :=
  { dToken := sampleToken, backendUrl := "http://localhost:4000", selectedDate := "2026-11-04",
    slots := [sampleSlot], selectedSlot := some sampleSlot, queueData := some sampleSnapshot,
    appointments := [servingApt, bookedApt, bookedApt3], isLoading := false,
    isCompleting := false, isMarkingWrong := false, isLoadingQueue := false,
    actualDuration := "", servingTimers := [] }

/-- A world in which the user confirms and every request succeeds. -/
def sampleQueueEnv : QueueEnv :=
  { confirm := true, payloadId := samplePayloadId,
    slotsReply := Reply.data true none [sampleSlot],
    queueReply := Reply.data true none (some sampleSnapshot),
    startSessionReply := Reply.data true none (),
    markCompletedReply := Reply.data true none (),
    markWrongReply := Reply.data true none () }

/-- A form for one slot tomorrow afternoon, not recurring. -/
def sampleForm : FormData :=
  { date := "2026-11-05", startTime := "14:00", endTime := "16:00", slotPeriod := "AFTERNOON",
    capacity := "5", isRecurring := false,
    recurringPattern := some { daysOfWeek := [], repeatUntil := "", repeatCount := "" } }

/-- The availability page with the form open on `sampleForm`, creating. -/
def sampleAvailabilityState : AvailabilityState :=
  { dToken := sampleToken, backendUrl := "http://localhost:4000", slots := [], isLoading := false,
    showForm := true, editingSlot := none, selectedDate := "2026-11-04", formData := sampleForm }

/-- A world whose clock shows 4 November 2026 and in which every request fails
with `success = false`. -/
def sampleAvailabilityEnv : AvailabilityEnv :=
  { today := "2026-11-04", payloadId := samplePayloadId,
    listReply := Reply.data false none none,
    updateReply := Reply.data false none (),
    createReply := Reply.data false none none }

/-- A world in which the user confirms and the backend answers the start of the
session with HTTP 409. -/
def conflictQueueEnv : QueueEnv :=
  { sampleQueueEnv with
    startSessionReply := Reply.thrown { status := some 409, responseMessage := none,
                                        message := none } }

/-- A world in which the user confirms and the backend answers every request
with `success = false` and a message. -/
def failingQueueEnv : QueueEnv :=
  { confirm := true, payloadId := samplePayloadId,
    slotsReply := Reply.data false (some "Slots unavailable") [],
    queueReply := Reply.data false (some "Queue unavailable") none,
    startSessionReply := Reply.data false (some "Cannot start") (),
    markCompletedReply := Reply.data false (some "Cannot complete") (),
    markWrongReply := Reply.data false (some "Cannot mark wrong") () }

/-! ## Theorems -/

/-- The first request of `sendMarkCompleted` is the mark-completed request. -/
theorem requests_sendMarkCompleted (st : QueueState) (env : QueueEnv) (apt : Appointment) :
    (requests (sendMarkCompleted st env apt).2).head?
      = some (Request.markCompleted apt._id
          (sentDuration st.actualDuration)) := by
  unfold sendMarkCompleted
  cases env.markCompletedReply with
  | data success message body => cases success <;> simp [requests]
  | thrown e => simp [requests]

/-- The first request of `sendMarkWrong` is the mark-wrong request. -/
theorem requests_sendMarkWrong (st : QueueState) (env : QueueEnv) (apt : Appointment) :
    (requests (sendMarkWrong st env apt).2).head? = some (Request.markWrong apt._id) := by
  unfold sendMarkWrong
  cases env.markWrongReply with
  | data success message body => cases success <;> simp [requests]
  | thrown e => simp [requests]

/-- C1: `handleMarkCompleted` refuses every appointment whose status is not
SERVING with exactly one warning toast, no request and the whole state unchanged;
a request is sent only for an appointment with an id whose status is SERVING,
and for such an appointment the mark-completed request is sent. -/
theorem handleMarkCompleted_only_serving (st : QueueState) (env : QueueEnv)
    (appointment : Option Appointment) :
    (∀ apt, appointment = some apt → apt.status ≠ "SERVING" →
      handleMarkCompleted st env appointment
        = (st, [Effect.toast (Toast.warning (some
            (if truthy apt._id then
              "This appointment is not currently being served. Current status: " ++ apt.status
             else "Invalid appointment")))])) ∧
    (requests (handleMarkCompleted st env appointment).2 ≠ [] →
      ∃ apt, appointment = some apt ∧ apt.status = "SERVING" ∧ truthy apt._id = true) ∧
    (∀ apt, appointment = some apt → apt.status = "SERVING" → truthy apt._id = true →
      (requests (handleMarkCompleted st env appointment).2).head?
        = some (Request.markCompleted apt._id
            (sentDuration st.actualDuration))) := by
  refine ⟨?_, ?_, ?_⟩
  · rintro apt rfl hs
    by_cases hid : truthy apt._id = true
    · simp [handleMarkCompleted, hid, hs]
    · simp [handleMarkCompleted, hid]
  · intro h
    cases appointment with
    | none => simp [handleMarkCompleted, requests] at h
    | some apt =>
      by_cases hid : truthy apt._id = true
      · by_cases hs : apt.status = "SERVING"
        · exact ⟨apt, rfl, hs, hid⟩
        · simp [handleMarkCompleted, hid, hs, requests] at h
      · simp [handleMarkCompleted, hid, requests] at h
  · rintro apt rfl hs hid
    simp only [handleMarkCompleted, hid, hs]
    simpa using requests_sendMarkCompleted st env apt

/-- C1 at a waiting token: the handler only warns. -/
theorem handleMarkCompleted_only_serving_witness :
    handleMarkCompleted sampleQueueState sampleQueueEnv (some bookedApt)
      = (sampleQueueState, [Effect.toast (Toast.warning (some
          (if truthy bookedApt._id then
            "This appointment is not currently being served. Current status: " ++ bookedApt.status
           else "Invalid appointment")))]) :=
  (handleMarkCompleted_only_serving sampleQueueState sampleQueueEnv (some bookedApt)).1
    bookedApt rfl (by decide)

/-- C2, refuted as stated: for the waiting token `a2` (status BOOKED) and a user
who confirms, `handleMarkWrong` sends the mark-wrong request. -/
theorem handleMarkWrong_sends_for_booked :
    bookedApt.status ≠ "SERVING" ∧
    requests (handleMarkWrong sampleQueueState sampleQueueEnv (some bookedApt)).2
      = [Request.markWrong "a2", Request.getQueue "s1", Request.getSlots (some "d1") "2026-11-04"] := by
  constructor
  · decide
  · rfl

/-- C2, amended: for an appointment with an id, `handleMarkWrong` sends a request
exactly when the user confirms and the appointment is not a SERVING one other
than the queue's `servingAppointmentId`; a SERVING appointment that is not the
queue's serving appointment is refused with a warning, no request and the state
unchanged; the page renders the Wrong button only for an appointment whose
status is SERVING. -/
theorem handleMarkWrong_request_iff (st : QueueState) (env : QueueEnv) (apt : Appointment)
    (hid : truthy apt._id = true) :
    (requests (handleMarkWrong st env (some apt)).2 ≠ [] ↔
      env.confirm = true ∧
        (apt.status = "SERVING" →
          ∃ q, st.queueData = some q ∧ q.servingAppointmentId = some apt._id)) ∧
    (∀ q, st.queueData = some q → apt.status = "SERVING" →
      q.servingAppointmentId ≠ some apt._id →
      handleMarkWrong st env (some apt)
        = (st, [Effect.toast (Toast.warning
            (some "This is not the current serving appointment."))])) ∧
    (actionButtonsShown apt = true ↔ apt.status = "SERVING") := by
  have hsend : requests (sendMarkWrong st env apt).2 ≠ [] := by
    intro h
    have := requests_sendMarkWrong st env apt
    rw [h] at this
    simp at this
  refine ⟨?_, ?_, ?_⟩
  · by_cases hs : apt.status = "SERVING"
    · cases hq : st.queueData with
      | none => simp [handleMarkWrong, notCurrentServing, hid, hs, hq, requests]
      | some q =>
        by_cases hsid : q.servingAppointmentId = some apt._id
        · cases hc : env.confirm
          · simp [handleMarkWrong, notCurrentServing, hid, hs, hq, hsid, hc, requests]
          · simp [handleMarkWrong, notCurrentServing, hid, hs, hq, hsid, hc, hsend]
        · have hb : (q.servingAppointmentId != some apt._id) = true := by simpa using hsid
          simp [handleMarkWrong, notCurrentServing, hid, hs, hq, hsid, hb, requests]
    · cases hc : env.confirm
      · simp [handleMarkWrong, notCurrentServing, hid, hs, hc, requests]
      · simp [handleMarkWrong, notCurrentServing, hid, hs, hc, hsend]
  · intro q hq hs hsid
    have hb : (q.servingAppointmentId != some apt._id) = true := by simpa using hsid
    simp [handleMarkWrong, notCurrentServing, hid, hs, hq, hb]
  · simp [actionButtonsShown]

/-- C2 amended, at the token being served while another appointment is the
queue's serving appointment: the handler only warns. -/
theorem handleMarkWrong_request_iff_witness :
    handleMarkWrong { sampleQueueState with
        queueData := some { sampleSnapshot with servingAppointmentId := some "a9" } }
      sampleQueueEnv (some servingApt)
      = ({ sampleQueueState with
            queueData := some { sampleSnapshot with servingAppointmentId := some "a9" } },
         [Effect.toast (Toast.warning (some "This is not the current serving appointment."))]) :=
  (handleMarkWrong_request_iff
    { sampleQueueState with
        queueData := some { sampleSnapshot with servingAppointmentId := some "a9" } }
    sampleQueueEnv servingApt (by decide)).2.1 _ rfl (by decide) (by decide)

/-! ### Comparison of date texts -/

/-- The code point of a digit character. -/
theorem digitChar_toNat (n : Nat) : (digitChar n).toNat = 48 + n % 10 := by
  unfold digitChar
  have h : n % 10 < 10 := Nat.mod_lt _ (by decide)
  generalize n % 10 = k at h
  interval_cases k <;> rfl

/-- A digit character is a single code unit. -/
theorem utf16_digitChar (n : Nat) : utf16 (digitChar n) = [48 + n % 10] := by
  have h := digitChar_toNat n
  unfold utf16
  rw [h]
  have h1 : 48 + n % 10 < 65536 := by omega
  simp [h1]

/-- The ten code units of a date text. -/
theorem codeUnits_isoDate (d : CalendarDate) :
    codeUnits (isoDate d) =
      [48 + d.year % 10000 / 1000 % 10, 48 + d.year % 1000 / 100 % 10, 48 + d.year % 100 / 10 % 10,
       48 + d.year % 10, 45, 48 + d.month % 100 / 10 % 10, 48 + d.month % 10, 45,
       48 + d.day % 100 / 10 % 10, 48 + d.day % 10] := by
  have h2 : utf16 '-' = [45] := by decide
  simp [codeUnits, isoDate, pad4, pad2, utf16_digitChar, h2]

/-- One step of the code-unit comparison. -/
theorem ltUnits_cons (a b : Nat) (as bs : List Nat) :
    ltUnits (a :: as) (b :: bs) = (decide (a < b) || (decide (a = b) && ltUnits as bs)) := by
  rw [ltUnits]
  by_cases h1 : a < b
  · simp [h1]
  · by_cases h2 : b < a
    · have : a ≠ b := by omega
      simp [h1, h2, this]
    · have : a = b := by omega
      simp [h1, h2, this]

/-- Two empty sequences are not in order. -/
theorem ltUnits_nil : ltUnits [] [] = false := by rw [ltUnits]

/-- The digits of a number below ten thousand. -/
theorem four_digits (y : Nat) (h : y ≤ 9999) :
    y = 1000 * (y % 10000 / 1000 % 10) + 100 * (y % 1000 / 100 % 10)
          + 10 * (y % 100 / 10 % 10) + y % 10 ∧
      y % 10000 / 1000 % 10 < 10 ∧ y % 1000 / 100 % 10 < 10 ∧ y % 100 / 10 % 10 < 10 ∧
      y % 10 < 10 := by
  omega

/-- The digits of a number below one hundred. -/
theorem two_digits (m : Nat) (h : m ≤ 99) :
    m = 10 * (m % 100 / 10 % 10) + m % 10 ∧ m % 100 / 10 % 10 < 10 ∧ m % 10 < 10 := by
  omega

/-- Digit-wise order of two-digit numbers, with a tie-break `P`. -/
theorem lex_two (a1 a0 b1 b0 : Nat) (ha : a0 < 10) (hb : b0 < 10) (P : Prop) :
    (a1 < b1 ∨ a1 = b1 ∧ (a0 < b0 ∨ a0 = b0 ∧ P)) ↔
      (10 * a1 + a0 < 10 * b1 + b0 ∨ 10 * a1 + a0 = 10 * b1 + b0 ∧ P) := by
  rcases Nat.lt_trichotomy a1 b1 with h | h | h
  · have h1 : 10 * a1 + a0 < 10 * b1 + b0 := by omega
    simp [h, h1]
  · subst h
    simp
  · have h1 : ¬ 10 * a1 + a0 < 10 * b1 + b0 := by omega
    have h2 : ¬ 10 * a1 + a0 = 10 * b1 + b0 := by omega
    have h3 : ¬ a1 < b1 := by omega
    have h4 : ¬ a1 = b1 := by omega
    simp [h1, h2, h3, h4]

/-- Digit-wise order of four-digit numbers, with a tie-break `P`. -/
theorem lex_four (a3 a2 a1 a0 b3 b2 b1 b0 : Nat) (ha2 : a2 < 10) (ha1 : a1 < 10) (ha0 : a0 < 10)
    (hb2 : b2 < 10) (hb1 : b1 < 10) (hb0 : b0 < 10) (P : Prop) :
    (a3 < b3 ∨ a3 = b3 ∧ (a2 < b2 ∨ a2 = b2 ∧ (a1 < b1 ∨ a1 = b1 ∧ (a0 < b0 ∨ a0 = b0 ∧ P)))) ↔
      (1000 * a3 + 100 * a2 + 10 * a1 + a0 < 1000 * b3 + 100 * b2 + 10 * b1 + b0 ∨
        1000 * a3 + 100 * a2 + 10 * a1 + a0 = 1000 * b3 + 100 * b2 + 10 * b1 + b0 ∧ P) := by
  rw [lex_two a1 a0 b1 b0 ha0 hb0 P]
  rcases Nat.lt_trichotomy a3 b3 with h | h | h
  · have h1 : 1000 * a3 + 100 * a2 + 10 * a1 + a0 < 1000 * b3 + 100 * b2 + 10 * b1 + b0 := by
      omega
    simp [h, h1]
  · subst h
    rcases Nat.lt_trichotomy a2 b2 with h | h | h
    · have h1 : 1000 * a3 + 100 * a2 + 10 * a1 + a0 < 1000 * a3 + 100 * b2 + 10 * b1 + b0 := by
        omega
      simp [h, h1]
    · subst h
      simp [Nat.add_assoc]
    · have h1 : ¬ 1000 * a3 + 100 * a2 + 10 * a1 + a0 < 1000 * a3 + 100 * b2 + 10 * b1 + b0 := by
        omega
      have h2 : ¬ 1000 * a3 + 100 * a2 + 10 * a1 + a0 = 1000 * a3 + 100 * b2 + 10 * b1 + b0 := by
        omega
      have h3 : ¬ a2 < b2 := by omega
      have h4 : ¬ a2 = b2 := by omega
      simp [h1, h2, h3, h4]
  · have h1 : ¬ 1000 * a3 + 100 * a2 + 10 * a1 + a0 < 1000 * b3 + 100 * b2 + 10 * b1 + b0 := by
      omega
    have h2 : ¬ 1000 * a3 + 100 * a2 + 10 * a1 + a0 = 1000 * b3 + 100 * b2 + 10 * b1 + b0 := by
      omega
    have h3 : ¬ a3 < b3 := by omega
    have h4 : ¬ a3 = b3 := by omega
    simp [h1, h2, h3, h4]

/-- On date texts with four-digit years the string comparison is the
chronological order. -/
theorem strLt_isoDate (a b : CalendarDate) (ha : a.wellFormed) (hb : b.wellFormed) :
    strLt (isoDate a) (isoDate b) = true ↔ a.before b := by
  obtain ⟨ha1, _, ha2, _, ha3⟩ := ha
  obtain ⟨hb1, _, hb2, _, hb3⟩ := hb
  unfold strLt CalendarDate.before
  rw [codeUnits_isoDate, codeUnits_isoDate]
  simp only [ltUnits_cons, ltUnits_nil, Bool.or_eq_true, Bool.and_eq_true, decide_eq_true_eq,
    Bool.false_eq_true, and_false, or_false, Nat.add_left_cancel_iff, Nat.add_lt_add_iff_left,
    Nat.lt_irrefl, false_or, true_and]
  obtain ⟨hay, h1, h2, h3, h4⟩ := four_digits a.year ha1
  obtain ⟨hby, h5, h6, h7, h8⟩ := four_digits b.year hb1
  obtain ⟨ham, h9, h10⟩ := two_digits a.month (by omega)
  obtain ⟨hbm, h11, h12⟩ := two_digits b.month (by omega)
  rw [lex_four _ _ _ _ _ _ _ _ h2 h3 h4 h6 h7 h8, lex_two _ _ _ _ h10 h12,
    ← hay, ← hby, ← ham, ← hbm]
  have hd : (a.day % 100 / 10 % 10 < b.day % 100 / 10 % 10 ∨
      a.day % 100 / 10 % 10 = b.day % 100 / 10 % 10 ∧ a.day % 10 < b.day % 10) ↔
      a.day < b.day := by
    omega
  rw [hd]

/-- A date text is not the empty string. -/
theorem truthy_isoDate (d : CalendarDate) : truthy (isoDate d) = true := by
  simp [truthy, isoDate, pad4, String.ext_iff]

/-! ### The availability form -/

/-- The first request of `sendSubmit` is the update or create request. -/
theorem requests_sendSubmit (st : AvailabilityState) (env : AvailabilityEnv) (doctorId : String) :
    (requests (sendSubmit st env doctorId).2).head? = some (submitRequest st doctorId) := by
  unfold sendSubmit submitRequest
  cases st.editingSlot with
  | none =>
    cases env.createReply with
    | data success message body => cases success <;> simp [requests]
    | thrown e => simp [requests]
  | some slot =>
    cases env.updateReply with
    | data success message body => cases success <;> simp [requests]
    | thrown e => simp [requests]

/-- C3: when the form date is chronologically earlier than the current date,
`handleSubmit` leaves the state unchanged and sends no request, and for a
logged-in doctor shows exactly the past-date validation error; when the form
date is the current date or later the date check lets the submission through:
with the other checks passed the handler goes on to send the request. -/
theorem handleSubmit_rejects_past_date (st : AvailabilityState) (env : AvailabilityEnv)
    (d t : CalendarDate) (hd : d.wellFormed) (ht : t.wellFormed)
    (hdate : st.formData.date = isoDate d) (htoday : env.today = isoDate t) :
    (d.before t →
      (handleSubmit st env).1 = st ∧ requests (handleSubmit st env).2 = [] ∧
      (truthy st.dToken = true →
        (handleSubmit st env).2 = [Effect.toast (Toast.error (some pastDateMessage))])) ∧
    (¬ d.before t → truthy st.dToken = true → repeatUntilInPast st.formData env.today = false →
      ∀ doctorId, decodeDoctorId env.payloadId st.dToken = some doctorId →
        handleSubmit st env = sendSubmit st env doctorId ∧
        (requests (handleSubmit st env).2).head? = some (submitRequest st doctorId)) := by
  have hlt := strLt_isoDate d t hd ht
  rw [← hdate, ← htoday] at hlt
  constructor
  · intro hb
    have h1 : strLt st.formData.date env.today = true := hlt.mpr hb
    by_cases htok : truthy st.dToken = true
    · simp [handleSubmit, htok, h1, requests]
    · simp [handleSubmit, htok, requests]
  · intro hb htok hrep doctorId hid
    have h1 : strLt st.formData.date env.today = false := by
      cases h : strLt st.formData.date env.today
      · rfl
      · exact absurd (hlt.mp h) hb
    have h2 : handleSubmit st env = sendSubmit st env doctorId := by
      simp [handleSubmit, htok, h1, hrep, hid]
    exact ⟨h2, by rw [h2]; exact requests_sendSubmit st env doctorId⟩

/-- C3 at a form dated 3 November 2026 submitted on 4 November 2026: the handler
only shows the past-date error. -/
theorem handleSubmit_rejects_past_date_witness :
    handleSubmit { sampleAvailabilityState with
        formData := { sampleForm with date := "2026-11-03" } } sampleAvailabilityEnv
      = ({ sampleAvailabilityState with formData := { sampleForm with date := "2026-11-03" } },
         [Effect.toast (Toast.error (some pastDateMessage))]) :=
  have h := (handleSubmit_rejects_past_date
    { sampleAvailabilityState with formData := { sampleForm with date := "2026-11-03" } }
    sampleAvailabilityEnv ⟨2026, 11, 3⟩ ⟨2026, 11, 4⟩ (by decide) (by decide) rfl rfl).1
    (by decide)
  Prod.ext h.1 (h.2.2 rfl)

/-- C4, refuted as stated: with the token `hdr.eyJpZCI6ImQxIn0.sig`, whose payload
is read as doctor `d1`, a form whose start time 13:00 is later than its end
time 10:00 is not rejected; `handleSubmit` sends the create request with both
times as entered. -/
theorem handleSubmit_sends_start_after_end :
    sampleAvailabilityState.dToken = "hdr.eyJpZCI6ImQxIn0.sig" ∧
    strLt "13:00" "10:00" = false ∧
    requests (handleSubmit
        { sampleAvailabilityState with
            formData := { sampleForm with startTime := "13:00", endTime := "10:00" } }
        sampleAvailabilityEnv).2
      = [Request.createAvailability
          { doctorId := "d1", date := "2026-11-05", startTime := "13:00", endTime := "10:00",
            slotPeriod := "AFTERNOON", capacity := some 5, isRecurring := false,
            recurringPattern := some { daysOfWeek := [], repeatUntil := "", repeatCount := "" } }] := by
  refine ⟨rfl, ?_, ?_⟩
  · decide
  · rfl

/-- C4, amended: `handleSubmit` makes no check of the start time against the end
time: for a logged-in doctor whose token decodes, a form date that is not in the
past and a repeat-until check that passes, it sends the create or update request
carrying the start and end time exactly as entered, whatever their order. -/
theorem handleSubmit_times_unchecked (st : AvailabilityState) (env : AvailabilityEnv)
    (doctorId : String) (htok : truthy st.dToken = true)
    (hdate : strLt st.formData.date env.today = false)
    (hrep : repeatUntilInPast st.formData env.today = false)
    (hid : decodeDoctorId env.payloadId st.dToken = some doctorId) :
    (requests (handleSubmit st env).2).head? = some (submitRequest st doctorId) ∧
    (buildPayload doctorId st.formData).startTime = st.formData.startTime ∧
    (buildPayload doctorId st.formData).endTime = st.formData.endTime := by
  have h : handleSubmit st env = sendSubmit st env doctorId := by
    simp [handleSubmit, htok, hdate, hrep, hid]
  exact ⟨by rw [h]; exact requests_sendSubmit st env doctorId, rfl, rfl⟩

/-- C4 amended, at a form with equal start and end time: the create request is
sent. -/
theorem handleSubmit_times_unchecked_witness :
    (requests (handleSubmit
        { sampleAvailabilityState with
            formData := { sampleForm with startTime := "10:00", endTime := "10:00" } }
        sampleAvailabilityEnv).2).head?
      = some (submitRequest
          { sampleAvailabilityState with
            formData := { sampleForm with startTime := "10:00", endTime := "10:00" } } "d1") :=
  (handleSubmit_times_unchecked
    { sampleAvailabilityState with
        formData := { sampleForm with startTime := "10:00", endTime := "10:00" } }
    sampleAvailabilityEnv "d1" (by decide) (by decide) (by decide) (by decide)).1

/-- C5, refuted as stated: with the token `hdr.eyJpZCI6ImQxIn0.sig`, whose payload
is read as doctor `d1`, the recurring box unticked and a repeat-until date of
1 January 2020 still in the pattern, a submission on 4 November 2026 is not
rejected; the create request carries that pattern. -/
theorem handleSubmit_sends_stale_repeatUntil :
    sampleAvailabilityState.dToken = "hdr.eyJpZCI6ImQxIn0.sig" ∧
    strLt "2020-01-01" "2026-11-04" = true ∧
    requests (handleSubmit
        { sampleAvailabilityState with
            formData := { sampleForm with
              recurringPattern :=
                some { daysOfWeek := [1], repeatUntil := "2020-01-01", repeatCount := "" } } }
        sampleAvailabilityEnv).2
      = [Request.createAvailability
          { doctorId := "d1", date := "2026-11-05", startTime := "14:00", endTime := "16:00",
            slotPeriod := "AFTERNOON", capacity := some 5, isRecurring := false,
            recurringPattern :=
              some { daysOfWeek := [1], repeatUntil := "2020-01-01", repeatCount := "" } }] := by
  refine ⟨rfl, ?_, ?_⟩
  · decide
  · rfl

/-- C5, amended: when the pattern's repeat-until date is earlier than the current
date and the recurring box is ticked, `handleSubmit` leaves the state unchanged
and sends no request, showing the repeat-until validation error once the login
and the form-date check have passed; when the box is unticked the repeat-until
date is not checked, and once the token decodes the request is sent with the
pattern as stored. -/
theorem handleSubmit_repeatUntil_when_recurring (st : AvailabilityState)
    (env : AvailabilityEnv) (pattern : RecurringPattern) (u t : CalendarDate)
    (hu : u.wellFormed) (ht : t.wellFormed)
    (hp : st.formData.recurringPattern = some pattern)
    (hru : pattern.repeatUntil = isoDate u) (htoday : env.today = isoDate t)
    (hbefore : u.before t) :
    (st.formData.isRecurring = true →
      (handleSubmit st env).1 = st ∧ requests (handleSubmit st env).2 = [] ∧
      (truthy st.dToken = true → strLt st.formData.date env.today = false →
        (handleSubmit st env).2 = [Effect.toast (Toast.error (some pastRepeatUntilMessage))])) ∧
    (st.formData.isRecurring = false → truthy st.dToken = true →
      strLt st.formData.date env.today = false →
      ∀ doctorId, decodeDoctorId env.payloadId st.dToken = some doctorId →
        (requests (handleSubmit st env).2).head? = some (submitRequest st doctorId) ∧
        (buildPayload doctorId st.formData).recurringPattern = some pattern) := by
  have hlt : strLt pattern.repeatUntil env.today = true := by
    rw [hru, htoday]
    exact (strLt_isoDate u t hu ht).mpr hbefore
  have htr : truthy pattern.repeatUntil = true := by
    rw [hru]
    exact truthy_isoDate u
  constructor
  · intro hrec
    have hrep : repeatUntilInPast st.formData env.today = true := by
      simp [repeatUntilInPast, hrec, hp, hlt, htr]
    by_cases htok : truthy st.dToken = true
    · cases hdate : strLt st.formData.date env.today
      · simp [handleSubmit, htok, hdate, hrep, requests]
      · simp [handleSubmit, htok, hdate, requests]
    · simp [handleSubmit, htok, requests]
  · intro hrec htok hdate doctorId hid
    have hrep : repeatUntilInPast st.formData env.today = false := by
      simp [repeatUntilInPast, hrec]
    have h : handleSubmit st env = sendSubmit st env doctorId := by
      simp [handleSubmit, htok, hdate, hrep, hid]
    exact ⟨by rw [h]; exact requests_sendSubmit st env doctorId, by simp [buildPayload, hp]⟩

/-- C5 amended, at a ticked recurring box with repeat-until 1 January 2020 on
4 November 2026: the handler only shows the repeat-until error. -/
theorem handleSubmit_repeatUntil_when_recurring_witness :
    (handleSubmit
        { sampleAvailabilityState with
            formData := { sampleForm with
              isRecurring := true,
              recurringPattern :=
                some { daysOfWeek := [1], repeatUntil := "2020-01-01", repeatCount := "" } } }
        sampleAvailabilityEnv).2
      = [Effect.toast (Toast.error (some pastRepeatUntilMessage))] :=
  ((handleSubmit_repeatUntil_when_recurring
    { sampleAvailabilityState with
        formData := { sampleForm with
          isRecurring := true,
          recurringPattern :=
            some { daysOfWeek := [1], repeatUntil := "2020-01-01", repeatCount := "" } } }
    sampleAvailabilityEnv { daysOfWeek := [1], repeatUntil := "2020-01-01", repeatCount := "" }
    ⟨2020, 1, 1⟩ ⟨2026, 11, 4⟩ (by decide) (by decide) rfl rfl rfl (by decide)).1 rfl).2.2
    (by decide) (by decide)

/-! ### `parseInt` on decimal numerals -/

/-- A digit character is not white space. -/
theorem isWhiteSpace_digitChar (d : Nat) : isWhiteSpace (digitChar d) = false := by
  have h := digitChar_toNat d
  have h1 : d % 10 < 10 := Nat.mod_lt _ (by decide)
  simp only [isWhiteSpace, h]
  generalize d % 10 = k at h1
  interval_cases k <;> rfl

/-- A digit character reads as its digit. -/
theorem digitValue_digitChar (d : Nat) (hd : d < 10) : digitValue (digitChar d) = some d := by
  have h := digitChar_toNat d
  have h1 : d % 10 = d := Nat.mod_eq_of_lt hd
  simp only [digitValue, h, h1]
  have : 48 ≤ 48 + d ∧ 48 + d ≤ 57 := by omega
  simp [this]

/-- A run of digit characters is read whole. -/
theorem takeDigits_digits (ds : List Nat) (h : ∀ d ∈ ds, d < 10) :
    takeDigits 10 (ds.map digitChar) = ds := by
  induction ds with
  | nil => rfl
  | cons d ds ih =>
    have hd : d < 10 := h d (by simp)
    simp only [List.map_cons, takeDigits, digitValue_digitChar d hd, hd, if_true]
    rw [ih (fun e he => h e (by simp [he]))]

/-- No sign is read before a digit. -/
theorem readSign_digitChar (d : Nat) (cs : List Char) :
    readSign (digitChar d :: cs) = (false, digitChar d :: cs) := by
  have h1 : d % 10 < 10 := Nat.mod_lt _ (by decide)
  unfold digitChar
  generalize d % 10 = k at h1
  interval_cases k <;> rfl

/-- A run of decimal digits is read in base ten. -/
theorem readRadix_digits (ds : List Nat) :
    readRadix none (ds.map digitChar) = (10, ds.map digitChar) := by
  match ds with
  | [] => rfl
  | [d] =>
    have h1 : d % 10 < 10 := Nat.mod_lt _ (by decide)
    simp only [List.map_cons, List.map_nil, digitChar]
    generalize d % 10 = k at h1
    interval_cases k <;> rfl
  | d :: e :: ds =>
    have h1 : d % 10 < 10 := Nat.mod_lt _ (by decide)
    have h2 : e % 10 < 10 := Nat.mod_lt _ (by decide)
    simp only [List.map_cons, digitChar]
    generalize d % 10 = k at h1
    generalize e % 10 = l at h2
    interval_cases k <;> interval_cases l <;> rfl

/-- The builtin `parseInt` reads a decimal numeral as the number it writes. -/
theorem parseInt_decimalText (ds : List Nat) (hne : ds ≠ []) (h : ∀ d ∈ ds, d < 10) :
    parseInt (decimalText ds) none = ParsedInt.val (digitsValue 10 ds) := by
  obtain ⟨d, rest, rfl⟩ := List.exists_cons_of_ne_nil hne
  have hdrop : List.dropWhile isWhiteSpace ((d :: rest).map digitChar)
      = (d :: rest).map digitChar := by
    simp [List.dropWhile, isWhiteSpace_digitChar]
  have hsign : readSign ((d :: rest).map digitChar) = (false, (d :: rest).map digitChar) := by
    simpa using readSign_digitChar d (rest.map digitChar)
  have hlist : (String.mk ((d :: rest).map digitChar)).toList = (d :: rest).map digitChar := rfl
  unfold parseInt decimalText
  simp only [hlist, hdrop, hsign, readRadix_digits, takeDigits_digits _ h]
  simp

/-- A decimal numeral with at least one digit is a truthy string. -/
theorem truthy_decimalText (ds : List Nat) (hne : ds ≠ []) : truthy (decimalText ds) = true := by
  obtain ⟨d, rest, rfl⟩ := List.exists_cons_of_ne_nil hne
  simp [truthy, decimalText, String.ext_iff]

/-- The empty string is the only falsy string. -/
theorem truthy_eq_false_iff (s : String) : truthy s = false ↔ s = "" := by
  simp [truthy]

/-- For a capacity field holding a decimal numeral (below `2 ^ 53`, where
JavaScript numbers are exact) the payload carries the integer the numeral
writes, and for the empty field it carries null. -/
theorem buildPayload_capacity_decimal (doctorId : String) (form : FormData) :
    (form.capacity = "" → (buildPayload doctorId form).capacity = none) ∧
    (∀ ds : List Nat, ds ≠ [] → (∀ d ∈ ds, d < 10) → digitsValue 10 ds < 2 ^ 53 →
      form.capacity = decimalText ds →
      (buildPayload doctorId form).capacity = some (digitsValue 10 ds : Int)) := by
  refine ⟨?_, ?_⟩
  · intro h
    simp [buildPayload, h, truthy]
  · intro ds hne hds _ h
    simp [buildPayload, h, truthy_decimalText ds hne, parseInt_decimalText ds hne hds,
      jsonNumber]

/-- C6, the code at the failing input: the capacity field `0.5e1` is the number
5, which the `min` of 1 that the page sets on the field admits, and it is not
empty; `parseInt` reads only the leading `0`, and with the token
`hdr.eyJpZCI6ImQxIn0.sig`, whose payload is read as doctor `d1`, the create
request carries capacity 0, which is neither null nor at least 1. -/
theorem handleSubmit_capacity_exponent :
    toNumber "0.5e1" = JsNumber.fin 5 0 ∧
    parseInt "0.5e1" none = ParsedInt.val 0 ∧
    sampleAvailabilityState.dToken = "hdr.eyJpZCI6ImQxIn0.sig" ∧
    requests (handleSubmit
        { sampleAvailabilityState with formData := { sampleForm with capacity := "0.5e1" } }
        sampleAvailabilityEnv).2
      = [Request.createAvailability
          { doctorId := "d1", date := "2026-11-05", startTime := "14:00", endTime := "16:00",
            slotPeriod := "AFTERNOON", capacity := some 0, isRecurring := false,
            recurringPattern := some { daysOfWeek := [], repeatUntil := "", repeatCount := "" } }] := by
  refine ⟨by decide, by decide, rfl, ?_⟩
  rfl

/-! ### The sorted appointment list -/

/-- Insertion keeps the elements. -/
theorem insertBy_perm {α : Type} (cmp : α → α → Int) (x : α) (l : List α) :
    List.Perm (insertBy cmp x l) (x :: l) := by
  induction l with
  | nil => exact List.Perm.refl _
  | cons y ys ih =>
    unfold insertBy
    split
    · exact (List.Perm.cons y ih).trans (List.Perm.swap x y ys)
    · exact List.Perm.refl _

/-- Sorting keeps the elements. -/
theorem sortBy_perm {α : Type} (cmp : α → α → Int) (l : List α) :
    List.Perm (sortBy cmp l) l := by
  induction l with
  | nil => exact List.Perm.refl _
  | cons x xs ih =>
    unfold sortBy
    exact (insertBy_perm cmp x (sortBy cmp xs)).trans (List.Perm.cons x ih)

/-- Insertion by token index keeps a list ascending. -/
theorem insertBy_ascending (x : Appointment) (l : List Appointment)
    (h : List.Pairwise (fun a b => a.slotTokenIndex ≤ b.slotTokenIndex) l) :
    List.Pairwise (fun a b => a.slotTokenIndex ≤ b.slotTokenIndex)
      (insertBy compareTokenIndex x l) := by
  induction l with
  | nil => simp [insertBy]
  | cons y ys ih =>
    obtain ⟨hy, hys⟩ := List.pairwise_cons.mp h
    unfold insertBy
    split
    · rename_i hgt
      have hyx : y.slotTokenIndex ≤ x.slotTokenIndex := by
        unfold compareTokenIndex at hgt
        omega
      refine List.pairwise_cons.mpr ⟨?_, ih hys⟩
      intro b hb
      rcases List.mem_cons.mp ((insertBy_perm compareTokenIndex x ys).mem_iff.mp hb) with rfl | hb
      · exact hyx
      · exact hy b hb
    · rename_i hle
      have hxy : x.slotTokenIndex ≤ y.slotTokenIndex := by
        unfold compareTokenIndex at hle
        omega
      refine List.pairwise_cons.mpr ⟨?_, h⟩
      intro b hb
      rcases List.mem_cons.mp hb with rfl | hb
      · exact hxy
      · exact le_trans hxy (hy b hb)

/-- Sorting by token index gives an ascending list. -/
theorem sortBy_ascending (l : List Appointment) :
    List.Pairwise (fun a b => a.slotTokenIndex ≤ b.slotTokenIndex)
      (sortBy compareTokenIndex l) := by
  induction l with
  | nil => simp [sortBy]
  | cons x xs ih =>
    unfold sortBy
    exact insertBy_ascending x _ ih

/-- C7: when a slot is selected, the doctor is logged in and the backend answers
with a queue snapshot, the appointment list `fetchQueueData` stores is a
permutation of the snapshot's appointments (of the empty list when the snapshot
has none) in ascending `slotTokenIndex` order, and the snapshot itself is
stored as the queue data. -/
theorem fetchQueueData_sorted_perm (st : QueueState) (env : QueueEnv)
    (message : Option String) (q : QueueSnapshot)
    (hsel : noSlotSelected st = false) (htok : truthy st.dToken = true)
    (hreply : env.queueReply = Reply.data true message (some q)) :
    List.Perm (fetchQueueData st env).1.appointments (q.appointments.getD []) ∧
    List.Pairwise (fun a b => a.slotTokenIndex ≤ b.slotTokenIndex)
      (fetchQueueData st env).1.appointments ∧
    (fetchQueueData st env).1.queueData = some q := by
  cases hq : q.appointments with
  | none => simp [fetchQueueData, hsel, htok, hreply, hq]
  | some apts =>
    simp only [fetchQueueData, hsel, htok, hreply, hq]
    exact ⟨by simpa using sortBy_perm compareTokenIndex apts,
      by simpa using sortBy_ascending apts, by simp⟩

/-- C7 at the sample snapshot, whose tokens arrive in the order 3, 1, 2: they
are stored in the order 1, 2, 3. -/
theorem fetchQueueData_sorted_perm_witness :
    (fetchQueueData sampleQueueState sampleQueueEnv).1.appointments
        = [servingApt, bookedApt, bookedApt3] ∧
    List.Perm (fetchQueueData sampleQueueState sampleQueueEnv).1.appointments
      [bookedApt3, servingApt, bookedApt] :=
  ⟨by decide,
    (fetchQueueData_sorted_perm sampleQueueState sampleQueueEnv none sampleSnapshot
      (by decide) (by decide) rfl).1⟩

/-! ### The Remaining figure -/

/-- Numbering of a concatenation. -/
theorem numberedFrom_append (s : Int) (l1 l2 : List Appointment) :
    numberedFrom s (l1 ++ l2) ↔ numberedFrom s l1 ∧ numberedFrom (s + l1.length) l2 := by
  induction l1 generalizing s with
  | nil => simp [numberedFrom]
  | cons a as ih =>
    show (a.slotTokenIndex = s ∧ numberedFrom (s + 1) (as ++ l2)) ↔
      (a.slotTokenIndex = s ∧ numberedFrom (s + 1) as) ∧
        numberedFrom (s + ((as.length + 1 : Nat) : Int)) l2
    have h : s + 1 + (as.length : Int) = s + ((as.length + 1 : Nat) : Int) := by
      push_cast
      omega
    rw [ih (s + 1), h, and_assoc]

/-- A terminal token is not being served. -/
theorem not_serving_of_isTerminal (a : Appointment) (h : isTerminal a = true) :
    (a.status == "SERVING") = false := by
  unfold isTerminal at h
  rcases Bool.or_eq_true_iff.mp h with h1 | h1
  · have h2 : a.status = "COMPLETED" := by simpa using h1
    rw [h2]
    decide
  · have h2 : a.status = "WRONG" := by simpa using h1
    rw [h2]
    decide

/-- The terminal tokens of a terminal block followed by a non-terminal block. -/
theorem terminalCount_append (pre post : List Appointment)
    (hpre : ∀ a ∈ pre, isTerminal a = true) (hpost : ∀ a ∈ post, isTerminal a = false) :
    terminalCount (pre ++ post) = pre.length := by
  unfold terminalCount
  rw [List.filter_append, List.filter_eq_self.mpr hpre, List.filter_eq_nil_iff.mpr]
  · simp
  · intro a ha
    simp [hpost a ha]

/-- Non-terminal tokens do not move the last terminal index. -/
theorem lastTerminalIndex_append (pre post : List Appointment)
    (hpost : ∀ a ∈ post, isTerminal a = false) :
    lastTerminalIndex (pre ++ post) = lastTerminalIndex pre := by
  induction pre with
  | nil =>
    induction post with
    | nil => rfl
    | cons a as ih =>
      simp only [List.nil_append, lastTerminalIndex, hpost a (by simp)] at ih ⊢
      simpa using ih (fun b hb => hpost b (by simp [hb]))
  | cons a as ih =>
    show (if isTerminal a then max a.slotTokenIndex (lastTerminalIndex (as ++ post))
          else lastTerminalIndex (as ++ post)) = lastTerminalIndex (a :: as)
    rw [ih]
    rfl

/-- The last terminal index of a block of terminal tokens numbered from `s`. -/
theorem lastTerminalIndex_numbered (s : Int) (l : List Appointment) (hs : 0 ≤ s)
    (hnum : numberedFrom s l) (hterm : ∀ a ∈ l, isTerminal a = true) :
    lastTerminalIndex l = if l = [] then 0 else s + l.length - 1 := by
  induction l generalizing s with
  | nil => simp [lastTerminalIndex]
  | cons a as ih =>
    obtain ⟨ha, has⟩ := hnum
    have h1 := ih (s + 1) (by omega) has (fun b hb => hterm b (by simp [hb]))
    simp only [lastTerminalIndex, hterm a (by simp), if_true, h1, ha]
    by_cases hnil : as = []
    · subst hnil
      simp
      omega
    · simp only [hnil, if_false]
      simp
      omega

/-- The current token, as the specification reads it, of a queue numbered from 1
whose terminal tokens come first and in which only the first of the others may
be served. -/
theorem specCurrentToken_eq (pre post : List Appointment)
    (hnum : numberedFrom 1 (pre ++ post))
    (hpre : ∀ a ∈ pre, isTerminal a = true) (hpost : ∀ a ∈ post, isTerminal a = false)
    (hserv : ∀ a ∈ post.tail, a.status ≠ "SERVING") :
    specCurrentToken (pre ++ post) = pre.length + 1 := by
  obtain ⟨hn1, hn2⟩ := (numberedFrom_append 1 pre post).mp hnum
  have hfind : List.find? (fun a => a.status == "SERVING") pre = none := by
    rw [List.find?_eq_none]
    intro a ha
    simp [not_serving_of_isTerminal a (hpre a ha)]
  have hlast : lastTerminalIndex (pre ++ post) = pre.length := by
    rw [lastTerminalIndex_append pre post hpost,
      lastTerminalIndex_numbered 1 pre (by omega) hn1 hpre]
    by_cases hnil : pre = []
    · simp [hnil]
    · simp [hnil]
  unfold specCurrentToken servingToken
  rw [List.find?_append, hfind]
  cases post with
  | nil => simp [hlast] at *; simpa using hlast
  | cons b bs =>
    by_cases hb : b.status = "SERVING"
    · simp only [List.find?, hb, beq_self_eq_true, Option.none_or]
      rw [hn2.1]
      omega
    · have htail : List.find? (fun a => a.status == "SERVING") bs = none := by
        rw [List.find?_eq_none]
        intro a ha
        simpa using hserv a (by simpa using ha)
      have hb' : (b.status == "SERVING") = false := by simpa using hb
      simp only [List.find?, hb', htail, Option.none_or]
      rw [hlast]

/-- C8, refuted as stated: in the sample snapshot token 1 of 3 is being served
and is the current token, no token is COMPLETED or WRONG, the page shows
`Remaining` 2, and the total minus the COMPLETED or WRONG tokens is 3. -/
theorem remainingShown_differs_from_spec :
    sampleSnapshot.currentToken = specCurrentToken (sampleSnapshot.appointments.getD []) ∧
    sampleSnapshot.totalTokens = ((sampleSnapshot.appointments.getD []).length : Int) ∧
    remainingShown sampleSnapshot = 2 ∧ specRemaining sampleSnapshot = 3 := by
  decide

/-- C8, amended: for a queue numbered 1..N in which the COMPLETED or WRONG
tokens come first and only the first of the other tokens may be SERVING, with
`totalTokens` the number of tokens and `currentToken` read as the specification
says, the current token is one more than the number of terminal tokens, and the
figure shown under `Remaining` is the total minus the terminal tokens minus one,
floored at 0: the tokens behind the current one.  It equals the total minus the
terminal tokens only when every token is terminal. -/
theorem remainingShown_behind_current (q : QueueSnapshot) (pre post : List Appointment)
    (happ : q.appointments = some (pre ++ post))
    (hnum : numberedFrom 1 (pre ++ post))
    (hpre : ∀ a ∈ pre, isTerminal a = true) (hpost : ∀ a ∈ post, isTerminal a = false)
    (hserv : ∀ a ∈ post.tail, a.status ≠ "SERVING")
    (htotal : q.totalTokens = ((pre ++ post).length : Int))
    (hcur : q.currentToken = specCurrentToken (pre ++ post)) :
    q.currentToken = terminalCount (pre ++ post) + 1 ∧
    remainingShown q = mathMax 0 (specRemaining q - 1) ∧
    (remainingShown q = specRemaining q ↔ post = []) := by
  have hc := specCurrentToken_eq pre post hnum hpre hpost hserv
  have ht := terminalCount_append pre post hpre hpost
  have hlen : ((pre ++ post).length : Int) = pre.length + post.length := by simp
  have hspec : specRemaining q = post.length := by
    unfold specRemaining
    rw [happ, htotal, hlen]
    simp only [Option.getD_some, ht]
    omega
  have hshown : remainingShown q = mathMax 0 ((post.length : Int) - 1) := by
    unfold remainingShown
    rw [htotal, hcur, hc, hlen]
    congr 1
    omega
  refine ⟨by rw [hcur, hc, ht], by rw [hshown, hspec], ?_⟩
  rw [hshown, hspec]
  unfold mathMax
  cases post with
  | nil => simp
  | cons b bs =>
    simp only [List.length_cons, Nat.cast_add, Nat.cast_one, reduceCtorEq, iff_false]
    split <;> omega

/-- C8 amended, at the sample queue in served order (token 1 serving, tokens 2
and 3 waiting): the figure shown is 3 - 0 - 1. -/
theorem remainingShown_behind_current_witness :
    remainingShown { sampleSnapshot with appointments := some [servingApt, bookedApt, bookedApt3] }
      = mathMax 0
          (specRemaining
            { sampleSnapshot with appointments := some [servingApt, bookedApt, bookedApt3] } - 1) :=
  (remainingShown_behind_current
    { sampleSnapshot with appointments := some [servingApt, bookedApt, bookedApt3] }
    [] [servingApt, bookedApt, bookedApt3] rfl ⟨rfl, rfl, rfl, trivial⟩ (by decide) (by decide)
    (by decide) (by decide) (by decide)).2.1

/-! ### Starting the session twice -/

/-- The callback `fetchQueueData` does not change the selected slot. -/
theorem fetchQueueData_selectedSlot (st : QueueState) (env : QueueEnv) :
    (fetchQueueData st env).1.selectedSlot = st.selectedSlot := by
  unfold fetchQueueData
  split
  · rfl
  · cases env.queueReply with
    | thrown e => rfl
    | data success message snapshot =>
      cases success
      · rfl
      · cases snapshot with
        | none => rfl
        | some q => cases h : q.appointments <;> simp [h]

/-- The callback `fetchSlots` does not change the selected slot. -/
theorem fetchSlots_selectedSlot (st : QueueState) (env : QueueEnv) :
    (fetchSlots st env).1.selectedSlot = st.selectedSlot := by
  unfold fetchSlots
  split
  · rfl
  · cases env.payloadId (tokenPart st.dToken) with
    | none => rfl
    | some doctorId =>
      cases env.slotsReply with
      | thrown e => rfl
      | data success message slots => cases success <;> rfl

/-- The handler `handleStartSession` does not change the selected slot. -/
theorem handleStartSession_selectedSlot (st : QueueState) (env : QueueEnv) :
    (handleStartSession st env).1.selectedSlot = st.selectedSlot := by
  unfold handleStartSession
  split
  · rfl
  · split
    · cases env.startSessionReply with
      | thrown e =>
        simp only
        split <;> rfl
      | data success message body =>
        cases success
        · rfl
        · simp only [refresh, if_true]
          rw [fetchSlots_selectedSlot, fetchQueueData_selectedSlot]
    · rfl

/-- C9: whatever the first `handleStartSession` did, a second call on the same
slot that the backend answers with HTTP 409 shows the already-started error and
leaves the whole page state (queue snapshot, appointment list, slot list) as it
was after the first call; the same holds for every second call that does not
succeed; and once the stored snapshot says the session is started the page no
longer renders the start button. -/
theorem handleStartSession_twice (st : QueueState) (env1 env2 : QueueEnv) (e : Failure)
    (hsel : noSlotSelected st = false) (hconfirm : env2.confirm = true)
    (hreply : env2.startSessionReply = Reply.thrown e) (hstatus : e.status = some 409) :
    handleStartSession (handleStartSession st env1).1 env2
      = ((handleStartSession st env1).1,
          [Effect.request (Request.startSession (selectedSlotId st)),
           Effect.toast (Toast.error
            (some "The serving session has already been started for this queue."))]) ∧
    (∀ env3 : QueueEnv, (∀ message, env3.startSessionReply ≠ Reply.data true message ()) →
      (handleStartSession (handleStartSession st env1).1 env3).1
        = (handleStartSession st env1).1) ∧
    (∀ q, (handleStartSession st env1).1.queueData = some q → q.servingSessionStarted = true →
      startButtonShown (handleStartSession st env1).1 = false) := by
  have hslot := handleStartSession_selectedSlot st env1
  have hsel1 : noSlotSelected (handleStartSession st env1).1 = false := by
    unfold noSlotSelected at hsel ⊢
    rw [hslot]
    exact hsel
  have hid1 : selectedSlotId (handleStartSession st env1).1 = selectedSlotId st := by
    unfold selectedSlotId
    rw [hslot]
  refine ⟨?_, ?_, ?_⟩
  · generalize handleStartSession st env1 = r at hsel1 hid1
    simp [handleStartSession, hsel1, hconfirm, hreply, hstatus, hid1]
  · intro env3 h3
    generalize handleStartSession st env1 = r at hsel1 hid1
    unfold handleStartSession
    simp only [hsel1]
    cases env3.confirm
    · simp
    · cases h : env3.startSessionReply with
      | thrown e3 => by_cases h409 : e3.status = some 409 <;> simp [h409]
      | data success message body =>
        cases success
        · simp
        · exact absurd h (h3 message)
  · intro q hq hstarted
    simp [startButtonShown, hq, hstarted]

/-- C9 at the sample page: after a first, successful start, a second start
answered with HTTP 409 changes nothing and shows the already-started error. -/
theorem handleStartSession_twice_witness :
    handleStartSession (handleStartSession sampleQueueState sampleQueueEnv).1 conflictQueueEnv
      = ((handleStartSession sampleQueueState sampleQueueEnv).1,
          [Effect.request (Request.startSession (selectedSlotId sampleQueueState)),
           Effect.toast (Toast.error
            (some "The serving session has already been started for this queue."))]) :=
  (handleStartSession_twice sampleQueueState sampleQueueEnv conflictQueueEnv
    { status := some 409, responseMessage := none, message := none }
    (by decide) rfl rfl rfl).1

/-! ### The duration sent with a completion -/

/-- For a SERVING appointment with an id the mark-completed request carries
null when the duration field is empty and, when the field holds a decimal
numeral (below `2 ^ 53`, where JavaScript numbers are exact), the integer the
numeral writes. -/
theorem handleMarkCompleted_duration_decimal (st : QueueState) (env : QueueEnv)
    (apt : Appointment) (hs : apt.status = "SERVING") (hid : truthy apt._id = true) :
    (requests (handleMarkCompleted st env (some apt)).2).head?
      = some (Request.markCompleted apt._id (sentDuration st.actualDuration)) ∧
    (st.actualDuration = "" → sentDuration st.actualDuration = none) ∧
    (∀ ds : List Nat, ds ≠ [] → (∀ d ∈ ds, d < 10) → digitsValue 10 ds < 2 ^ 53 →
      st.actualDuration = decimalText ds →
      sentDuration st.actualDuration = some (digitsValue 10 ds : Int)) := by
  refine ⟨?_, ?_, ?_⟩
  · simp only [handleMarkCompleted, hid, hs]
    simpa using requests_sendMarkCompleted st env apt
  · intro h
    simp [sentDuration, enteredDuration, truthy, h]
  · intro ds hne hds _ h
    simp [sentDuration, enteredDuration, h, truthy_decimalText ds hne,
      parseInt_decimalText ds hne hds, jsonNumber]

/-- C10, the code at two failing inputs, both texts that the number input of
the duration holds as typed, for the token being served.  The field `1e2` is
the number 100, and the request carries 1, the digits `parseInt` reads before
the `e`.  The field `.5` is not empty, `parseInt` reads no digit and gives
`NaN`, which is written as null: the request carries no duration although a
value was entered. -/
theorem handleMarkCompleted_duration_misread :
    toNumber "1e2" = JsNumber.fin 100 0 ∧
    (requests (handleMarkCompleted { sampleQueueState with actualDuration := "1e2" }
        sampleQueueEnv (some servingApt)).2).head?
      = some (Request.markCompleted "a1" (some 1)) ∧
    toNumber ".5" = JsNumber.fin 5 (-1) ∧
    parseInt ".5" none = ParsedInt.nan ∧
    (requests (handleMarkCompleted { sampleQueueState with actualDuration := ".5" }
        sampleQueueEnv (some servingApt)).2).head?
      = some (Request.markCompleted "a1" none) := by
  refine ⟨by decide, ?_, by decide, by decide, ?_⟩
  · rfl
  · rfl

/-! ### Atomic submission -/

/-- The refresh keeps the form, the slot being edited, the form's visibility and
the selected date. -/
theorem fetchAvailabilityFor_frame (date : String) (st : AvailabilityState)
    (env : AvailabilityEnv) :
    (fetchAvailabilityFor date st env).1.formData = st.formData ∧
    (fetchAvailabilityFor date st env).1.editingSlot = st.editingSlot ∧
    (fetchAvailabilityFor date st env).1.showForm = st.showForm ∧
    (fetchAvailabilityFor date st env).1.selectedDate = st.selectedDate := by
  unfold fetchAvailabilityFor
  split
  · exact ⟨rfl, rfl, rfl, rfl⟩
  · cases decodeDoctorId env.payloadId st.dToken with
    | none => exact ⟨rfl, rfl, rfl, rfl⟩
    | some doctorId =>
      cases env.listReply with
      | thrown e => exact ⟨rfl, rfl, rfl, rfl⟩
      | data success message slots => cases success <;> exact ⟨rfl, rfl, rfl, rfl⟩

/-- A submission whose request the backend did not accept leaves the state as
it was. -/
theorem sendSubmit_rejected (st : AvailabilityState) (env : AvailabilityEnv) (doctorId : String)
    (h : submitReplySucceeded st env = false) : (sendSubmit st env doctorId).1 = st := by
  unfold submitReplySucceeded at h
  unfold sendSubmit
  cases hslot : st.editingSlot with
  | none =>
    rw [hslot] at h
    cases hr : env.createReply with
    | thrown e => rfl
    | data success message slots =>
      rw [hr] at h
      simp only [Reply.succeeded] at h
      simp [h]
  | some slot =>
    rw [hslot] at h
    cases hr : env.updateReply with
    | thrown e => rfl
    | data success message body =>
      rw [hr] at h
      simp only [Reply.succeeded] at h
      simp [h]

/-- A submission whose request the backend accepted closes the form, blanks it
and leaves no slot being edited. -/
theorem sendSubmit_applied (st : AvailabilityState) (env : AvailabilityEnv) (doctorId : String)
    (h : submitReplySucceeded st env = true) :
    (sendSubmit st env doctorId).1.showForm = false ∧
    (sendSubmit st env doctorId).1.formData = blankForm env.today ∧
    (sendSubmit st env doctorId).1.editingSlot = none := by
  unfold submitReplySucceeded at h
  unfold sendSubmit
  cases hslot : st.editingSlot with
  | none =>
    rw [hslot] at h
    cases hr : env.createReply with
    | thrown e => rw [hr] at h; simp [Reply.succeeded] at h
    | data success message slots =>
      rw [hr] at h
      simp only [Reply.succeeded] at h
      simp only [h, if_true]
      obtain ⟨h1, h2, h3, _⟩ := fetchAvailabilityFor_frame st.selectedDate
        (resetForm { st with selectedDate := dateAfterCreate st.selectedDate (slots.getD []),
                             showForm := false } env.today) env
      exact ⟨h3, h1, h2⟩
  | some slot =>
    rw [hslot] at h
    cases hr : env.updateReply with
    | thrown e => rw [hr] at h; simp [Reply.succeeded] at h
    | data success message body =>
      rw [hr] at h
      simp only [Reply.succeeded] at h
      simp only [h, if_true]
      obtain ⟨h1, h2, h3, _⟩ := fetchAvailabilityFor_frame
        (resetForm { st with showForm := false } env.today).selectedDate
        (resetForm { st with showForm := false } env.today) env
      exact ⟨h3, h1, h2⟩

/-- C11: whenever `handleSubmit` is rejected (no login, a form date or
repeat-until date in the past, a token that does not decode, a reply with
`success = false` or a thrown error) the whole page state is returned unchanged:
form contents, slot being edited, form visibility, selected date and slot list;
in the one remaining case the submission is applied: the form is closed and
blanked and no slot is being edited. -/
theorem handleSubmit_atomic (st : AvailabilityState) (env : AvailabilityEnv) :
    ((truthy st.dToken = false ∨ strLt st.formData.date env.today = true ∨
        repeatUntilInPast st.formData env.today = true ∨
        decodeDoctorId env.payloadId st.dToken = none ∨
        submitReplySucceeded st env = false) →
      (handleSubmit st env).1 = st) ∧
    (¬ (truthy st.dToken = false ∨ strLt st.formData.date env.today = true ∨
        repeatUntilInPast st.formData env.today = true ∨
        decodeDoctorId env.payloadId st.dToken = none ∨
        submitReplySucceeded st env = false) →
      (handleSubmit st env).1.showForm = false ∧
      (handleSubmit st env).1.formData = blankForm env.today ∧
      (handleSubmit st env).1.editingSlot = none) := by
  unfold handleSubmit
  cases htok : truthy st.dToken
  · simp
  · cases hdate : strLt st.formData.date env.today
    · cases hrep : repeatUntilInPast st.formData env.today
      · cases hid : decodeDoctorId env.payloadId st.dToken with
        | none => simp
        | some doctorId =>
          cases hreply : submitReplySucceeded st env
          · simpa using sendSubmit_rejected st env doctorId hreply
          · simpa using sendSubmit_applied st env doctorId hreply
      · simp
    · simp

/-- C11 at the sample form with a backend that answers `success = false`: the
page state is unchanged. -/
theorem handleSubmit_atomic_witness :
    (handleSubmit sampleAvailabilityState sampleAvailabilityEnv).1 = sampleAvailabilityState :=
  (handleSubmit_atomic sampleAvailabilityState sampleAvailabilityEnv).1
    (Or.inr (Or.inr (Or.inr (Or.inr (by decide)))))

/-! ### Errors that reach the user -/

/-- C12, the code at the failing input: for a reply with `success = false`,
`fetchQueueData` sends its request, shows no toast at all and leaves the state
as it was, while `fetchSlots`, given the same kind of reply, shows the
backend's message as an error toast. -/
theorem fetchQueueData_swallows_failure :
    fetchQueueData sampleQueueState failingQueueEnv
      = (sampleQueueState, [Effect.request (Request.getQueue "s1")]) ∧
    toasts (fetchQueueData sampleQueueState failingQueueEnv).2 = [] ∧
    toasts (fetchSlots sampleQueueState failingQueueEnv).2
      = [Toast.error (some "Slots unavailable")] := by
  refine ⟨by decide, by decide, by decide⟩

/-! ### Date formatting -/

/-- C13, the code at the failing input: for `2026-01-07` the function returns
`7 Jan 2026`, the day without its leading zero, and not the `07 Jan 2026` of its
own comment. -/
theorem slotDateFormat_iso_drops_zero :
    slotDateFormat "2026-01-07" = "7 Jan 2026" ∧ slotDateFormat "2026-01-07" ≠ "07 Jan 2026" := by
  constructor <;> decide

/-- A text without the separator is a single piece. -/
theorem splitOnChar_of_not_mem (sep : Char) (a : List Char) (h : sep ∉ a) :
    splitOnChar sep a = [a] := by
  induction a with
  | nil => rfl
  | cons c cs ih =>
    have hc : c ≠ sep := fun e => h (by simp [e])
    have hcs : sep ∉ cs := fun e => h (by simp [e])
    simp [splitOnChar, hc, ih hcs]

/-- The first piece ends at the first separator. -/
theorem splitOnChar_append (sep : Char) (a rest : List Char) (h : sep ∉ a) :
    splitOnChar sep (a ++ sep :: rest) = a :: splitOnChar sep rest := by
  induction a with
  | nil => simp [splitOnChar]
  | cons c cs ih =>
    have hc : c ≠ sep := fun e => h (by simp [e])
    have hcs : sep ∉ cs := fun e => h (by simp [e])
    simp [splitOnChar, hc, ih hcs]

/-- Three texts joined by a separator they do not contain split into the three. -/
theorem split_three (sep : Char) (a b c : String) (ha : sep ∉ a.toList) (hb : sep ∉ b.toList)
    (hc : sep ∉ c.toList) :
    split sep (a ++ String.mk [sep] ++ b ++ String.mk [sep] ++ c) = [a, b, c] := by
  have h : (a ++ String.mk [sep] ++ b ++ String.mk [sep] ++ c).toList
      = a.toList ++ sep :: (b.toList ++ sep :: c.toList) := by
    simp [String.toList]
  unfold split
  rw [h, splitOnChar_append sep _ _ ha, splitOnChar_append sep _ _ hb,
    splitOnChar_of_not_mem sep _ hc]
  rfl

/-- A number that is the integer `k` compares with integers as `k` does. -/
theorem JsNumber.compare_of_asInt (v : JsNumber) (k j : Int) (h : v.asInt = some k) :
    (v.geInt j = true ↔ j ≤ k) ∧ (v.leInt j = true ↔ k ≤ j) := by
  cases v with
  | nan => simp [JsNumber.asInt] at h
  | inf negative => simp [JsNumber.asInt] at h
  | fin m e =>
    unfold JsNumber.asInt at h
    unfold JsNumber.geInt JsNumber.leInt
    by_cases he : 0 ≤ e
    · simp only [he, if_true, Option.some.injEq] at h
      simp [he, h]
    · simp only [he, if_false] at h ⊢
      have hp : (0 : Int) < 10 ^ (-e).toNat := by positivity
      by_cases hmod : m % 10 ^ (-e).toNat = 0
      · simp only [hmod, if_true, Option.some.injEq] at h
        have hm : m = k * 10 ^ (-e).toNat := by
          rw [← h]
          exact (Int.ediv_mul_cancel (Int.dvd_of_emod_eq_zero hmod)).symm
        simp only [decide_eq_true_eq, hm]
        exact ⟨Int.mul_le_mul_iff_of_pos_right hp, Int.mul_le_mul_iff_of_pos_right hp⟩
      · simp [hmod] at h

/-- The month names at the indices from 1 to 12. -/
theorem monthsAt_of_range (k : Int) (h1 : 1 ≤ k) (h12 : k ≤ 12) :
    monthsAt k = some (months.getD k.toNat "") := by
  obtain ⟨n, rfl⟩ := Int.eq_ofNat_of_zero_le (by omega : 0 ≤ k)
  have hn1 : 1 ≤ n := by omega
  have hn12 : n ≤ 12 := by omega
  simp only [monthsAt, Int.toNat_ofNat]
  interval_cases n <;> rfl

/-- C14: for a text `d_m_y` whose three parts contain no underscore and whose
month part `m` is, as `Number` reads it, a whole number `k` from 1 to 12, the
function returns `d`, the three-letter name of month `k` (Jan for 1, Feb for 2,
Mar, Apr, May, Jun, Jul, Aug, Sep, Oct, Nov, and Dec for 12) and `y`, separated
by single spaces, `d` and `y` copied as they are. -/
theorem slotDateFormat_underscore (day month year : String) (k : Int)
    (hd : '_' ∉ day.toList) (hm : '_' ∉ month.toList) (hy : '_' ∉ year.toList)
    (hk : (toNumber month).asInt = some k) (h1 : 1 ≤ k) (h12 : k ≤ 12) :
    slotDateFormat (day ++ "_" ++ month ++ "_" ++ year)
      = day ++ " "
        ++ ["Jan", "Feb", "Mar", "Apr", "May", "Jun", "Jul", "Aug", "Sep", "Oct", "Nov",
            "Dec"].getD (k.toNat - 1) ""
        ++ " " ++ year := by
  have hsplit := split_three '_' day month year hd hm hy
  have hs : (String.mk ['_'] : String) = "_" := rfl
  rw [hs] at hsplit
  have hinc : includes (day ++ "_" ++ month ++ "_" ++ year) '_' = true := by
    simp [includes, String.toList]
  have htruthy : truthy (day ++ "_" ++ month ++ "_" ++ year) = true := by
    simp [truthy, String.ext_iff]
  have hiso : formatIso (day ++ "_" ++ month ++ "_" ++ year) = none := by
    simp [formatIso, hinc]
  have hcmp1 := (JsNumber.compare_of_asInt (toNumber month) k 1 hk).1.mpr h1
  have hcmp12 := (JsNumber.compare_of_asInt (toNumber month) k 12 hk).2.mpr h12
  have hname : months.getD k.toNat ""
      = ["Jan", "Feb", "Mar", "Apr", "May", "Jun", "Jul", "Aug", "Sep", "Oct", "Nov",
          "Dec"].getD (k.toNat - 1) "" := by
    obtain ⟨n, rfl⟩ := Int.eq_ofNat_of_zero_le (by omega : 0 ≤ k)
    have hn1 : 1 ≤ n := by omega
    have hn12 : n ≤ 12 := by omega
    simp only [Int.toNat_ofNat]
    interval_cases n <;> rfl
  have hund : formatUnderscore (day ++ "_" ++ month ++ "_" ++ year)
      = some (day ++ " " ++ months.getD k.toNat "" ++ " " ++ year) := by
    simp [formatUnderscore, hinc, hsplit, hcmp1, hcmp12, hk, monthsAt_of_range k h1 h12,
      interpolate]
  rw [← hname]
  simp [slotDateFormat, htruthy, hiso, hund]

/-- C14 at the example of the source comment and at the last month: `20_01_2000`
gives `20 Jan 2000`, and `5_12_2026` gives `5 Dec 2026`. -/
theorem slotDateFormat_underscore_witness :
    slotDateFormat "20_01_2000" = "20 Jan 2000" ∧ slotDateFormat "5_12_2026" = "5 Dec 2026" :=
  ⟨slotDateFormat_underscore "20" "01" "2000" 1 (by decide) (by decide) (by decide) (by decide)
    (by decide) (by decide),
   slotDateFormat_underscore "5" "12" "2026" 12 (by decide) (by decide) (by decide) (by decide)
    (by decide) (by decide)⟩

/-- C15: a non-empty text that is neither a three-part `-` date with month 1-12
and day 1-31 nor a three-part `_` date with month 1-12 is returned unchanged. -/
theorem slotDateFormat_unrecognised (s : String) (hne : s ≠ "")
    (hdash : isDashDate s = false) (hunder : isUnderscoreDate s = false) :
    slotDateFormat s = s := by
  have htruthy : truthy s = true := by simp [truthy, hne]
  have hiso : formatIso s = none := by
    unfold formatIso
    unfold isDashDate at hdash
    split
    · split
      · rename_i p0 p1 p2 hsplit
        rw [hsplit] at hdash
        simp only at hdash
        split
        · rename_i year month day _ hmonth hday
          rw [hmonth, hday] at hdash
          simp only [decide_eq_false_iff_not] at hdash
          simp [hdash]
        · rfl
      · rfl
    · rfl
  have hund : formatUnderscore s = none := by
    unfold formatUnderscore
    unfold isUnderscoreDate at hunder
    split
    · split
      · rename_i day p1 year hsplit
        rw [hsplit] at hunder
        simp only at hunder
        simp [hunder]
      · rfl
    · rfl
  simp [slotDateFormat, htruthy, hiso, hund]

/-- C15 at a month 13 and at a plain word: both are returned as they are. -/
theorem slotDateFormat_unrecognised_witness :
    slotDateFormat "20_13_2000" = "20_13_2000" ∧ slotDateFormat "tomorrow" = "tomorrow" :=
  ⟨slotDateFormat_unrecognised "20_13_2000" (by decide) (by decide) (by decide),
    by decide⟩

/-- Where `Number` rounds: the month texts `12.0000000000000001` and
`0.99999999999999999` are read as the numbers 12 and 1, the nearest binary64
values, so these texts are underscore dates and are displayed with the month
name. -/
theorem slotDateFormat_rounded_month :
    toNumber "12.0000000000000001" = JsNumber.fin 12 0 ∧
    isUnderscoreDate "20_12.0000000000000001_2000" = true ∧
    slotDateFormat "20_12.0000000000000001_2000" = "20 Dec 2000" ∧
    toNumber "0.99999999999999999" = JsNumber.fin 1 0 ∧
    slotDateFormat "20_0.99999999999999999_2000" = "20 Jan 2000" := by
  refine ⟨by decide, by decide, by decide, by decide, by decide⟩

/-! ### Age and elapsed serving time -/

/-- C16, the code at the failing input: for a person born on 31 December 2000
and the current date 4 November 2026, `calculateAge` returns 26, while 25 full
years have elapsed. -/
theorem calculateAge_before_birthday :
    calculateAge ⟨2026, 11, 4⟩ ⟨2000, 12, 31⟩ = 26 ∧
    fullYearsElapsed ⟨2026, 11, 4⟩ ⟨2000, 12, 31⟩ = 25 := by
  constructor <;> decide

/-- C17: the text of the one-second timer and the text the render computes on
the spot are the same for the same clock reading and start time, and depend on
the two only through their difference; for a SERVING appointment with a start
time, the entry the timer stores and the constant `elapsedTime` of a render
without stored timers are that text. -/
theorem elapsed_text_agrees (now servingStartedAt : Int) :
    timerText now servingStartedAt = fallbackText now servingStartedAt ∧
    (∀ now2 start2 : Int, now - servingStartedAt = now2 - start2 →
      timerText now servingStartedAt = timerText now2 start2) ∧
    (∀ apt : Appointment, apt.status = "SERVING" → startedAt apt = some servingStartedAt →
      timerOf (updatedTimers [apt] now) apt._id = some (timerText now servingStartedAt) ∧
      elapsedTime [] apt now = some (fallbackText now servingStartedAt)) := by
  refine ⟨rfl, ?_, ?_⟩
  · intro now2 start2 h
    simp only [timerText, h]
  · intro apt hs hstart
    constructor
    · simp [timerOf, updatedTimers, hs, hstart]
    · simp [elapsedTime, timerOf, hs, hstart]

/-- C17 at the token served since clock reading 1000, seen at 126000: both
computations give 2:05. -/
theorem elapsed_text_agrees_witness :
    timerOf (updatedTimers [servingApt] 126000) servingApt._id = some "2:05" ∧
    elapsedTime [] servingApt 126000 = some "2:05" :=
  have h := (elapsed_text_agrees 126000 1000).2.2 servingApt rfl (by decide)
  ⟨h.1.trans (by decide), h.2.trans (by decide)⟩

/-! ### The serving invariant of the specified engine -/

/-- The SERVING tokens of a queue with one more token in front. -/
theorem servingCount_cons (t : Token) (ts : List Token) :
    servingCount (t :: ts)
      = servingCount ts + (if t.status = TokenStatus.SERVING then 1 else 0) := by
  simp [servingCount, List.countP_cons]

/-- Promotion keeps the indices. -/
theorem promoteNext_index (now : Int) (ts : List Token) :
    (promoteNext now ts).map (fun t => t.index) = ts.map (fun t => t.index) := by
  induction ts with
  | nil => rfl
  | cons t ts ih =>
    unfold promoteNext
    split
    · rfl
    · simp [ih]

/-- Promotion keeps the number of tokens. -/
theorem promoteNext_length (now : Int) (ts : List Token) :
    (promoteNext now ts).length = ts.length := by
  have h := congrArg List.length (promoteNext_index now ts)
  simpa using h

/-- Promotion adds at most one SERVING token. -/
theorem servingCount_promoteNext (now : Int) (ts : List Token) :
    servingCount (promoteNext now ts) ≤ servingCount ts + 1 := by
  induction ts with
  | nil => simp [promoteNext, servingCount]
  | cons t ts ih =>
    unfold promoteNext
    split
    · rename_i hb
      simp [servingCount_cons, hb]
    · rw [servingCount_cons, servingCount_cons]
      omega

/-- A queue of BOOKED tokens has no SERVING token. -/
theorem servingCount_of_all_booked (ts : List Token)
    (h : ∀ t ∈ ts, t.status = TokenStatus.BOOKED) : servingCount ts = 0 := by
  induction ts with
  | nil => rfl
  | cons t ts ih =>
    rw [servingCount_cons, ih (fun u hu => h u (by simp [hu])), h t (by simp)]
    simp

/-- Setting a status other than SERVING on some tokens adds no SERVING token. -/
theorem servingCount_map_le (index : Nat) (status : TokenStatus)
    (duration : Token → Option Int) (hstatus : status ≠ TokenStatus.SERVING) (ts : List Token) :
    servingCount (ts.map (fun u =>
      if u.index = index then { u with status := status, actualDuration := duration u } else u))
      ≤ servingCount ts := by
  induction ts with
  | nil => simp [servingCount]
  | cons t ts ih =>
    rw [List.map_cons, servingCount_cons, servingCount_cons]
    by_cases hi : t.index = index
    · simp only [hi, if_true, hstatus, if_false]
      omega
    · simp only [hi, if_false]
      omega

/-- Setting a status other than SERVING on the tokens of an index whose first
token is SERVING removes a SERVING token. -/
theorem servingCount_map_lt (index : Nat) (status : TokenStatus)
    (duration : Token → Option Int) (hstatus : status ≠ TokenStatus.SERVING) (ts : List Token)
    (t : Token) (hfind : ts.find? (fun t => t.index = index) = some t)
    (hserving : t.status = TokenStatus.SERVING) :
    servingCount (ts.map (fun u =>
      if u.index = index then { u with status := status, actualDuration := duration u } else u))
      + 1 ≤ servingCount ts := by
  induction ts with
  | nil => simp at hfind
  | cons u us ih =>
    rw [List.map_cons, servingCount_cons, servingCount_cons]
    by_cases hi : u.index = index
    · have hu : u = t := by simpa [List.find?, hi] using hfind
      have hle := servingCount_map_le index status duration hstatus us
      subst hu
      simp only [hi, if_true, hstatus, if_false, hserving]
      omega
    · have hfind2 : us.find? (fun t => t.index = index) = some t := by
        simpa [List.find?, hi] using hfind
      have h := ih hfind2
      simp only [hi, if_false]
      omega

/-- The invariant of a slot's queue: at most one token is SERVING, before the
session is started every token is BOOKED, and the indices are 1, 2, ... in
booking order. -/
theorem queue_invariant_step (q : SlotQueue) (c : Command)
    (h1 : servingCount q.tokens ≤ 1)
    (h2 : q.sessionStarted = false → ∀ t ∈ q.tokens, t.status = TokenStatus.BOOKED)
    (h3 : q.tokens.map (fun t => t.index) = List.range' 1 q.tokens.length) :
    servingCount (applyCommand q c).tokens ≤ 1 ∧
    ((applyCommand q c).sessionStarted = false →
      ∀ t ∈ (applyCommand q c).tokens, t.status = TokenStatus.BOOKED) ∧
    (applyCommand q c).tokens.map (fun t => t.index)
      = List.range' 1 (applyCommand q c).tokens.length ∧
    (applyCommand q c).startTime = q.startTime ∧
    (applyCommand q c).averageMinutes = q.averageMinutes := by
  have hfinish : ∀ (index : Nat) (status : TokenStatus) (duration : Token → Option Int)
      (now : Int), status ≠ TokenStatus.SERVING →
      ∀ q2, finish q index status duration now = Except.ok q2 →
        servingCount q2.tokens ≤ 1 ∧
        (q2.sessionStarted = false → ∀ t ∈ q2.tokens, t.status = TokenStatus.BOOKED) ∧
        q2.tokens.map (fun t => t.index) = List.range' 1 q2.tokens.length ∧
        q2.startTime = q.startTime ∧ q2.averageMinutes = q.averageMinutes := by
    intro index status duration now hstatus q2 hq2
    unfold finish at hq2
    cases hfind : q.tokens.find? (fun t => t.index = index) with
    | none => simp [hfind] at hq2
    | some t =>
      simp only [hfind] at hq2
      by_cases hs : t.status = TokenStatus.SERVING
      · simp only [hs, if_true, Except.ok.injEq] at hq2
        subst hq2
        have hlt := servingCount_map_lt index status duration hstatus q.tokens t hfind hs
        have hp := servingCount_promoteNext now (q.tokens.map (fun u =>
          if u.index = index then { u with status := status, actualDuration := duration u }
          else u))
        have hstarted : q.sessionStarted = true := by
          cases hst : q.sessionStarted
          · have hb := h2 hst t (List.mem_of_find?_eq_some hfind)
            rw [hs] at hb
            cases hb
          · rfl
        have hidx : (q.tokens.map (fun u =>
            if u.index = index then { u with status := status, actualDuration := duration u }
            else u)).map (fun t => t.index) = q.tokens.map (fun t => t.index) := by
          rw [List.map_map]
          apply List.map_congr_left
          intro u _
          by_cases hu : u.index = index <;> simp [hu]
        refine ⟨by simp only; omega, by simp [hstarted], ?_, rfl, rfl⟩
        simp only [promoteNext_index, promoteNext_length, hidx, List.length_map, h3]
      · simp [hs] at hq2
  cases c with
  | book participant =>
    have hbook : servingCount (q.tokens ++ [bookedToken (q.tokens.length + 1) participant]) ≤ 1 ∧
        (q.sessionStarted = false →
          ∀ t ∈ q.tokens ++ [bookedToken (q.tokens.length + 1) participant],
            t.status = TokenStatus.BOOKED) ∧
        (q.tokens ++ [bookedToken (q.tokens.length + 1) participant]).map (fun t => t.index)
          = List.range' 1
              (q.tokens ++ [bookedToken (q.tokens.length + 1) participant]).length := by
      refine ⟨?_, ?_, ?_⟩
      · simpa [servingCount, List.countP_append, bookedToken] using h1
      · intro hst t ht
        rcases List.mem_append.mp ht with ht | ht
        · exact h2 hst t ht
        · simp at ht
          rw [ht]
          rfl
      · simp only [List.map_append, h3, List.map_cons, List.map_nil, List.length_append,
          List.length_cons, List.length_nil, bookedToken]
        rw [List.range'_concat]
        simp [Nat.add_comm]
    cases hcap : q.capacity with
    | none =>
      have happ : applyCommand q (Command.book participant) = { q with tokens :=
          q.tokens ++ [bookedToken (q.tokens.length + 1) participant] } := by
        simp [applyCommand, step, book, hcap]
      rw [happ]
      exact ⟨hbook.1, hbook.2.1, hbook.2.2, rfl, rfl⟩
    | some cap =>
      by_cases hc : cap ≤ q.tokens.length
      · have happ : applyCommand q (Command.book participant) = q := by
          simp [applyCommand, step, book, hcap, hc]
        rw [happ]
        exact ⟨h1, h2, h3, rfl, rfl⟩
      · have happ : applyCommand q (Command.book participant) = { q with tokens :=
            q.tokens ++ [bookedToken (q.tokens.length + 1) participant] } := by
          simp [applyCommand, step, book, hcap, hc]
        rw [happ]
        exact ⟨hbook.1, hbook.2.1, hbook.2.2, rfl, rfl⟩
  | startSession now =>
    cases hst : q.sessionStarted
    · have happ : applyCommand q (Command.startSession now)
          = { q with sessionStarted := true, tokens := promoteNext now q.tokens } := by
        simp [applyCommand, step, startSession, hst]
      rw [happ]
      have h0 := servingCount_of_all_booked q.tokens (h2 hst)
      have hp := servingCount_promoteNext now q.tokens
      refine ⟨by simp only; omega, by simp, ?_, rfl, rfl⟩
      simp only [promoteNext_index, promoteNext_length, h3]
    · have happ : applyCommand q (Command.startSession now) = q := by
        simp [applyCommand, step, startSession, hst]
      rw [happ]
      exact ⟨h1, h2, h3, rfl, rfl⟩
  | markCompleted index actualDuration now =>
    cases hf : finish q index TokenStatus.COMPLETED
        (fun t => some (actualDuration.getD (now - t.servingStartedAt.getD now))) now with
    | error e =>
      have happ : applyCommand q (Command.markCompleted index actualDuration now) = q := by
        simp [applyCommand, step, markCompleted, hf]
      rw [happ]
      exact ⟨h1, h2, h3, rfl, rfl⟩
    | ok q2 =>
      have happ : applyCommand q (Command.markCompleted index actualDuration now) = q2 := by
        simp [applyCommand, step, markCompleted, hf]
      rw [happ]
      exact hfinish _ _ _ _ (by decide) q2 hf
  | markWrong index now =>
    cases hf : finish q index TokenStatus.WRONG (fun t => t.actualDuration) now with
    | error e =>
      have happ : applyCommand q (Command.markWrong index now) = q := by
        simp [applyCommand, step, markWrong, hf]
      rw [happ]
      exact ⟨h1, h2, h3, rfl, rfl⟩
    | ok q2 =>
      have happ : applyCommand q (Command.markWrong index now) = q2 := by
        simp [applyCommand, step, markWrong, hf]
      rw [happ]
      exact hfinish _ _ _ _ (by decide) q2 hf

/-- The invariant holds in every state reached from a fresh slot. -/
theorem queue_invariant_run (startTime averageMinutes : Int) (capacity : Option Nat)
    (cs : List Command) :
    servingCount (run (newSlot startTime averageMinutes capacity) cs).tokens ≤ 1 ∧
    ((run (newSlot startTime averageMinutes capacity) cs).sessionStarted = false →
      ∀ t ∈ (run (newSlot startTime averageMinutes capacity) cs).tokens,
        t.status = TokenStatus.BOOKED) ∧
    (run (newSlot startTime averageMinutes capacity) cs).tokens.map (fun t => t.index)
      = List.range' 1 (run (newSlot startTime averageMinutes capacity) cs).tokens.length ∧
    (run (newSlot startTime averageMinutes capacity) cs).startTime = startTime ∧
    (run (newSlot startTime averageMinutes capacity) cs).averageMinutes = averageMinutes := by
  induction cs using List.reverseRecOn with
  | nil => simp [run, newSlot, servingCount]
  | append_singleton cs c ih =>
    obtain ⟨h1, h2, h3, h4, h5⟩ := ih
    have h := queue_invariant_step (run (newSlot startTime averageMinutes capacity) cs) c h1 h2 h3
    have hrun : run (newSlot startTime averageMinutes capacity) (cs ++ [c])
        = applyCommand (run (newSlot startTime averageMinutes capacity) cs) c := by
      simp [run, List.foldl_append]
    rw [hrun]
    exact ⟨h.1, h.2.1, h.2.2.1, h.2.2.2.1.trans h4, h.2.2.2.2.trans h5⟩

/-- C18: in every queue state reached from a fresh slot through any sequence of
`book`, `startSession`, `markCompleted` and `markWrong` calls, at most one token
of the slot has status SERVING. -/
theorem at_most_one_serving (startTime averageMinutes : Int) (capacity : Option Nat)
    (cs : List Command) :
    servingCount (run (newSlot startTime averageMinutes capacity) cs).tokens ≤ 1 :=
  (queue_invariant_run startTime averageMinutes capacity cs).1

/-! ### Estimates before the session is started -/

/-- No index of a run of consecutive numbers lies below its start. -/
theorem countP_lt_range_of_le (k s n : Nat) (h : k ≤ s) :
    (List.range' s n).countP (fun i => decide (i < k)) = 0 := by
  rw [List.countP_eq_zero]
  intro i hi
  have := (List.mem_range'_1.mp hi).1
  simp
  omega

/-- The indices of a run of consecutive numbers that lie below one of them. -/
theorem countP_lt_range (k s n : Nat) (h1 : s ≤ k) (h2 : k ≤ s + n) :
    (List.range' s n).countP (fun i => decide (i < k)) = k - s := by
  induction n generalizing s with
  | zero =>
    have : k = s := by omega
    simp [this]
  | succ n ih =>
    rw [List.range'_succ, List.countP_cons]
    by_cases hk : s < k
    · rw [ih (s + 1) (by omega) (by omega)]
      simp [hk]
      omega
    · rw [countP_lt_range_of_le k (s + 1) n (by omega)]
      simp [hk]
      omega

/-- In a queue of BOOKED tokens numbered 1, 2, ... the durations summed for a
token are one average duration for each smaller index. -/
theorem sum_before_of_all_booked (q : SlotQueue) (t : Token) (ht : t ∈ q.tokens)
    (hb : ∀ u ∈ q.tokens, u.status = TokenStatus.BOOKED)
    (hidx : q.tokens.map (fun u => u.index) = List.range' 1 q.tokens.length) :
    ((q.tokens.filter (fun u => decide (u.index < t.index) && !u.terminal)).map
      (durationOf q)).sum = ((t.index - 1 : Nat) : Int) * q.averageMinutes := by
  have hterm : ∀ u ∈ q.tokens, u.terminal = false := by
    intro u hu
    simp [Token.terminal, hb u hu]
  have hfilter : q.tokens.filter (fun u => decide (u.index < t.index) && !u.terminal)
      = q.tokens.filter (fun u => decide (u.index < t.index)) := by
    apply List.filter_congr
    intro u hu
    simp [hterm u hu]
  have hdur : (q.tokens.filter (fun u => decide (u.index < t.index))).map (durationOf q)
      = List.replicate (q.tokens.filter (fun u => decide (u.index < t.index))).length
          q.averageMinutes := by
    rw [List.eq_replicate_iff]
    refine ⟨by simp, ?_⟩
    intro d hd
    obtain ⟨u, hu, rfl⟩ := List.mem_map.mp hd
    simp [durationOf, hterm u (List.mem_of_mem_filter hu)]
  have hmem : t.index ∈ List.range' 1 q.tokens.length := by
    rw [← hidx]
    exact List.mem_map_of_mem _ ht
  have hrange := List.mem_range'_1.mp hmem
  have hcount : (q.tokens.filter (fun u => decide (u.index < t.index))).length = t.index - 1 := by
    rw [← List.countP_eq_length_filter]
    have h := countP_lt_range t.index 1 q.tokens.length (by omega) (by omega)
    rw [← hidx, List.countP_map] at h
    exact h
  rw [hfilter, hdur, hcount]
  simp

/-- C19: in every state reached from a fresh slot in which the session has not
been started, `estimate` gives the token of index k, which is the k-th BOOKED
token, the estimated start slot start + (k - 1) x average consultation duration;
with an average of 10 minutes and 3 tokens the estimated starts are slot start
+ 0, + 10 and + 20 minutes. -/
theorem estimate_before_session (startTime averageMinutes : Int) (capacity : Option Nat)
    (cs : List Command)
    (hstarted : (run (newSlot startTime averageMinutes capacity) cs).sessionStarted = false) :
    estimate (run (newSlot startTime averageMinutes capacity) cs)
      = (List.range (run (newSlot startTime averageMinutes capacity) cs).tokens.length).map
          (fun j : Nat => (j + 1, startTime + (j : Int) * averageMinutes)) ∧
    (averageMinutes = 10 →
      (run (newSlot startTime averageMinutes capacity) cs).tokens.length = 3 →
      (estimate (run (newSlot startTime averageMinutes capacity) cs)).map Prod.snd
        = [startTime + 0, startTime + 10, startTime + 20]) := by
  obtain ⟨_, h2, h3, h4, h5⟩ := queue_invariant_run startTime averageMinutes capacity cs
  generalize run (newSlot startTime averageMinutes capacity) cs = q at *
  have hb := h2 hstarted
  have hall : q.tokens.filter (fun t => t.status = TokenStatus.BOOKED) = q.tokens := by
    rw [List.filter_eq_self]
    intro t ht
    simp [hb t ht]
  have href : referenceTime q = startTime := by
    unfold referenceTime
    have : q.tokens.find? (fun t => t.status = TokenStatus.SERVING) = none := by
      rw [List.find?_eq_none]
      intro t ht
      simp [hb t ht]
    rw [this, h4]
  have hmain : estimate q = (List.range q.tokens.length).map
      (fun j : Nat => (j + 1, startTime + (j : Int) * averageMinutes)) := by
    unfold estimate
    rw [hall, href]
    have hstep : q.tokens.map (fun t => (t.index, startTime +
        ((q.tokens.filter (fun u => decide (u.index < t.index) && !u.terminal)).map
          (durationOf q)).sum))
        = (q.tokens.map (fun t => t.index)).map
            (fun i => (i, startTime + ((i - 1 : Nat) : Int) * averageMinutes)) := by
      rw [List.map_map]
      apply List.map_congr_left
      intro t ht
      simp only [Function.comp, sum_before_of_all_booked q t ht hb h3, h5]
    rw [hstep, h3, List.range'_eq_map_range, List.map_map]
    apply List.map_congr_left
    intro j _
    simp [Nat.add_comm]
  refine ⟨hmain, ?_⟩
  intro havg hlen
  rw [hmain, hlen, havg]
  simp [List.range, List.range.loop]

/-- C19 at three bookings into a fresh slot that starts at minute 600 with an
average of 10 minutes: the estimated starts are 600, 610 and 620. -/
theorem estimate_before_session_witness :
    estimate (run (newSlot 600 10 none)
        [Command.book "p1", Command.book "p2", Command.book "p3"])
      = [(1, 600), (2, 610), (3, 620)] :=
  (estimate_before_session 600 10 none
    [Command.book "p1", Command.book "p2", Command.book "p3"] rfl).1.trans (by decide)

/-! ### Recurrence expansion -/

/-- Without a repeat-until date the walk is never cut short by it. -/
theorem untilExceeded_of_none (p : RecurrencePattern) (day : Nat) (h : p.repeatUntil = none) :
    untilExceeded p day = false := by
  simp [untilExceeded, h]

/-- The repeat count is reached exactly when that many dates were produced. -/
theorem countReached_iff (p : RecurrencePattern) (c produced : Nat) (h : p.repeatCount = some c) :
    countReached p produced = true ↔ c ≤ produced := by
  simp [countReached, h]

/-- The walk never produces more dates than the repeat count allows. -/
theorem walk_length_le (p : RecurrencePattern) (c : Nat) (hc : p.repeatCount = some c)
    (fuel day produced : Nat) (h : produced ≤ c) :
    (walk p fuel day produced).length + produced ≤ c := by
  induction fuel generalizing day produced with
  | zero => simpa [walk] using h
  | succ fuel ih =>
    unfold walk
    split
    · simpa using h
    · split
      · simpa using h
      · rename_i hcount
        have hlt : produced < c := by
          have := (countReached_iff p c produced hc).not.mp hcount
          omega
        split
        · have := ih (day + 1) (produced + 1) (by omega)
          simp only [List.length_cons]
          omega
        · exact ih (day + 1) produced h

/-- Every weekday comes up within seven days. -/
theorem weekday_within_week (day w : Nat) (hw : w < 7) :
    ∃ j, j ≤ 6 ∧ weekday (day + j) = w := by
  refine ⟨(w + 7 - (day + 4) % 7) % 7, by omega, ?_⟩
  unfold weekday
  omega

/-- With a weekday of the set coming up every week and no repeat-until date, a
walk of seven days for each date still to produce yields exactly those dates. -/
theorem walk_length_exact (p : RecurrencePattern) (c w : Nat) (hc : p.repeatCount = some c)
    (hu : p.repeatUntil = none) (hw : w ∈ p.weekdays) (hw7 : w < 7) (r : Nat) :
    ∀ fuel day produced, produced + r = c → 7 * r ≤ fuel →
      (walk p fuel day produced).length = r := by
  induction r with
  | zero =>
    intro fuel day produced hprod _
    cases fuel with
    | zero => rfl
    | succ fuel =>
      have hreached : countReached p produced = true :=
        (countReached_iff p c produced hc).mpr (by omega)
      simp [walk, untilExceeded_of_none p day hu, hreached]
  | succ r ih =>
    have hinner : ∀ d fuel day produced, (∃ j, j ≤ d ∧ weekday (day + j) = w) →
        d + 1 + 7 * r ≤ fuel → produced + (r + 1) = c →
        (walk p fuel day produced).length = r + 1 := by
      intro d
      induction d with
      | zero =>
        intro fuel day produced hj hfuel hprod
        obtain ⟨j, hj0, hjw⟩ := hj
        have hj' : j = 0 := by omega
        subst hj'
        obtain ⟨f, rfl⟩ : ∃ f, fuel = f + 1 := ⟨fuel - 1, by omega⟩
        have hnot : countReached p produced = false := by
          have := (countReached_iff p c produced hc).not.mpr (by omega)
          simpa using this
        have hmem : p.weekdays.contains (weekday day) = true := by
          simp only [Nat.add_zero] at hjw
          simpa [hjw] using hw
        simp only [walk, untilExceeded_of_none p day hu, hnot, hmem, if_true, Bool.false_eq_true,
          if_false, List.length_cons]
        rw [ih f (day + 1) (produced + 1) (by omega) (by omega)]
      | succ d ihd =>
        intro fuel day produced hj hfuel hprod
        obtain ⟨j, hjd, hjw⟩ := hj
        obtain ⟨f, rfl⟩ : ∃ f, fuel = f + 1 := ⟨fuel - 1, by omega⟩
        have hnot : countReached p produced = false := by
          have := (countReached_iff p c produced hc).not.mpr (by omega)
          simpa using this
        by_cases hmem : p.weekdays.contains (weekday day) = true
        · simp only [walk, untilExceeded_of_none p day hu, hnot, hmem, if_true,
            Bool.false_eq_true, if_false, List.length_cons]
          rw [ih f (day + 1) (produced + 1) (by omega) (by omega)]
        · have hj0 : j ≠ 0 := by
            intro h0
            subst h0
            simp only [Nat.add_zero] at hjw
            exact hmem (by simpa [hjw] using hw)
          obtain ⟨j2, rfl⟩ : ∃ j2, j = j2 + 1 := ⟨j - 1, by omega⟩
          simp only [walk, untilExceeded_of_none p day hu, hnot, hmem, Bool.false_eq_true,
            if_false]
          exact ihd f (day + 1) produced
            ⟨j2, by omega, by rw [← hjw]; congr 1; omega⟩ (by omega) hprod
    intro fuel day produced hprod hfuel
    exact hinner 6 fuel day produced (weekday_within_week day w hw7) (by omega) hprod

/-- C20: from a base date that is a Monday, with weekday set Monday and
Wednesday and repeat count 2, the walk yields exactly that Monday and the
following Wednesday, for every supply of at least three days, and so does
`expandSlots`; in general the base date is the first date selected when its
weekday is in the set, the walk never selects more than the repeat count of
dates, and it selects exactly that many when a weekday of the set comes up each
week, no repeat-until date is set and seven days are allowed for each. -/
theorem expansion_from_base (p : RecurrencePattern) (base : Nat) :
    (weekday base = 1 → p.weekdays = [1, 3] → p.repeatCount = some 2 → p.repeatUntil = none →
      (∀ fuel, 3 ≤ fuel → walk p fuel base 0 = [base, base + 2]) ∧
      (∀ template, (expandSlots template p base).map (fun s => s.date) = [base, base + 2])) ∧
    (p.weekdays.contains (weekday base) = true → (∃ c, p.repeatCount = some (c + 1)) →
      (∀ u, p.repeatUntil = some u → base ≤ u) →
      ∀ fuel, 1 ≤ fuel → (walk p fuel base 0).head? = some base) ∧
    (∀ c, p.repeatCount = some c → ∀ fuel, (walk p fuel base 0).length ≤ c) ∧
    (∀ c w, p.repeatCount = some c → p.repeatUntil = none → w ∈ p.weekdays → w < 7 →
      ∀ fuel, 7 * c ≤ fuel → (walk p fuel base 0).length = c) := by
  refine ⟨?_, ?_, ?_, ?_⟩
  · intro hbase hdays hcount huntil
    have h1 : weekday (base + 1) = 2 := by unfold weekday at hbase ⊢; omega
    have h2 : weekday (base + 2) = 3 := by unfold weekday at hbase ⊢; omega
    have hwalk : ∀ fuel, 3 ≤ fuel → walk p fuel base 0 = [base, base + 2] := by
      intro fuel hfuel
      obtain ⟨f, rfl⟩ : ∃ f, fuel = f + 3 := ⟨fuel - 3, by omega⟩
      cases f with
      | zero =>
        simp [walk, untilExceeded, countReached, huntil, hcount, hdays, hbase, h1, h2]
      | succ f =>
        simp [walk, untilExceeded, countReached, huntil, hcount, hdays, hbase, h1, h2]
    refine ⟨hwalk, ?_⟩
    intro template
    have hh : horizon p base = 14 := by simp [horizon, huntil, hcount]
    simp [expandSlots, expandDates, hh, hwalk 14 (by omega)]
  · intro hmem hcount huntil fuel hfuel
    obtain ⟨c, hc⟩ := hcount
    obtain ⟨f, rfl⟩ : ∃ f, fuel = f + 1 := ⟨fuel - 1, by omega⟩
    have hnot : countReached p 0 = false := by simp [countReached, hc]
    have hun : untilExceeded p base = false := by
      unfold untilExceeded
      cases hu : p.repeatUntil with
      | none => rfl
      | some u =>
        have := huntil u hu
        simp
        omega
    have hmem2 : weekday base ∈ p.weekdays := by simpa using hmem
    simp [walk, hnot, hun, hmem2]
  · intro c hc fuel
    have := walk_length_le p c hc fuel base 0 (by omega)
    omega
  · intro c w hc hu hw hw7 fuel hfuel
    exact walk_length_exact p c w hc hu hw hw7 c fuel base 0 (by omega) hfuel

/-- C20 at Monday 2 November 2026 (day 20759), weekdays Monday and Wednesday,
repeat count 2: the slots are dated that Monday and Wednesday 4 November. -/
theorem expansion_from_base_witness :
    (expandSlots
        { startTime := "10:00", endTime := "13:00", period := "MORNING", capacity := none,
          averageMinutes := 10 }
        { weekdays := [1, 3], repeatUntil := none, repeatCount := some 2 } 20759).map
      (fun s => s.date) = [20759, 20761] :=
  ((expansion_from_base { weekdays := [1, 3], repeatUntil := none, repeatCount := some 2 }
    20759).1 (by decide) rfl rfl rfl).2 _

/-! ### The date comparison of the availability form -/

/-- C25: for two well-formed dates written `YYYY-MM-DD` with zero padding and
four-digit years, the string comparison `a < b` of the date checks of
`handleSubmit` holds exactly when `a` is chronologically earlier than `b`; in
particular it fails between a date and itself and never holds both ways. -/
theorem date_text_order (a b : CalendarDate) (ha : a.wellFormed) (hb : b.wellFormed) :
    (strLt (isoDate a) (isoDate b) = true ↔ a.before b) ∧
    strLt (isoDate a) (isoDate a) = false ∧
    ¬ (strLt (isoDate a) (isoDate b) = true ∧ strLt (isoDate b) (isoDate a) = true) := by
  have hab := strLt_isoDate a b ha hb
  have hba := strLt_isoDate b a hb ha
  have haa := strLt_isoDate a a ha ha
  refine ⟨hab, ?_, ?_⟩
  · cases h : strLt (isoDate a) (isoDate a)
    · rfl
    · have := haa.mp h
      unfold CalendarDate.before at this
      omega
  · rintro ⟨h1, h2⟩
    have h3 := hab.mp h1
    have h4 := hba.mp h2
    unfold CalendarDate.before at h3 h4
    omega

/-- C25 at 31 December 2025 and 1 January 2026: the texts compare as the dates
do. -/
theorem date_text_order_witness :
    strLt "2025-12-31" "2026-01-01" = true ↔
      CalendarDate.before ⟨2025, 12, 31⟩ ⟨2026, 1, 1⟩ :=
  (date_text_order ⟨2025, 12, 31⟩ ⟨2026, 1, 1⟩ (by decide) (by decide)).1

/-! ### The elapsed text -/

/-- The text of a number of seconds below sixty, padded to two digits. -/
theorem padStart_seconds (k : Nat) (hk : k < 60) :
    padStart (toString (k : Int)) 2 '0' = String.mk [digitChar (k / 10), digitChar k] := by
  interval_cases k <;> rfl

/-- C26: when serving started at or before the clock reading, the elapsed text
of the timer, and with it that of the render, is `M:SS`: the decimal numeral of
a number M of minutes, a colon, and the two digits of a number SS of seconds,
zero-padded, with 60 * M + SS the floor of the elapsed milliseconds over 1000
and SS at most 59. -/
theorem elapsed_text_format (now servingStartedAt : Int) (h : servingStartedAt ≤ now) :
    ∃ M SS : Nat,
      timerText now servingStartedAt
        = toString M ++ ":" ++ String.mk [digitChar (SS / 10), digitChar SS] ∧
      fallbackText now servingStartedAt
        = toString M ++ ":" ++ String.mk [digitChar (SS / 10), digitChar SS] ∧
      (60 * M + SS : Int) = Int.fdiv (now - servingStartedAt) 1000 ∧ SS ≤ 59 := by
  obtain ⟨n, hn⟩ := Int.eq_ofNat_of_zero_le
    (Int.fdiv_nonneg (by omega : 0 ≤ now - servingStartedAt) (by decide : (0 : Int) ≤ 1000))
  have hmin : Int.fdiv (n : Int) 60 = ((n / 60 : Nat) : Int) := by
    rw [Int.fdiv_eq_ediv _ (by decide : (0 : Int) ≤ 60)]
    rfl
  have hsec : Int.tmod (n : Int) 60 = ((n % 60 : Nat) : Int) := by
    rw [Int.tmod_eq_emod (by omega) (by decide)]
    rfl
  have htext : timerText now servingStartedAt
      = toString (n / 60) ++ ":" ++ String.mk [digitChar (n % 60 / 10), digitChar (n % 60)] := by
    unfold timerText
    simp only [hn, hmin, hsec, padStart_seconds (n % 60) (Nat.mod_lt _ (by decide))]
    rfl
  refine ⟨n / 60, n % 60, htext, htext, ?_, by omega⟩
  rw [hn]
  omega

/-- C26 at 125 seconds of serving: the text is `2:05`. -/
theorem elapsed_text_format_witness :
    ∃ M SS : Nat,
      timerText 126000 1000 = toString M ++ ":" ++ String.mk [digitChar (SS / 10), digitChar SS] ∧
      fallbackText 126000 1000
        = toString M ++ ":" ++ String.mk [digitChar (SS / 10), digitChar SS] ∧
      (60 * M + SS : Int) = Int.fdiv (126000 - 1000) 1000 ∧ SS ≤ 59 :=
  elapsed_text_format 126000 1000 (by decide)

/-! ### Token indices of the specified engine -/

/-- A call changes neither the capacity of the slot, nor, unless it is a
booking, the number of its tokens; a booking adds at most one token, and
exactly one when the slot has no capacity. -/
theorem applyCommand_length (q : SlotQueue) (c : Command) :
    (applyCommand q c).capacity = q.capacity ∧
    (applyCommand q c).tokens.length ≤ q.tokens.length + (if c.isBook then 1 else 0) ∧
    (q.capacity = none →
      (applyCommand q c).tokens.length = q.tokens.length + (if c.isBook then 1 else 0)) := by
  have hfinish : ∀ (index : Nat) (status : TokenStatus) (duration : Token → Option Int)
      (now : Int) (q2 : SlotQueue), finish q index status duration now = Except.ok q2 →
      q2.capacity = q.capacity ∧ q2.tokens.length = q.tokens.length := by
    intro index status duration now q2 hq2
    unfold finish at hq2
    cases hfind : q.tokens.find? (fun t => t.index = index) with
    | none => simp [hfind] at hq2
    | some t =>
      simp only [hfind] at hq2
      by_cases hs : t.status = TokenStatus.SERVING
      · simp only [hs, if_true, Except.ok.injEq] at hq2
        subst hq2
        exact ⟨rfl, by simp [promoteNext_length]⟩
      · simp [hs] at hq2
  cases c with
  | book participant =>
    cases hcap : q.capacity with
    | none => simp [applyCommand, step, book, hcap, Command.isBook]
    | some cap =>
      by_cases hc : cap ≤ q.tokens.length
      · simp [applyCommand, step, book, hcap, hc, Command.isBook]
      · simp [applyCommand, step, book, hcap, hc, Command.isBook]
  | startSession now =>
    cases hst : q.sessionStarted
    · simp [applyCommand, step, startSession, hst, Command.isBook, promoteNext_length]
    · simp [applyCommand, step, startSession, hst, Command.isBook]
  | markCompleted index actualDuration now =>
    cases hf : finish q index TokenStatus.COMPLETED
        (fun t => some (actualDuration.getD (now - t.servingStartedAt.getD now))) now with
    | error e => simp [applyCommand, step, markCompleted, hf, Command.isBook]
    | ok q2 =>
      obtain ⟨h1, h2⟩ := hfinish _ _ _ _ q2 hf
      simp [applyCommand, step, markCompleted, hf, Command.isBook, h1, h2]
  | markWrong index now =>
    cases hf : finish q index TokenStatus.WRONG (fun t => t.actualDuration) now with
    | error e => simp [applyCommand, step, markWrong, hf, Command.isBook]
    | ok q2 =>
      obtain ⟨h1, h2⟩ := hfinish _ _ _ _ q2 hf
      simp [applyCommand, step, markWrong, hf, Command.isBook, h1, h2]

/-- The number of tokens after a sequence of calls: at most the number of
bookings among them, and exactly that number when the slot has no capacity. -/
theorem run_length (startTime averageMinutes : Int) (capacity : Option Nat)
    (cs : List Command) :
    (run (newSlot startTime averageMinutes capacity) cs).capacity = capacity ∧
    (run (newSlot startTime averageMinutes capacity) cs).tokens.length
      ≤ cs.countP Command.isBook ∧
    (capacity = none →
      (run (newSlot startTime averageMinutes capacity) cs).tokens.length
        = cs.countP Command.isBook) := by
  induction cs using List.reverseRecOn with
  | nil => simp [run, newSlot]
  | append_singleton cs c ih =>
    obtain ⟨h1, h2, h3⟩ := ih
    have hrun : run (newSlot startTime averageMinutes capacity) (cs ++ [c])
        = applyCommand (run (newSlot startTime averageMinutes capacity) cs) c := by
      simp [run, List.foldl_append]
    obtain ⟨k1, k2, k3⟩ :=
      applyCommand_length (run (newSlot startTime averageMinutes capacity) cs) c
    rw [hrun, List.countP_append]
    have hc : List.countP Command.isBook [c] = if c.isBook then 1 else 0 := by
      cases h : c.isBook <;> simp [List.countP_cons, h]
    rw [hc]
    refine ⟨k1.trans h1, by omega, ?_⟩
    intro hnone
    rw [k3 (h1.trans hnone), h3 hnone]

/-- C21: after every sequence of calls on a fresh slot, the token indices of
the slot are exactly 1, ..., N in booking order, N being the number of tokens:
there is no duplicate, and a number is an index exactly when it lies between 1
and N; N is the number of bookings made when the slot has no capacity, and at
most that number otherwise, a booking refused for capacity adding no token. -/
theorem token_indices_contiguous (startTime averageMinutes : Int) (capacity : Option Nat)
    (cs : List Command) :
    (run (newSlot startTime averageMinutes capacity) cs).tokens.map (fun t => t.index)
      = List.range' 1 (run (newSlot startTime averageMinutes capacity) cs).tokens.length ∧
    ((run (newSlot startTime averageMinutes capacity) cs).tokens.map (fun t => t.index)).Nodup ∧
    (∀ i, i ∈ (run (newSlot startTime averageMinutes capacity) cs).tokens.map (fun t => t.index)
      ↔ 1 ≤ i ∧ i ≤ (run (newSlot startTime averageMinutes capacity) cs).tokens.length) ∧
    (run (newSlot startTime averageMinutes capacity) cs).tokens.length
      ≤ cs.countP Command.isBook ∧
    (capacity = none →
      (run (newSlot startTime averageMinutes capacity) cs).tokens.length
        = cs.countP Command.isBook) := by
  obtain ⟨_, _, h3, _, _⟩ := queue_invariant_run startTime averageMinutes capacity cs
  obtain ⟨_, k2, k3⟩ := run_length startTime averageMinutes capacity cs
  refine ⟨h3, ?_, ?_, k2, k3⟩
  · rw [h3]
    exact List.nodup_range' 1 _
  · intro i
    rw [h3, List.mem_range'_1]
    omega

/-- C21 at three bookings into a slot without capacity: the indices are 1, 2
and 3. -/
theorem token_indices_contiguous_witness :
    (run (newSlot 600 10 none)
        [Command.book "p1", Command.book "p2", Command.book "p3"]).tokens.length = 3 :=
  (token_indices_contiguous 600 10 none
    [Command.book "p1", Command.book "p2", Command.book "p3"]).2.2.2.2 rfl

/-! ### The date conversion of the queue page -/

/-- A digit character depends only on the last digit. -/
theorem digitChar_mod (n : Nat) : digitChar (n % 10) = digitChar n := by
  unfold digitChar
  rw [Nat.mod_mod]

/-- A digit character is none of the two separators. -/
theorem digitChar_ne_separator (n : Nat) : digitChar n ≠ '-' ∧ digitChar n ≠ '_' := by
  have h := digitChar_toNat n
  constructor
  · intro e
    rw [e] at h
    have : ('-' : Char).toNat = 45 := rfl
    omega
  · intro e
    rw [e] at h
    have : ('_' : Char).toNat = 95 := rfl
    omega

/-- A run of digit characters contains none of the two separators. -/
theorem digits_no_separator (ds : List Nat) :
    '-' ∉ ds.map digitChar ∧ '_' ∉ ds.map digitChar := by
  constructor
  · intro h
    obtain ⟨d, _, hd⟩ := List.mem_map.mp h
    exact (digitChar_ne_separator d).1 hd
  · intro h
    obtain ⟨d, _, hd⟩ := List.mem_map.mp h
    exact (digitChar_ne_separator d).2 hd

/-- No white space is dropped in front of a run of digits. -/
theorem dropWhile_digits (ds : List Nat) :
    (ds.map digitChar).dropWhile isWhiteSpace = ds.map digitChar := by
  cases ds with
  | nil => rfl
  | cons d ds => simp [List.dropWhile, isWhiteSpace_digitChar]

/-- A run of digits has no white space at either end. -/
theorem trimWhiteSpace_digits (ds : List Nat) :
    trimWhiteSpace (ds.map digitChar) = ds.map digitChar := by
  unfold trimWhiteSpace
  rw [dropWhile_digits, ← List.map_reverse, dropWhile_digits, List.map_reverse,
    List.reverse_reverse]

/-- A run of decimal digits is no hexadecimal, octal or binary literal. -/
theorem readNonDecimal_digits (ds : List Nat) : readNonDecimal (ds.map digitChar) = none := by
  match ds with
  | [] => rfl
  | [d] =>
    have h1 : d % 10 < 10 := Nat.mod_lt _ (by decide)
    simp only [List.map_cons, List.map_nil, digitChar]
    generalize d % 10 = k at h1
    interval_cases k <;> rfl
  | d :: e :: ds =>
    have h1 : d % 10 < 10 := Nat.mod_lt _ (by decide)
    have h2 : e % 10 < 10 := Nat.mod_lt _ (by decide)
    simp only [List.map_cons, digitChar]
    generalize d % 10 = k at h1
    generalize e % 10 = l at h2
    interval_cases k <;> interval_cases l <;> rfl

/-- A run of decimal digits is a decimal literal with no fraction and no
exponent. -/
theorem readDecimal_digits (ds : List Nat) (hne : ds ≠ []) (h : ∀ d ∈ ds, d < 10) :
    readDecimal (ds.map digitChar) = some (digitsValue 10 ds, 0) := by
  have hdrop : (ds.map digitChar).drop ds.length = [] := by
    rw [List.drop_eq_nil_iff]
    simp
  have hempty : ds.isEmpty = false := by
    cases ds with
    | nil => exact absurd rfl hne
    | cons d ds => rfl
  unfold readDecimal
  simp only [takeDigits_digits ds h, hdrop, hempty, readExponent, List.isEmpty_nil,
    Bool.false_and, Bool.false_eq_true, if_false, List.append_nil, List.length_nil,
    Nat.cast_zero, sub_zero]

/-- Zero has no binary digit. -/
theorem bitLengthAux_zero (fuel : Nat) : bitLengthAux fuel 0 = 0 := by
  cases fuel <;> simp [bitLengthAux]

/-- With enough fuel a positive number lies between the powers of two around
its length. -/
theorem bitLengthAux_bounds (fuel : Nat) : ∀ n : Nat, n ≤ fuel → 0 < n →
    2 ^ (bitLengthAux fuel n - 1) ≤ n ∧ n < 2 ^ bitLengthAux fuel n := by
  induction fuel with
  | zero => intro n h hn; omega
  | succ fuel ih =>
    intro n h hn
    have hne : n ≠ 0 := by omega
    simp only [bitLengthAux, hne, if_false]
    by_cases h2 : n / 2 = 0
    · have h1 : n = 1 := by omega
      subst h1
      simp [bitLengthAux_zero]
    · obtain ⟨hlo, hhi⟩ := ih (n / 2) (by omega) (by omega)
      generalize bitLengthAux fuel (n / 2) = L at hlo hhi
      have hL : 1 ≤ L := by
        rcases Nat.eq_zero_or_pos L with h0 | h0
        · subst h0
          simp at hhi
          exact absurd hhi h2
        · exact h0
      obtain ⟨M, rfl⟩ : ∃ M, L = M + 1 := ⟨L - 1, by omega⟩
      simp only [Nat.add_sub_cancel] at hlo ⊢
      rw [pow_succ] at hhi ⊢
      rw [pow_succ]
      constructor <;> omega

/-- The binary digits of a positive number: it lies between the powers of two
around its length. -/
theorem bitLength_bounds (n : Nat) (hn : 0 < n) :
    2 ^ (bitLength n - 1) ≤ n ∧ n < 2 ^ bitLength n :=
  bitLengthAux_bounds n n (Nat.le_refl n) hn

/-- A multiple of `2 ^ j` over `2 ^ j` is a whole number. -/
theorem reduceDyadic_mul (n j : Nat) : reduceDyadic (n * 2 ^ j) j = (n, 0) := by
  induction j with
  | zero => simp [reduceDyadic]
  | succ j ih =>
    have h1 : n * 2 ^ (j + 1) % 2 = 0 := by
      rw [pow_succ, ← Nat.mul_assoc]
      exact Nat.mul_mod_left _ _
    have h2 : n * 2 ^ (j + 1) / 2 = n * 2 ^ j := by
      rw [pow_succ, ← Nat.mul_assoc]
      exact Nat.mul_div_cancel _ (by decide)
    simp only [reduceDyadic, h1, if_true, h2, ih]

/-- A whole number below `2 ^ 53` is a binary64 value of its own. -/
theorem nearestDouble_nat (n : Nat) (h0 : 0 < n) (h : n < 2 ^ 53) :
    nearestDouble false n 1 = JsNumber.fin n 0 := by
  obtain ⟨hlo, hhi⟩ := bitLength_bounds n h0
  have hb1 : bitLength 1 = 1 := rfl
  have hL1 : 1 ≤ bitLength n := by
    rcases Nat.eq_zero_or_pos (bitLength n) with hz | hz
    · rw [hz] at hhi
      simp at hhi
      omega
    · exact hz
  have hL53 : bitLength n ≤ 53 := by
    by_contra hc
    have : 2 ^ 53 ≤ 2 ^ (bitLength n - 1) := Nat.pow_le_pow_right (by decide) (by omega)
    omega
  unfold nearestDouble
  rw [hb1]
  generalize bitLength n = L at hlo hhi hL1 hL53
  have e1 : (((L : Nat) : Int) - ((1 : Nat) : Int)).toNat = L - 1 := by omega
  have e2 : (-(((L : Nat) : Int) - ((1 : Nat) : Int))).toNat = 0 := by omega
  have e3 : max ((((L : Nat) : Int) - ((1 : Nat) : Int)) - 52) (-1074) = (L : Int) - 53 := by
    omega
  have e4 : (-((L : Int) - 53)).toNat = 53 - L := by omega
  have e5 : ((L : Int) - 53).toNat = 0 := by omega
  have hq : (if 1 = 0 ∧ n * 2 ^ (53 - L) % 2 = 1 then n * 2 ^ (53 - L) + 1
      else n * 2 ^ (53 - L)) = n * 2 ^ (53 - L) := if_neg (by simp)
  have hpow : n * 2 ^ (53 - L) < 2 ^ 53 := by
    calc n * 2 ^ (53 - L) < 2 ^ L * 2 ^ (53 - L) :=
          Nat.mul_lt_mul_of_pos_right hhi (pow_pos (by decide) _)
      _ = 2 ^ 53 := by rw [← pow_add]; congr 1; omega
  have hlen : bitLength (n * 2 ^ (53 - L)) ≤ 53 := by
    have hpos : 0 < n * 2 ^ (53 - L) := Nat.mul_pos h0 (pow_pos (by decide) _)
    have hb := (bitLength_bounds _ hpos).1
    by_contra hc
    have : 2 ^ 53 ≤ 2 ^ (bitLength (n * 2 ^ (53 - L)) - 1) :=
      Nat.pow_le_pow_right (by decide) (by omega)
    omega
  have hbig : ¬ (1024 < (bitLength (n * 2 ^ (53 - L)) : Int) + ((L : Int) - 53)) := by omega
  simp only [e1, e2, pow_zero, Nat.mul_one, Nat.one_mul, hlo, if_true, e3, e4, e5, Nat.div_one,
    Nat.mod_one, Nat.mul_zero, Nat.lt_irrefl, Nat.not_lt_zero, false_or, hq]
  rw [if_neg hbig, reduceDyadic_mul]
  simp

/-- The Number value of a whole number below `2 ^ 53` is that number. -/
theorem toDouble_nat (n : Nat) (h : n < 2 ^ 53) : toDouble false n 0 = JsNumber.fin n 0 := by
  unfold toDouble
  by_cases h0 : n = 0
  · simp [h0]
  · simp only [h0, if_false]
    have := nearestDouble_nat n (by omega) h
    simpa using this

/-- The builtin `Number` reads a decimal numeral below `2 ^ 53` as the number it
writes. -/
theorem toNumber_decimalText (ds : List Nat) (hne : ds ≠ []) (h : ∀ d ∈ ds, d < 10)
    (hsmall : digitsValue 10 ds < 2 ^ 53) :
    toNumber (decimalText ds) = JsNumber.fin (digitsValue 10 ds) 0 := by
  obtain ⟨d, rest, rfl⟩ := List.exists_cons_of_ne_nil hne
  have hlist : (String.mk ((d :: rest).map digitChar)).toList = (d :: rest).map digitChar := rfl
  have hsign : readSign ((d :: rest).map digitChar) = (false, (d :: rest).map digitChar) := by
    simpa using readSign_digitChar d (rest.map digitChar)
  have hinf : (d :: rest).map digitChar ≠ "Infinity".toList := by
    intro e
    have hhead : digitChar d = 'I' := by
      have := congrArg List.head? e
      simpa using this
    have h1 := digitChar_toNat d
    rw [hhead] at h1
    have : ('I' : Char).toNat = 73 := rfl
    omega
  have hempty : ((d :: rest).map digitChar).isEmpty = false := rfl
  unfold toNumber decimalText
  simp only [hlist, trimWhiteSpace_digits, readNonDecimal_digits, hsign, hinf, if_false,
    readDecimal_digits _ hne h, hempty, Bool.false_eq_true]
  exact toDouble_nat _ hsmall

/-- The text of a whole number below `2 ^ 53` is its decimal numeral. -/
theorem numberText_whole (n : Nat) (h : n < 2 ^ 53) :
    numberText (JsNumber.fin n 0) = toString n := by
  have hk : (JsNumber.fin (n : Int) 0).asInt = some (n : Int) := by simp [JsNumber.asInt]
  have habs : ((n : Int).natAbs < 2 ^ 53) = True := by simpa using h
  unfold numberText
  simp only [hk, habs, if_true]
  rfl

set_option maxRecDepth 100000 in
/-- The text of a number that is no whole number is the shortest numeral read
back as the same number, in exponent form from `10 ^ 21` on. -/
theorem numberText_examples :
    numberText (toNumber "0.1") = "0.1" ∧
    numberText (toNumber "0.025") = "0.025" ∧
    numberText (toNumber "12.0000000000000001") = "12" ∧
    numberText (toNumber "1e21") = "1e+21" ∧
    numberText (toNumber "123456789012345678901") = "123456789012345680000" := by
  refine ⟨by decide, by decide, by decide, by decide, by decide⟩

/-- The two-digit text of a number below one hundred reads as that number. -/
theorem toNumber_pad2 (n : Nat) (h : n ≤ 99) :
    toNumber (String.mk (pad2 n)) = JsNumber.fin n 0 := by
  have hpad : String.mk (pad2 n) = decimalText [n % 100 / 10, n % 10] := by
    simp [pad2, decimalText, digitChar_mod]
  have hval : digitsValue 10 [n % 100 / 10, n % 10] = n := by
    simp [digitsValue]
    omega
  rw [hpad, toNumber_decimalText _ (by simp) (by intro d hd; simp at hd; omega)
    (by rw [hval]; omega), hval]

/-- The four-digit text of a number below ten thousand reads as that number. -/
theorem toNumber_pad4 (n : Nat) (h : n ≤ 9999) :
    toNumber (String.mk (pad4 n)) = JsNumber.fin n 0 := by
  have hpad : String.mk (pad4 n)
      = decimalText [n % 10000 / 1000, n % 1000 / 100, n % 100 / 10, n % 10] := by
    simp [pad4, decimalText, digitChar_mod]
  have hval : digitsValue 10 [n % 10000 / 1000, n % 1000 / 100, n % 100 / 10, n % 10] = n := by
    simp [digitsValue]
    omega
  rw [hpad, toNumber_decimalText _ (by simp) (by intro d hd; simp at hd; omega)
    (by rw [hval]; omega), hval]

/-- The three parts of a date text. -/
theorem split_isoDate (d : CalendarDate) :
    split '-' (isoDate d)
      = [String.mk (pad4 d.year), String.mk (pad2 d.month), String.mk (pad2 d.day)] := by
  have h4 : '-' ∉ pad4 d.year := by
    have := (digits_no_separator
      [d.year % 10000 / 1000, d.year % 1000 / 100, d.year % 100 / 10, d.year]).1
    simpa [pad4] using this
  have h2 : ∀ n, '-' ∉ pad2 n := by
    intro n
    have := (digits_no_separator [n % 100 / 10, n]).1
    simpa [pad2] using this
  have hl : (isoDate d).toList = pad4 d.year ++ '-' :: (pad2 d.month ++ '-' :: pad2 d.day) := rfl
  unfold split
  rw [hl, splitOnChar_append '-' _ _ h4, splitOnChar_append '-' _ _ (h2 d.month),
    splitOnChar_of_not_mem '-' _ (h2 d.day)]
  rfl

/-- The conversion of a well-formed date text: the numerals of day, month and
year joined by underscores. -/
theorem convertToSlotDate_isoDate (d : CalendarDate) (hd : d.wellFormed) :
    convertToSlotDate (isoDate d)
      = toString d.day ++ "_" ++ toString d.month ++ "_" ++ toString d.year := by
  obtain ⟨hy, _, hm, _, hday⟩ := hd
  unfold convertToSlotDate
  simp only [split_isoDate, List.map_cons, List.map_nil, toNumber_pad4 d.year hy,
    toNumber_pad2 d.month (by omega), toNumber_pad2 d.day (by omega), List.get?, elementText,
    numberText_whole d.year (by omega), numberText_whole d.month (by omega),
    numberText_whole d.day (by omega)]

/-- The digit characters of the library's numerals are not underscores. -/
theorem toDigitsCore_no_underscore (fuel n : Nat) (ds : List Char) (h : ∀ c ∈ ds, c ≠ '_') :
    ∀ c ∈ Nat.toDigitsCore 10 fuel n ds, c ≠ '_' := by
  induction fuel generalizing n ds with
  | zero => simpa [Nat.toDigitsCore] using h
  | succ fuel ih =>
    have hdigit : Nat.digitChar (n % 10) ≠ '_' := by
      have h1 : n % 10 < 10 := Nat.mod_lt _ (by decide)
      generalize n % 10 = k at h1
      interval_cases k <;> decide
    have hcons : ∀ c ∈ Nat.digitChar (n % 10) :: ds, c ≠ '_' := by
      intro c hc
      rcases List.mem_cons.mp hc with rfl | hc
      · exact hdigit
      · exact h c hc
    unfold Nat.toDigitsCore
    simp only
    split
    · exact hcons
    · exact ih (n / 10) _ hcons

/-- The decimal numeral of a natural number contains no underscore. -/
theorem toString_no_underscore (n : Nat) : '_' ∉ (toString n).toList := by
  intro h
  have hl : (toString n).toList = Nat.toDigitsCore 10 (n + 1) n [] := rfl
  rw [hl] at h
  exact toDigitsCore_no_underscore (n + 1) n [] (by simp) '_' h rfl

/-- C22: for every well-formed date written `YYYY-MM-DD`, `convertToSlotDate`
returns the decimal numerals of the day, the month and the year of that date,
without padding, in that order and joined by underscores: a text that the
underscore separates into exactly these three fields. -/
theorem convertToSlotDate_iso (d : CalendarDate) (hd : d.wellFormed) :
    convertToSlotDate (isoDate d)
      = toString d.day ++ "_" ++ toString d.month ++ "_" ++ toString d.year ∧
    split '_' (convertToSlotDate (isoDate d))
      = [toString d.day, toString d.month, toString d.year] := by
  have h := convertToSlotDate_isoDate d hd
  refine ⟨h, ?_⟩
  rw [h]
  exact split_three '_' _ _ _ (toString_no_underscore d.day) (toString_no_underscore d.month)
    (toString_no_underscore d.year)

/-- C22 at 7 January 2026: the text `2026-01-07` becomes `7_1_2026`. -/
theorem convertToSlotDate_iso_witness :
    convertToSlotDate "2026-01-07" = "7_1_2026" :=
  (convertToSlotDate_iso ⟨2026, 1, 7⟩ (by decide)).1

/-! ### Agreement of the two date formats on display -/

/-- With radix ten given, no radix mark is stripped. -/
theorem readRadix_ten (cs : List Char) : readRadix (some 10) cs = (10, cs) := by
  unfold readRadix
  split <;> simp

/-- With radix ten, `parseInt` reads a decimal numeral as the number it writes. -/
theorem parseInt_ten_decimalText (ds : List Nat) (hne : ds ≠ []) (h : ∀ d ∈ ds, d < 10) :
    parseInt (decimalText ds) (some 10) = ParsedInt.val (digitsValue 10 ds) := by
  obtain ⟨d, rest, rfl⟩ := List.exists_cons_of_ne_nil hne
  have hsign : readSign ((d :: rest).map digitChar) = (false, (d :: rest).map digitChar) := by
    simpa using readSign_digitChar d (rest.map digitChar)
  have hlist : (String.mk ((d :: rest).map digitChar)).toList = (d :: rest).map digitChar := rfl
  unfold parseInt decimalText
  simp only [hlist, dropWhile_digits, hsign, readRadix_ten, takeDigits_digits _ h]
  simp

/-- With radix ten, the two-digit text of a number below one hundred parses to
that number. -/
theorem parseInt_pad2 (n : Nat) (h : n ≤ 99) :
    parseInt (String.mk (pad2 n)) (some 10) = ParsedInt.val n := by
  have hpad : String.mk (pad2 n) = decimalText [n % 100 / 10, n % 10] := by
    simp [pad2, decimalText, digitChar_mod]
  rw [hpad, parseInt_ten_decimalText _ (by simp) (by intro d hd; simp at hd; omega)]
  congr 1
  simp [digitsValue]
  omega

/-- With radix ten, the four-digit text of a number below ten thousand parses to
that number. -/
theorem parseInt_pad4 (n : Nat) (h : n ≤ 9999) :
    parseInt (String.mk (pad4 n)) (some 10) = ParsedInt.val n := by
  have hpad : String.mk (pad4 n)
      = decimalText [n % 10000 / 1000, n % 1000 / 100, n % 100 / 10, n % 10] := by
    simp [pad4, decimalText, digitChar_mod]
  rw [hpad, parseInt_ten_decimalText _ (by simp) (by intro d hd; simp at hd; omega)]
  congr 1
  simp [digitsValue]
  omega

/-- The display of a well-formed date text: the day and the year as numbers,
the name of the month between them. -/
theorem slotDateFormat_isoDate (d : CalendarDate) (hd : d.wellFormed) :
    slotDateFormat (isoDate d)
      = toString d.day ++ " " ++ months.getD d.month "" ++ " " ++ toString d.year := by
  obtain ⟨hy, hm1, hm, hd1, hday⟩ := hd
  have hchars : (isoDate d).toList
      = pad4 d.year ++ '-' :: (pad2 d.month ++ '-' :: pad2 d.day) := rfl
  have hdash : includes (isoDate d) '-' = true := by
    unfold includes
    rw [hchars]
    simp
  have hunder : includes (isoDate d) '_' = false := by
    have h4 : '_' ∉ pad4 d.year := by
      have := (digits_no_separator
        [d.year % 10000 / 1000, d.year % 1000 / 100, d.year % 100 / 10, d.year]).2
      simpa [pad4] using this
    have h2 : ∀ n, '_' ∉ pad2 n := by
      intro n
      have := (digits_no_separator [n % 100 / 10, n]).2
      simpa [pad2] using this
    have hne : ('_' : Char) ≠ '-' := by decide
    have hnot : '_' ∉ (isoDate d).toList := by
      rw [hchars]
      intro h
      rcases List.mem_append.mp h with h | h
      · exact h4 h
      · rcases List.mem_cons.mp h with h | h
        · exact hne h
        · rcases List.mem_append.mp h with h | h
          · exact h2 d.month h
          · rcases List.mem_cons.mp h with h | h
            · exact hne h
            · exact h2 d.day h
    unfold includes
    simpa using hnot
  have hiso : formatIso (isoDate d)
      = some (toString d.day ++ " " ++ months.getD d.month "" ++ " " ++ toString d.year) := by
    have hrange : (1 : Int) ≤ (d.month : Int) ∧ (d.month : Int) ≤ 12 ∧
        (1 : Int) ≤ (d.day : Int) ∧ (d.day : Int) ≤ 31 := by omega
    have hmonth := monthsAt_of_range (d.month : Int) (by omega) (by omega)
    simp only [formatIso, hdash, hunder, split_isoDate, parseInt_pad4 d.year hy,
      parseInt_pad2 d.month (by omega), parseInt_pad2 d.day (by omega), hrange, hmonth,
      interpolate]
    simp
    rfl
  simp [slotDateFormat, truthy_isoDate, hiso]

/-- The display of a day_month_year text made of the numerals of a day, a month
from 1 to 12 and a year, joined by underscores. -/
theorem slotDateFormat_numerals (day month year : Nat) (h1 : 1 ≤ month) (h12 : month ≤ 12) :
    slotDateFormat (toString day ++ "_" ++ toString month ++ "_" ++ toString year)
      = toString day ++ " " ++ months.getD month "" ++ " " ++ toString year := by
  have hsplit := split_three '_' (toString day) (toString month) (toString year)
    (toString_no_underscore day) (toString_no_underscore month) (toString_no_underscore year)
  have hs : (String.mk ['_'] : String) = "_" := rfl
  rw [hs] at hsplit
  have hk : (toNumber (toString month)).asInt = some (month : Int) := by
    interval_cases month <;> decide
  have hinc : includes (toString day ++ "_" ++ toString month ++ "_" ++ toString year) '_'
      = true := by
    simp [includes, String.toList]
  have htruthy : truthy (toString day ++ "_" ++ toString month ++ "_" ++ toString year)
      = true := by
    simp [truthy, String.ext_iff]
  have hiso : formatIso (toString day ++ "_" ++ toString month ++ "_" ++ toString year)
      = none := by
    simp [formatIso, hinc]
  have hcmp1 := (JsNumber.compare_of_asInt (toNumber (toString month)) month 1 hk).1.mpr
    (by omega)
  have hcmp12 := (JsNumber.compare_of_asInt (toNumber (toString month)) month 12 hk).2.mpr
    (by omega)
  have hmonth := monthsAt_of_range (month : Int) (by omega) (by omega)
  have hund : formatUnderscore (toString day ++ "_" ++ toString month ++ "_" ++ toString year)
      = some (toString day ++ " " ++ months.getD month "" ++ " " ++ toString year) := by
    simp [formatUnderscore, hinc, hsplit, hcmp1, hcmp12, hk, hmonth, interpolate]
  simp [slotDateFormat, htruthy, hiso, hund]

/-- C24: for every well-formed date written `YYYY-MM-DD` (month from 1 to 12,
day from 1 to 31), the display of the converted text and the display of the
date text itself are the same text: the day as a number, the name of the month
and the year as a number. -/
theorem display_agrees_on_iso (d : CalendarDate) (hd : d.wellFormed) :
    slotDateFormat (convertToSlotDate (isoDate d)) = slotDateFormat (isoDate d) ∧
    slotDateFormat (isoDate d)
      = toString d.day ++ " " ++ months.getD d.month "" ++ " " ++ toString d.year := by
  have hiso := slotDateFormat_isoDate d hd
  refine ⟨?_, hiso⟩
  rw [hiso, convertToSlotDate_isoDate d hd]
  exact slotDateFormat_numerals d.day d.month d.year hd.2.1 hd.2.2.1

/-- C24 at 7 January 2026: both texts are displayed as `7 Jan 2026`. -/
theorem display_agrees_on_iso_witness :
    slotDateFormat (convertToSlotDate "2026-01-07") = slotDateFormat "2026-01-07" ∧
    slotDateFormat "2026-01-07" = "7 Jan 2026" :=
  display_agrees_on_iso ⟨2026, 1, 7⟩ (by decide)

/-! ### Decoding the token on the availability page -/

/-- A doctor id obtained from the token is truthy. -/
theorem decodeDoctorId_truthy (payloadId : String → Option (Option String))
    (dToken doctorId : String) (h : decodeDoctorId payloadId dToken = some doctorId) :
    truthy doctorId = true := by
  unfold decodeDoctorId at h
  simp only at h
  split at h
  · exact absurd h (by simp)
  · split at h
    · exact absurd h (by simp)
    · exact absurd h (by simp)
    · split at h
      · rename_i hid
        have : _ = doctorId := Option.some.inj h
        rw [← this]
        exact hid
      · exact absurd h (by simp)

/-- A token that does not split into three parts yields no doctor id. -/
theorem decodeDoctorId_parts (payloadId : String → Option (Option String)) (dToken : String)
    (h : (split '.' dToken).length ≠ 3) : decodeDoctorId payloadId dToken = none := by
  simp [decodeDoctorId, h]

/-- Without a doctor id, `fetchAvailability` sends no request. -/
theorem fetchAvailability_no_request (st : AvailabilityState) (env : AvailabilityEnv)
    (h : decodeDoctorId env.payloadId st.dToken = none) :
    requests (fetchAvailability st env).2 = [] := by
  unfold fetchAvailability fetchAvailabilityFor
  rw [h]
  split <;> rfl

/-- Without a doctor id, `handleSubmit` sends no request. -/
theorem handleSubmit_no_request (st : AvailabilityState) (env : AvailabilityEnv)
    (h : decodeDoctorId env.payloadId st.dToken = none) :
    requests (handleSubmit st env).2 = [] := by
  unfold handleSubmit
  rw [h]
  split
  · rfl
  · split
    · rfl
    · split <;> rfl

/-- With a non-empty token that yields no doctor id, `fetchAvailability` reports
the invalid token and stops loading. -/
theorem fetchAvailability_invalid (st : AvailabilityState) (env : AvailabilityEnv)
    (htoken : st.dToken ≠ "") (h : decodeDoctorId env.payloadId st.dToken = none) :
    fetchAvailability st env
      = ({ st with isLoading := false },
          [Effect.toast (Toast.error (some "Invalid token. Please login again"))]) := by
  have ht : truthy st.dToken = true := by simp [truthy, htoken]
  simp [fetchAvailability, fetchAvailabilityFor, ht, h]

/-- With a non-empty token that yields no doctor id and a form that passes the
date checks, `handleSubmit` reports the invalid token. -/
theorem handleSubmit_invalid (st : AvailabilityState) (env : AvailabilityEnv)
    (htoken : st.dToken ≠ "") (hdate : strLt st.formData.date env.today = false)
    (huntil : repeatUntilInPast st.formData env.today = false)
    (h : decodeDoctorId env.payloadId st.dToken = none) :
    handleSubmit st env
      = (st, [Effect.toast (Toast.error (some "Invalid token. Please login again"))]) := by
  have ht : truthy st.dToken = true := by simp [truthy, htoken]
  simp [handleSubmit, ht, hdate, huntil, h]

/-- C23, the claim as stated fails at the empty token and at a past form date:
the empty token has one dot-separated part and yields no doctor id, yet both
handlers report `Please login again`; and `handleSubmit` with the two-part
token `ab.cd` and a form dated before today reports the past date.  No request
is sent in either case. -/
theorem jwt_empty_token_counterexample :
    (split '.' "").length = 1 ∧
    decodeDoctorId sampleAvailabilityEnv.payloadId "" = none ∧
    fetchAvailability { sampleAvailabilityState with dToken := "" } sampleAvailabilityEnv
      = ({ sampleAvailabilityState with dToken := "", isLoading := false },
          [Effect.toast (Toast.error (some "Please login again"))]) ∧
    handleSubmit { sampleAvailabilityState with dToken := "" } sampleAvailabilityEnv
      = ({ sampleAvailabilityState with dToken := "" },
          [Effect.toast (Toast.error (some "Please login again"))]) ∧
    (split '.' "ab.cd").length = 2 ∧
    handleSubmit
        { sampleAvailabilityState with
          dToken := "ab.cd", formData := { sampleForm with date := "2026-11-03" } }
        sampleAvailabilityEnv
      = ({ sampleAvailabilityState with
            dToken := "ab.cd", formData := { sampleForm with date := "2026-11-03" } },
          [Effect.toast (Toast.error (some pastDateMessage))]) := by
  decide

/-- C23 (amended): for every non-empty token, in `fetchAvailability` and, once
the form passed the two date checks, in `handleSubmit`, either the decoding
block obtains a non-empty doctor id from the payload, or it obtains none and the
handler shows exactly the toast `Invalid token. Please login again` and sends no
request (`fetchAvailability` also stops loading).  Every non-empty token that
does not split at the dots into exactly three parts is rejected this way.
Whatever the token and the form, a handler that obtained no doctor id sends no
request. -/
theorem jwt_decoding_safe (st : AvailabilityState) (env : AvailabilityEnv)
    (htoken : st.dToken ≠ "") :
    ((∃ doctorId, decodeDoctorId env.payloadId st.dToken = some doctorId ∧ doctorId ≠ "") ∨
      (decodeDoctorId env.payloadId st.dToken = none ∧
        fetchAvailability st env
          = ({ st with isLoading := false },
              [Effect.toast (Toast.error (some "Invalid token. Please login again"))]) ∧
        requests (fetchAvailability st env).2 = [])) ∧
    (strLt st.formData.date env.today = false →
      repeatUntilInPast st.formData env.today = false →
      ((∃ doctorId, decodeDoctorId env.payloadId st.dToken = some doctorId ∧ doctorId ≠ "") ∨
        (decodeDoctorId env.payloadId st.dToken = none ∧
          handleSubmit st env
            = (st, [Effect.toast (Toast.error (some "Invalid token. Please login again"))]) ∧
          requests (handleSubmit st env).2 = []))) ∧
    ((split '.' st.dToken).length ≠ 3 →
      fetchAvailability st env
        = ({ st with isLoading := false },
            [Effect.toast (Toast.error (some "Invalid token. Please login again"))]) ∧
      (strLt st.formData.date env.today = false →
        repeatUntilInPast st.formData env.today = false →
        handleSubmit st env
          = (st, [Effect.toast (Toast.error (some "Invalid token. Please login again"))]))) ∧
    (decodeDoctorId env.payloadId st.dToken = none →
      requests (fetchAvailability st env).2 = [] ∧ requests (handleSubmit st env).2 = []) := by
  have hid : ∀ doctorId, decodeDoctorId env.payloadId st.dToken = some doctorId →
      doctorId ≠ "" := by
    intro doctorId h e
    have := decodeDoctorId_truthy env.payloadId st.dToken doctorId h
    rw [e] at this
    exact absurd this (by decide)
  refine ⟨?_, ?_, ?_, ?_⟩
  · cases h : decodeDoctorId env.payloadId st.dToken with
    | some doctorId => exact Or.inl ⟨doctorId, rfl, hid doctorId h⟩
    | none =>
      exact Or.inr ⟨rfl, fetchAvailability_invalid st env htoken h,
        fetchAvailability_no_request st env h⟩
  · intro hdate huntil
    cases h : decodeDoctorId env.payloadId st.dToken with
    | some doctorId => exact Or.inl ⟨doctorId, rfl, hid doctorId h⟩
    | none =>
      exact Or.inr ⟨rfl, handleSubmit_invalid st env htoken hdate huntil h,
        handleSubmit_no_request st env h⟩
  · intro hparts
    have h := decodeDoctorId_parts env.payloadId st.dToken hparts
    exact ⟨fetchAvailability_invalid st env htoken h,
      fun hdate huntil => handleSubmit_invalid st env htoken hdate huntil h⟩
  · intro h
    exact ⟨fetchAvailability_no_request st env h, handleSubmit_no_request st env h⟩

/-- C23 (amended) at the two-part token `ab.cd` with the sample form, dated
tomorrow: both handlers report the invalid token and send no request. -/
theorem jwt_decoding_safe_witness :
    fetchAvailability { sampleAvailabilityState with dToken := "ab.cd" } sampleAvailabilityEnv
      = ({ sampleAvailabilityState with dToken := "ab.cd", isLoading := false },
          [Effect.toast (Toast.error (some "Invalid token. Please login again"))]) ∧
    handleSubmit { sampleAvailabilityState with dToken := "ab.cd" } sampleAvailabilityEnv
      = ({ sampleAvailabilityState with dToken := "ab.cd" },
          [Effect.toast (Toast.error (some "Invalid token. Please login again"))]) :=
  have h := (jwt_decoding_safe { sampleAvailabilityState with dToken := "ab.cd" }
    sampleAvailabilityEnv (by decide)).2.2.1 (by decide)
  ⟨h.1, h.2 (by decide) (by decide)⟩

end MediQ
